import Mathlib

/-!
# angular-digest-auth: interceptor and authentication service

A shallow embedding of `src/angular-digest-auth.js` (the `responseError`
interceptor and the listeners of the run block that call the service) and of
`src/services/auth-service.js` (`AuthService`).

The JavaScript closures share mutable variables (`_identity`, `_loginRequest`,
`_logoutRequest`, the `_auth` cookie, the credential storage) and create `$q`
deferreds. Here every operation is a function on an explicit `State`:

* a deferred is an index into `State.deferreds`; `$q.defer()` appends one;
* `promise.then(...)` registers a `Callback`; settling a deferred moves its
  callbacks to `State.queue`, and `runTask` runs one queued callback, as `$q`
  does on a later tick;
* `$http(config)` appends an `Exchange`; the answer of the transport is
  delivered later to the handlers that `performLogin` / `performLogout` passed to
  `then`, here `loginSuccess`, `loginFailure`, `logoutSuccess`, `logoutFailure`;
* `$rootScope.$broadcast` appends to `State.events` and runs the listeners that
  the run block registers.

The `request` interceptor and the listener of `process.request` only stamp the
outgoing request through `authClient`; they read the credentials and change
nothing here, and are left out. The callbacks of the configuration are foreign
code: a call they make into the service is an `Action` of its own.
-/

namespace DgAuth

/-! ## JavaScript values -/

/-- A JavaScript value, as far as this code inspects one. -/
inductive JsVal where
  | undefined
  | null
  | bool (b : Bool)
  | num (n : Int)
  | str (s : String)
  | arr (items : List JsVal)
  | obj (fields : List (String × JsVal))

/-- The expression `null !== v` is false exactly for `null`. -/
def JsVal.isNull : JsVal → Bool
  | .null => true
  | _ => false

/-- The property read `v.data`. On `null` and `undefined` JavaScript throws a
TypeError, which is `none` here; an object yields its own `data` field or
`undefined`; no other value has a `data` property. -/
def JsVal.getData : JsVal → Option JsVal
  | .undefined => none
  | .null => none
  | .obj fields => some ((fields.lookup "data").getD .undefined)
  | _ => some .undefined

/-! ## Data model -/

/-- The object `$http` hands to its handlers and to `responseError`. The field
`mustTerminate` is the truthiness of `rejection.mustTerminate` as line 34 of
`angular-digest-auth.js` reads it. -/
structure Response where
  status : Int
  data : JsVal
  config : JsVal
  headers : List (String × String)
  mustTerminate : Bool

/-- The object built at lines 46-49 of `angular-digest-auth.js`: the
configuration of the request that failed and a deferred. -/
structure HttpRequest where
  config : JsVal
  deferred : Nat

/-- The object returned by `initLogin`. -/
structure LoginRequest where
  username : String
  password : String
  httpRequest : Option HttpRequest
  deferred : Option Nat
  mustTerminate : Bool

/-- The object returned by `initLogout`. -/
structure LogoutRequest where
  deferred : Option Nat
  mustTerminate : Bool

/-- The logical names given to `authEvents.getEvent`, with what is broadcast. -/
inductive Event where
  | processResponse (rejection : Response)
  | credentialSubmitted (username password : String)
  | credentialRestored (username password : String)
  | credentialStored (username password : String)
  | authenticationHeader (request : HttpRequest)
  | authenticationNotFound
  | signinRequired
  | loginRequired
  | loginSuccessful (response : Response)
  | loginError (response : Response)
  | logoutSuccessful (response : Response)
  | logoutError (response : Response)

/-- The state of a `$q` promise. -/
inductive Settlement where
  | pending
  | resolved (value : JsVal)
  | rejected (reason : JsVal)

/-- The callbacks this code passes to `then`. `loginCallback i` and
`logoutCallback i` stand for the handlers of `_callbacks.login[i]` and
`_callbacks.logout[i]`; `authAfterLogout d` and `authAfterLogin d` are the two
pairs of functions of `isAuthenticated`, closed over its local deferred `d`. -/
inductive Callback where
  | loginCallback (i : Nat)
  | logoutCallback (i : Nat)
  | authAfterLogout (result : Nat)
  | authAfterLogin (result : Nat)

/-- What a promise tells a registered callback. -/
inductive Signal where
  | fulfilled (value : JsVal)
  | rejected (reason : JsVal)
  | progress

/-- A callback scheduled by `$q`, waiting for its tick. -/
structure Task where
  callback : Callback
  signal : Signal

/-- A `$q` deferred: the state of its promise, the callbacks registered while
it is pending, and how many times `notify` went through. -/
structure Deferred where
  state : Settlement
  callbacks : List Callback
  notified : Nat

/-- Which configuration `$http` was called with: `_login` or `_logout`. -/
inductive ExchangeKind where
  | login
  | logout
  deriving DecidableEq

/-- One call of `$http`: its kind, the deferred its handlers close over, and
whether the transport has answered. -/
structure Exchange where
  kind : ExchangeKind
  deferred : Nat
  delivered : Bool

/-- What is fixed when the service is created. `createHash` is `md5.createHash`
and `parseHeader` is `authServer.parseHeader`, neither of which is part of these
sources; `automatic` is `config.automatic`; `loginCallbacks` and
`logoutCallbacks` are the lengths of `_callbacks.login` and `_callbacks.logout`. -/
structure Env where
  createHash : String → String
  parseHeader : Response → Bool
  automatic : Bool
  loginCallbacks : Nat
  logoutCallbacks : Nat

/-- Everything the closures of the interceptor and of `AuthService` share.
`cookie` is `$cookies['_auth']`. `storage` is `authStorage`. -/
structure State where
  identity : JsVal
  cookie : Option String
  loginRequest : LoginRequest
  logoutRequest : LogoutRequest
  storage : Option (String × String)
  deferreds : List Deferred
  exchanges : List Exchange
  queue : List Task
  events : List Event
  exceptions : List String

/-- The function `initLogin`. -/
def initLogin : LoginRequest :=
  { username := "", password := "", httpRequest := none, deferred := none,
    mustTerminate := false }

/-- The function `initLogout`. -/
def initLogout : LogoutRequest :=
  { deferred := none, mustTerminate := true }

/-- The state right after `new AuthService(...)`: `_identity = null`, fresh
login and logout objects. The cookie and the storage outlive the page. -/
def State.init (cookie : Option String) (storage : Option (String × String)) : State :=
  { identity := .null, cookie := cookie, loginRequest := initLogin,
    logoutRequest := initLogout, storage := storage, deferreds := [],
    exchanges := [], queue := [], events := [], exceptions := [] }

/-! ## `$q` -/

/-- The state of the promise of deferred `d`. -/
def State.promise (s : State) (d : Nat) : Option Settlement :=
  (s.deferreds[d]?).map Deferred.state

/-- The call `$q.defer()`: a new pending deferred, with its index. -/
def defer (s : State) : Nat × State :=
  (s.deferreds.length,
    { s with deferreds := s.deferreds ++ [{ state := .pending, callbacks := [], notified := 0 }] })

/-- What `resolve` and `reject` share: a pending promise takes its final state
and its callbacks are scheduled with the signal; a settled promise ignores the
call. -/
def settle (d : Nat) (state : Settlement) (signal : Signal) (s : State) : State :=
  match s.deferreds[d]? with
  | some { state := .pending, callbacks := cbs, notified := n } =>
    { s with
      deferreds := s.deferreds.set d { state := state, callbacks := [], notified := n }
      queue := s.queue ++ cbs.map fun cb => { callback := cb, signal := signal } }
  | _ => s

/-- The call `deferred.resolve(value)`. -/
def resolve (d : Nat) (value : JsVal) (s : State) : State :=
  settle d (.resolved value) (.fulfilled value) s

/-- The call `deferred.reject(reason)`. -/
def reject (d : Nat) (reason : JsVal) (s : State) : State :=
  settle d (.rejected reason) (.rejected reason) s

/-- The call `deferred.notify()`: a pending promise tells its callbacks of
progress and stays pending; a settled one ignores it. -/
def notify (d : Nat) (s : State) : State :=
  match s.deferreds[d]? with
  | some { state := .pending, callbacks := cbs, notified := n } =>
    { s with
      deferreds := s.deferreds.set d { state := .pending, callbacks := cbs, notified := n + 1 }
      queue := s.queue ++ cbs.map fun cb => { callback := cb, signal := .progress } }
  | _ => s

/-- The call `deferred.promise.then(...)` with the functions `cb` stands for:
kept while the promise is pending, scheduled at once when it is settled. -/
def registerThen (d : Nat) (cb : Callback) (s : State) : State :=
  match s.deferreds[d]? with
  | some { state := .pending, callbacks := cbs, notified := n } =>
    { s with deferreds := s.deferreds.set d { state := .pending, callbacks := cbs ++ [cb], notified := n } }
  | some { state := .resolved value, .. } =>
    { s with queue := s.queue ++ [{ callback := cb, signal := .fulfilled value }] }
  | some { state := .rejected reason, .. } =>
    { s with queue := s.queue ++ [{ callback := cb, signal := .rejected reason }] }
  | none => s

/-! ## The event bus and the listeners of the run block -/

/-- The method `setHttpRequest`. -/
def setHttpRequest (request : HttpRequest) (s : State) : State :=
  { s with loginRequest := { s.loginRequest with httpRequest := some request } }

/-- The call `$rootScope.$broadcast(authEvents.getEvent(name), arg)`: the event
is recorded and the listeners of the run block run. The listener of
`process.response` calls `authService.mustTerminate`, which `AuthService` does
not define: the call throws, `$broadcast` hands the error to the exception
handler and goes on. The listener of `authentication.header` calls
`setHttpRequest`. -/
def broadcast (ev : Event) (s : State) : State :=
  let s1 := { s with events := s.events ++ [ev] }
  match ev with
  | .processResponse _ =>
    { s1 with exceptions := s1.exceptions ++ ["TypeError: authService.mustTerminate is not a function"] }
  | .authenticationHeader request => setHttpRequest request s1
  | _ => s1

/-! ## The credential storage -/

/-- Modelled from the spec: the Credential Store behind `authStorage`, whose
code is not part of these sources; `hasCredential() -> bool`. -/
def hasCredential (storage : Option (String × String)) : Bool :=
  storage.isSome

/-- Modelled from the spec: `getUsername() -> string` of the Credential Store.
The service reads it only after `hasCredential()` answered true. -/
def getUsername (storage : Option (String × String)) : String :=
  (storage.map Prod.fst).getD ""

/-- Modelled from the spec: `getPassword() -> string` of the Credential Store. -/
def getPassword (storage : Option (String × String)) : String :=
  (storage.map Prod.snd).getD ""

/-- Modelled from the spec: `setCredentials(username, password) -> void` of the
Credential Store. -/
def storeCredentials (username password : String) (s : State) : State :=
  { s with storage := some (username, password) }

/-! ## `AuthService` -/

/-- The method `setCredentials`. -/
def setCredentials (username password : String) (s : State) : State :=
  let s1 := { s with loginRequest :=
    { s.loginRequest with username := username, password := password, mustTerminate := true } }
  broadcast (.credentialSubmitted s1.loginRequest.username s1.loginRequest.password) s1

/-- The method `getCredentials`. -/
def getCredentials (s : State) : String × String :=
  (s.loginRequest.username, s.loginRequest.password)

/-- The test `$cookies['_auth'] == md5.createHash('true')`. -/
def cookieSaysAuthenticated (env : Env) (s : State) : Bool :=
  s.cookie == some (env.createHash "true")

/-- The expression `$cookies['_auth'] == md5.createHash('true') && null !== _identity`. -/
def authCheck (env : Env) (s : State) : Bool :=
  cookieSaysAuthenticated env s && !s.identity.isNull

/-- The first function `performLogin` passes to `then`, closed over the local
`deferred`: what runs when the login exchange succeeds. -/
def loginSuccess (env : Env) (deferred : Nat) (response : Response) (s : State) : State :=
  let s1 := { s with identity := response.data }
  let s2 := { s1 with cookie := some (env.createHash "true") }
  let s3 := storeCredentials s2.loginRequest.username s2.loginRequest.password s2
  let s4 := broadcast (.credentialStored s3.loginRequest.username s3.loginRequest.password) s3
  let s5 := broadcast (.loginSuccessful response) s4
  let s6 := { s5 with loginRequest := { s5.loginRequest with mustTerminate := false } }
  resolve deferred response.data s6

/-- The second function `performLogin` passes to `then`: what runs when the
login exchange fails. -/
def loginFailure (deferred : Nat) (response : Response) (s : State) : State :=
  let s1 :=
    if !s.loginRequest.mustTerminate then
      notify deferred (broadcast .loginRequired s)
    else
      reject deferred response.data (broadcast (.loginError response) s)
  { s1 with loginRequest := initLogin }

/-- The function `performLogin`: a new deferred and one call of `$http(_login)`
whose handlers are `loginSuccess` and `loginFailure` for that deferred. -/
def performLogin (s : State) : Nat × State :=
  let (d, s1) := defer s
  (d, { s1 with exchanges := s1.exchanges ++ [{ kind := .login, deferred := d, delivered := false }] })

/-- The loop `for(var i in callbacks)` of `signin` and `signout`: one `then` on
the promise of `d` for each configured callback. -/
def attachCallbacks (mk : Nat → Callback) (count : Nat) (d : Nat) (s : State) : State :=
  (List.range count).foldl (fun st i => registerThen d (mk i) st) s

/-- The first statement of `signin`: credentials are taken from the storage
when the cookie says authenticated or `_automatic` is set, and the storage has
some. -/
def restoreCredentials (env : Env) (s : State) : State :=
  if cookieSaysAuthenticated env s || env.automatic then
    if hasCredential s.storage then
      let s1 := { s with loginRequest :=
        { s.loginRequest with
          username := getUsername s.storage, password := getPassword s.storage,
          mustTerminate := true } }
      broadcast (.credentialRestored s1.loginRequest.username s1.loginRequest.password) s1
    else s
  else s

/-- The method `signin`. The result names the deferred whose promise is
returned. -/
def signin (env : Env) (s : State) : Nat × State :=
  let s1 := restoreCredentials env s
  match s1.loginRequest.deferred with
  | some d => (d, s1)
  | none =>
    let (d, s2) := performLogin s1
    let s3 := { s2 with loginRequest := { s2.loginRequest with deferred := some d } }
    (d, attachCallbacks .loginCallback env.loginCallbacks d s3)

/-- The first function `performLogout` passes to `then`: what runs when the
logout exchange succeeds. -/
def logoutSuccess (env : Env) (deferred : Nat) (response : Response) (s : State) : State :=
  let s1 := { s with cookie := some (env.createHash "false") }
  let s2 := { s1 with identity := .null }
  let s3 := { s2 with loginRequest := initLogin }
  let s4 := broadcast (.logoutSuccessful response) s3
  resolve deferred response.data s4

/-- The second function `performLogout` passes to `then`: what runs when the
logout exchange fails. -/
def logoutFailure (deferred : Nat) (response : Response) (s : State) : State :=
  reject deferred response.data (broadcast (.logoutError response) s)

/-- The function `performLogout`. -/
def performLogout (s : State) : Nat × State :=
  let (d, s1) := defer s
  (d, { s1 with exchanges := s1.exchanges ++ [{ kind := .logout, deferred := d, delivered := false }] })

/-- The method `signout`. -/
def signout (env : Env) (s : State) : Nat × State :=
  match s.logoutRequest.deferred with
  | some d => (d, s)
  | none =>
    let (d, s1) := performLogout s
    let s2 := { s1 with logoutRequest := { s1.logoutRequest with deferred := some d } }
    (d, attachCallbacks .logoutCallback env.logoutCallbacks d s2)

/-- The method `isAuthenticated`. The result names its local deferred, whose
promise is returned. -/
def isAuthenticated (s : State) : Nat × State :=
  let (d, s1) := defer s
  match s1.logoutRequest.deferred with
  | some l => (d, registerThen l (.authAfterLogout d) s1)
  | none =>
    match s1.loginRequest.deferred with
    | some l => (d, registerThen l (.authAfterLogin d) s1)
    | none => (d, s1)

/-- The statement `deferred.reject(response.data)` of `isAuthenticated`, where
`response` is what the watched promise was settled with. When the property read
throws, `$q` hands the error to the exception handler and `deferred` is left
as it was. -/
def rejectWithData (d : Nat) (response : JsVal) (s : State) : State :=
  match response.getData with
  | some v => reject d v s
  | none => { s with exceptions := s.exceptions ++ ["TypeError: cannot read property data"] }

/-- What a scheduled callback does. The callbacks of the configuration are
foreign code: they get the signal and do not touch this state. A promise
fulfilled runs the first function given to `then`, a promise rejected the
second. -/
def runCallback (env : Env) (t : Task) (s : State) : State :=
  match t.callback, t.signal with
  | .authAfterLogout d, .fulfilled response => rejectWithData d response s
  | .authAfterLogout d, .rejected _ => resolve d (.bool (authCheck env s)) s
  | .authAfterLogin d, .fulfilled _ => resolve d (.bool (authCheck env s)) s
  | .authAfterLogin d, .rejected response => rejectWithData d response s
  | _, _ => s

/-- One tick of `$q`: the oldest scheduled callback runs. -/
def runTask (env : Env) (s : State) : State :=
  match s.queue with
  | [] => s
  | t :: rest => runCallback env t { s with queue := rest }

/-! ## The interceptor -/

/-- What `responseError` returns: `$q.reject(rejection)` or the promise of a
deferred. -/
inductive Outcome where
  | rejection (rejection : Response)
  | promise (deferred : Nat)

/-- The interceptor function `responseError`. -/
def responseError (env : Env) (rejection : Response) (s : State) : Outcome × State :=
  if rejection.status = 401 then
    let s1 := broadcast (.processResponse rejection) s
    if rejection.mustTerminate then
      (.rejection rejection, s1)
    else if !env.parseHeader rejection then
      (.rejection rejection, broadcast .authenticationNotFound s1)
    else
      let (deferred, s2) := defer s1
      let request : HttpRequest := { config := rejection.config, deferred := deferred }
      let s3 := broadcast (.authenticationHeader request) s2
      let s4 := broadcast .signinRequired s3
      (.promise deferred, s4)
  else
    (.rejection rejection, s)

/-! ## Runs -/

/-- What can happen to the service: a call of one of its methods, a failed
request of the application reaching the interceptor, the transport answering
exchange number `i`, or a tick of `$q`. -/
inductive Action where
  | signin
  | signout
  | isAuthenticated
  | setCredentials (username password : String)
  | setHttpRequest (request : HttpRequest)
  | responseError (rejection : Response)
  | httpSuccess (i : Nat) (response : Response)
  | httpError (i : Nat) (response : Response)
  | runTask

/-- The transport answers an exchange with success: the first handler of its
`then` runs. An exchange is answered once. -/
def httpSuccess (env : Env) (i : Nat) (response : Response) (s : State) : State :=
  match s.exchanges[i]? with
  | some { kind := kind, deferred := d, delivered := false } =>
    let s1 := { s with exchanges := s.exchanges.set i { kind := kind, deferred := d, delivered := true } }
    match kind with
    | .login => loginSuccess env d response s1
    | .logout => logoutSuccess env d response s1
  | _ => s

/-- The transport answers an exchange with an error. The error first goes
through `responseError`, as every `$http` error does; the second handler of the
`then` runs only when the interceptor returns a rejection. When the interceptor
returns the promise of a suspended request, the handlers wait for that promise. -/
def httpError (env : Env) (i : Nat) (response : Response) (s : State) : State :=
  match s.exchanges[i]? with
  | some { kind := kind, deferred := d, delivered := false } =>
    let s1 := { s with exchanges := s.exchanges.set i { kind := kind, deferred := d, delivered := true } }
    match responseError env response s1 with
    | (.rejection r, s2) =>
      match kind with
      | .login => loginFailure d r s2
      | .logout => logoutFailure d r s2
    | (.promise _, s2) => s2
  | _ => s

/-- One action. -/
def step (env : Env) (s : State) : Action → State
  | .signin => (signin env s).2
  | .signout => (signout env s).2
  | .isAuthenticated => (isAuthenticated s).2
  | .setCredentials u p => setCredentials u p s
  | .setHttpRequest request => setHttpRequest request s
  | .responseError rejection => (responseError env rejection s).2
  | .httpSuccess i response => httpSuccess env i response s
  | .httpError i response => httpError env i response s
  | .runTask => runTask env s

/-- A run: the actions in order. -/
def run (env : Env) (s : State) (actions : List Action) : State :=
  actions.foldl (step env) s

/-! ## Observations and sample data -/

/-- How many progress notifications deferred `d` has passed on. -/
def State.notified (s : State) (d : Nat) : Option Nat :=
  (s.deferreds[d]?).map Deferred.notified

/-- The callbacks registered on deferred `d` and still waiting. -/
def State.callbacksOf (s : State) (d : Nat) : List Callback :=
  ((s.deferreds[d]?).map Deferred.callbacks).getD []

/-- A configuration to run the code on: a stand-in hash that keeps its two
arguments apart, a header parser that accepts any `WWW-Authenticate` header, no
automatic reconnection, one login callback. -/
def sampleEnv : Env :=
  { createHash := fun x => "md5:" ++ x
    parseHeader := fun r => (r.headers.lookup "WWW-Authenticate").isSome
    automatic := false
    loginCallbacks := 1
    logoutCallbacks := 0 }

/-- A 401 answer to `/orders` with a challenge header. -/
def challenge401 : Response :=
  { status := 401, data := .str "", config := .str "/orders",
    headers := [("WWW-Authenticate", "Digest realm=x")], mustTerminate := false }

/-- A 401 answer to `/orders` without a challenge header. -/
def bare401 : Response :=
  { status := 401, data := .str "", config := .str "/orders", headers := [],
    mustTerminate := false }

/-- A 500 answer. -/
def serverError : Response :=
  { status := 500, data := .str "down", config := .str "/orders", headers := [],
    mustTerminate := false }

/-- A successful answer of the login exchange, carrying an identity. -/
def loginOk : Response :=
  { status := 200, data := .obj [("id", .num 1), ("name", .str "alice")],
    config := .str "/signin", headers := [], mustTerminate := false }

/-- A failed answer of the login exchange, carrying an error record. -/
def loginRefused : Response :=
  { status := 403, data := .obj [("error", .str "bad credentials")],
    config := .str "/signin", headers := [], mustTerminate := false }

/-- A failed answer of the login exchange without a body. -/
def loginRefusedEmpty : Response :=
  { status := 403, data := .null, config := .str "/signin", headers := [],
    mustTerminate := false }

/-- A successful answer of the logout exchange. -/
def logoutOk : Response :=
  { status := 200, data := .obj [("ok", .bool true)], config := .str "/signout",
    headers := [], mustTerminate := false }

/-- A failed answer of the logout exchange. -/
def logoutFailed : Response :=
  { status := 500, data := .str "down", config := .str "/signout", headers := [],
    mustTerminate := false }

/-- A state with a login in flight: credentials submitted, then `signin`. -/
def signingIn : State :=
  run sampleEnv (State.init none none) [.setCredentials "alice" "pw1", .signin]

/-- A state with a logout in flight. -/
def signingOut : State :=
  run sampleEnv (State.init none none) [.signout]

/-- The scenario of the specification: a request to `/orders` answers 401
with a challenge, the credentials of alice are submitted, `signin` is called,
the login exchange succeeds, and the scheduled callback runs. Deferred 0 is the
one of the suspended request, deferred 1 the one of the login. -/
def ordersThenLoginOk : State :=
  run sampleEnv (State.init none none)
    [.responseError challenge401, .setCredentials "alice" "pw1", .signin,
      .httpSuccess 0 loginOk, .runTask]

/-- The same scenario with the login exchange refused. The submitted
credentials made the attempt terminal. -/
def ordersThenLoginRefused : State :=
  run sampleEnv (State.init none none)
    [.responseError challenge401, .setCredentials "alice" "pw1", .signin,
      .httpError 0 loginRefused, .runTask]

/-- A login is in flight, `isAuthenticated` is called, the login exchange is
refused with an error record, and the two scheduled callbacks run. Deferred 0
is the one of the login, deferred 1 the one of `isAuthenticated`. -/
def checkThenLoginRefused : State :=
  run sampleEnv signingIn [.isAuthenticated, .httpError 0 loginRefused, .runTask, .runTask]

/-- The same with a refusal that has no body. -/
def checkThenLoginRefusedEmpty : State :=
  run sampleEnv signingIn [.isAuthenticated, .httpError 0 loginRefusedEmpty, .runTask, .runTask]

/-- A logout is in flight, `isAuthenticated` is called, the logout exchange
succeeds, and the scheduled callback runs. Deferred 0 is the one of the logout,
deferred 1 the one of `isAuthenticated`. -/
def checkThenLogoutOk : State :=
  run sampleEnv signingOut [.isAuthenticated, .httpSuccess 0 logoutOk, .runTask]

/-- The same with the logout exchange failing. -/
def checkThenLogoutFailed : State :=
  run sampleEnv signingOut [.isAuthenticated, .httpError 0 logoutFailed, .runTask]

/-- A sign-out that succeeds, then a sign-in that succeeds, then a call of
`isAuthenticated`, and the scheduled callbacks run. Deferred 0 is the one of the
logout, deferred 1 the one of the login, deferred 2 the one of
`isAuthenticated`. -/
def checkAfterSignOutAndIn : State :=
  run sampleEnv (State.init none none)
    [.signout, .httpSuccess 0 logoutOk, .setCredentials "alice" "pw1", .signin,
      .httpSuccess 1 loginOk, .runTask, .isAuthenticated, .runTask]

/-! ## Invariants of runs -/

/-- The deferred that a callback of `isAuthenticated` settles when it runs. -/
def Callback.target : Callback → Option Nat
  | .authAfterLogout d => some d
  | .authAfterLogin d => some d
  | _ => none

/-- Every deferred that an exchange or a callback closes over, and the
deferred of the login and of the logout object, has been created. -/
def State.WellFormed (s : State) : Prop :=
  (∀ e ∈ s.exchanges, e.deferred < s.deferreds.length) ∧
    (∀ t ∈ s.queue, ∀ d, t.callback.target = some d → d < s.deferreds.length) ∧
    (∀ x ∈ s.deferreds, ∀ cb ∈ x.callbacks, ∀ d, cb.target = some d → d < s.deferreds.length) ∧
    (∀ d, s.loginRequest.deferred = some d → d < s.deferreds.length) ∧
    (∀ d, s.logoutRequest.deferred = some d → d < s.deferreds.length)

/-- Deferred `d`, the result of a call of `isAuthenticated`, waits for deferred
`l`: no exchange closes over `d`; a callback that settles `d` is registered on
`l` only; a scheduled callback that settles `d` is there only once `l` is
settled; and `d` is settled only once `l` is. -/
def Awaits (d l : Nat) (s : State) : Prop :=
  d < s.deferreds.length ∧ l < s.deferreds.length ∧
    (∀ e ∈ s.exchanges, e.deferred ≠ d) ∧
    (∀ k x, s.deferreds[k]? = some x → ∀ cb ∈ x.callbacks, cb.target = some d → k = l) ∧
    (∀ t ∈ s.queue, t.callback.target = some d → t.signal ≠ .progress →
      s.promise l ≠ some .pending) ∧
    (s.promise d ≠ some .pending → s.promise l ≠ some .pending)

/-- Nothing is there to settle deferred `d`: it is pending, no exchange closes
over it, and no registered or scheduled callback settles it. -/
def Untouched (d : Nat) (s : State) : Prop :=
  s.promise d = some .pending ∧
    (∀ e ∈ s.exchanges, e.deferred ≠ d) ∧
    (∀ x ∈ s.deferreds, ∀ cb ∈ x.callbacks, cb.target ≠ some d) ∧
    (∀ t ∈ s.queue, t.callback.target ≠ some d)


/-! ## `AuthIdentity` -/

/-- The test `value instanceof Object`: true of an object and of an array,
false of `null`, `undefined` and the primitive values. -/
def JsVal.instanceOfObject : JsVal → Bool
  | .obj _ => true
  | .arr _ => true
  | _ => false

/-- The truthiness of a value, as `if(v)` and `!v` take it. -/
def JsVal.truthy : JsVal → Bool
  | .undefined => false
  | .null => false
  | .bool b => b
  | .num n => n != 0
  | .str s => s != ""
  | .arr _ => true
  | .obj _ => true

/-- The test `if(key)` on the optional string parameter `key`: a key left out
and the empty string are falsy. -/
def keyGiven : Option String → Bool
  | some k => k != ""
  | none => false

/-- The assignment `o[key] = value` on the own properties of a plain object:
the property is replaced where it exists and added where it does not. -/
def assignField (fields : List (String × JsVal)) (key : String) (value : JsVal) :
    List (String × JsVal) :=
  match fields with
  | [] => [(key, value)]
  | (k, v) :: rest =>
    if k = key then (key, value) :: rest else (k, v) :: assignField rest key value

/-- The names of the elements of an array of the given length: `0`, `1`, ... -/
def indexKeys (length : Nat) : List String :=
  (List.range length).map toString

/-- The own properties of an array: its elements and its `length`. -/
def arrayProperties (items : List JsVal) : List (String × JsVal) :=
  (indexKeys items.length).zip items ++ [("length", .num items.length)]

/-- How a call of `set` ends: the variable `_identity` holds a new value; or the
call threw and `_identity` is what it was; or the assignment is one this model
does not cover. -/
inductive SetOutcome where
  | stored (identity : JsVal)
  | thrown (message : String) (identity : JsVal)
  | exotic

/-- How a call of `get` ends: it returns a value; or the call of
`_identity.hasOwnProperty` throws a TypeError, the identity having a property
of its own under that name, which is not a function; or `_identity` holds a
primitive, which the code never stores and this model does not cover. -/
inductive GetOutcome where
  | value (v : JsVal)
  | typeError
  | exotic

/-- The assignment `_identity[key] = value` of `set`, after `null == _identity`
has put an empty object in place of `null` or `undefined`. On an object the
key `__proto__` names the prototype where the engine has that accessor and an
own property where it has not: not covered. On an array the assignment of an
existing element replaces it and the assignment of the element one past the
end appends it; the other assignments to an array (further elements, `length`,
named properties) are not covered. -/
def assignIdentity (identity : JsVal) (key : String) (value : JsVal) : SetOutcome :=
  match identity with
  | .null => if key = "__proto__" then .exotic else .stored (.obj (assignField [] key value))
  | .undefined => if key = "__proto__" then .exotic else .stored (.obj (assignField [] key value))
  | .obj fields =>
    if key = "__proto__" then .exotic else .stored (.obj (assignField fields key value))
  | .arr items =>
    match (indexKeys (items.length + 1)).indexOf? key with
    | some i => if i < items.length then .stored (.arr (items.set i value))
                else .stored (.arr (items ++ [value]))
    | none => .exotic
  | _ => .exotic

/-- The method `set` of `AuthIdentity`, on the value of `_identity`. -/
def AuthIdentity.set (identity : JsVal) (key : Option String) (value : JsVal) : SetOutcome :=
  if keyGiven key then
    assignIdentity identity (key.getD "") value
  else if value.instanceOfObject then
    .stored value
  else
    .thrown "You have to provide an object if you want to set the identity without a key."
      identity

/-- The expression `_identity.hasOwnProperty(key)` followed by the read
`_identity[key]`, or `null` where the identity has no such property of its own.
On an object the method `hasOwnProperty` is the one every object inherits,
unless the object has a property of its own under that name: the values here
hold no function, so the call then throws. -/
def readOwn (identity : JsVal) (key : String) : GetOutcome :=
  match identity with
  | .obj fields =>
    match fields.lookup "hasOwnProperty" with
    | some _ => .typeError
    | none => .value ((fields.lookup key).getD .null)
  | .arr items => .value (((arrayProperties items).lookup key).getD .null)
  | _ => .exotic

/-- The method `get` of `AuthIdentity`. -/
def AuthIdentity.get (identity : JsVal) (key : Option String) : GetOutcome :=
  if !keyGiven key then
    .value identity
  else if !identity.truthy then
    .value .null
  else
    readOwn identity (key.getD "")

/-- The method `has` of `AuthIdentity`. -/
def AuthIdentity.has (identity : JsVal) : Bool :=
  !identity.isNull

/-- The method `clear` of `AuthIdentity`: the new value of `_identity`. -/
def AuthIdentity.clear (_identity : JsVal) : JsVal :=
  .null

/-- The values of `_identity` that are `null`, or a plain object with no
property of its own named `hasOwnProperty`. -/
def JsVal.nullOrPlain : JsVal → Bool
  | .null => true
  | .obj fields => (fields.lookup "hasOwnProperty").isNone
  | _ => false

/-! ## More sample runs and observations -/

/-- A 401 answer of the login exchange itself, with a challenge header. -/
def login401 : Response :=
  { status := 401, data := .str "", config := .str "/signin",
    headers := [("WWW-Authenticate", "Digest realm=x")], mustTerminate := false }

/-- `signin` is called with no credentials submitted or stored, the login
exchange is refused, and the scheduled callback runs. Deferred 0 is the one of
the login. -/
def signinRefusedOpen : State :=
  run sampleEnv (State.init none none) [.signin, .httpError 0 loginRefused, .runTask]

/-- Credentials are submitted, `signin` is called, the login exchange succeeds
and the scheduled callback runs. Deferred 0 is the one of the login. -/
def signedIn : State :=
  run sampleEnv (State.init none none)
    [.setCredentials "alice" "pw1", .signin, .httpSuccess 0 loginOk, .runTask]

/-- A login is in flight and the login exchange itself answers 401 with a
challenge. Deferred 0 is the one of the login, deferred 1 the one the
interceptor creates. -/
def loginChallenged : State :=
  run sampleEnv signingIn [.httpError 0 login401, .runTask]

/-- How many times `$http(_logout)` has been called. -/
def State.logoutExchanges (s : State) : Nat :=
  (s.exchanges.map Exchange.kind).count .logout

/-- From `s` to `s'` no settled promise changes: a promise resolved or rejected
in `s` has the same state in `s'`. -/
def Keeps (s s' : State) : Prop :=
  ∀ (j : Nat) (st : Settlement), st ≠ .pending → s.promise j = some st → s'.promise j = some st

/-- The identity is `null` unless the cookie says authenticated. -/
def IdentityNeedsFlag (env : Env) (s : State) : Prop :=
  s.identity.isNull = false → cookieSaysAuthenticated env s = true

/-- At most one logout exchange has been issued, and none while the logout
object has no deferred. -/
def LogoutOnce (s : State) : Prop :=
  (s.logoutRequest.deferred = none → s.logoutExchanges = 0) ∧ s.logoutExchanges ≤ 1

/-! ## Failures that reach a handler, and runs that keep the attempt -/

/-- Whether `responseError` suspends the failed request instead of rejecting:
the status is 401, the answer is not flagged terminal, and its header parses. -/
def suspends (env : Env) (rejection : Response) : Bool :=
  decide (rejection.status = 401) && !rejection.mustTerminate && env.parseHeader rejection

/-- Whether action `a`, taken in state `s`, runs one of the two handlers that
assign `initLogin()` to `_loginRequest`: the failure handler of a login
exchange, which runs when the interceptor rejects the failure, or the success
handler of a logout exchange. -/
def replacesAttempt (env : Env) (s : State) : Action → Bool
  | .httpSuccess i _ =>
    match s.exchanges[i]? with
    | some { kind := .logout, deferred := _, delivered := false } => true
    | _ => false
  | .httpError i response =>
    match s.exchanges[i]? with
    | some { kind := .login, deferred := _, delivered := false } => !suspends env response
    | _ => false
  | _ => false

/-- No step of the run from `s` runs a handler that replaces the login
attempt. -/
def attemptKept (env : Env) (s : State) : List Action → Bool
  | [] => true
  | a :: rest => !replacesAttempt env s a && attemptKept env (step env s a) rest

/-- How many times `$http(_login)` has been called. -/
def State.loginExchanges (s : State) : Nat :=
  (s.exchanges.map Exchange.kind).count .login

/-- No two exchanges close over the same deferred, and the deferred of the
login attempt, when it has one, is the deferred of a login exchange. -/
def OneExchangePerHandle (s : State) : Prop :=
  (s.exchanges.map Exchange.deferred).Nodup ∧
    (∀ d, s.loginRequest.deferred = some d →
      ∃ e ∈ s.exchanges, e.kind = .login ∧ e.deferred = d)

/-- A login started without credentials is refused; `signin` is called again
while the first handle is still pending. -/
def signinAfterOpenRefusal : Nat × State :=
  signin sampleEnv signinRefusedOpen

/-- A login is in flight, `signout` is called and the logout exchange succeeds
while the login exchange is still unanswered. Deferred 0 is the one of the
login, deferred 1 the one of the logout. -/
def signedOutDuringLogin : State :=
  run sampleEnv (State.init none none)
    [.setCredentials "alice" "pw1", .signin, .signout, .httpSuccess 1 logoutOk, .runTask]

/-- A login started without credentials whose exchange answers 401 with a
challenge. -/
def openLoginChallenged : State :=
  run sampleEnv (State.init none none) [.signin, .httpError 0 login401, .runTask]

/-- After the login exchange answered 401 with a challenge, new credentials
are submitted and `signin` is called. -/
def retryAfterChallenge : Nat × State :=
  signin sampleEnv (setCredentials "alice" "pw2" loginChallenged)

/-- Nothing but the answer of its exchange settles deferred `d`: it is pending
and no registered or scheduled callback settles it. -/
def Waits (d : Nat) (s : State) : Prop :=
  s.promise d = some .pending ∧
    (∀ x ∈ s.deferreds, ∀ cb ∈ x.callbacks, cb.target ≠ some d) ∧
    (∀ t ∈ s.queue, t.callback.target ≠ some d)

/-- The deferred of every exchange that has not been answered waits for the
answer. -/
def UnansweredWait (s : State) : Prop :=
  ∀ e ∈ s.exchanges, e.delivered = false → Waits e.deferred s

/-! ## How the promise operations act on the state -/

@[simp] theorem settle_identity (d : Nat) (st : Settlement) (sg : Signal) (s : State) :
    (settle d st sg s).identity = s.identity := by
  unfold settle; split <;> rfl

@[simp] theorem settle_cookie (d : Nat) (st : Settlement) (sg : Signal) (s : State) :
    (settle d st sg s).cookie = s.cookie := by
  unfold settle; split <;> rfl

@[simp] theorem settle_loginRequest (d : Nat) (st : Settlement) (sg : Signal) (s : State) :
    (settle d st sg s).loginRequest = s.loginRequest := by
  unfold settle; split <;> rfl

@[simp] theorem settle_logoutRequest (d : Nat) (st : Settlement) (sg : Signal) (s : State) :
    (settle d st sg s).logoutRequest = s.logoutRequest := by
  unfold settle; split <;> rfl

@[simp] theorem settle_storage (d : Nat) (st : Settlement) (sg : Signal) (s : State) :
    (settle d st sg s).storage = s.storage := by
  unfold settle; split <;> rfl

@[simp] theorem settle_exchanges (d : Nat) (st : Settlement) (sg : Signal) (s : State) :
    (settle d st sg s).exchanges = s.exchanges := by
  unfold settle; split <;> rfl

@[simp] theorem settle_events (d : Nat) (st : Settlement) (sg : Signal) (s : State) :
    (settle d st sg s).events = s.events := by
  unfold settle; split <;> rfl

@[simp] theorem settle_exceptions (d : Nat) (st : Settlement) (sg : Signal) (s : State) :
    (settle d st sg s).exceptions = s.exceptions := by
  unfold settle; split <;> rfl

@[simp] theorem notify_identity (d : Nat) (s : State) :
    (notify d s).identity = s.identity := by
  unfold notify; split <;> rfl

@[simp] theorem notify_cookie (d : Nat) (s : State) :
    (notify d s).cookie = s.cookie := by
  unfold notify; split <;> rfl

@[simp] theorem notify_loginRequest (d : Nat) (s : State) :
    (notify d s).loginRequest = s.loginRequest := by
  unfold notify; split <;> rfl

@[simp] theorem notify_logoutRequest (d : Nat) (s : State) :
    (notify d s).logoutRequest = s.logoutRequest := by
  unfold notify; split <;> rfl

@[simp] theorem notify_storage (d : Nat) (s : State) :
    (notify d s).storage = s.storage := by
  unfold notify; split <;> rfl

@[simp] theorem notify_exchanges (d : Nat) (s : State) :
    (notify d s).exchanges = s.exchanges := by
  unfold notify; split <;> rfl

@[simp] theorem notify_events (d : Nat) (s : State) :
    (notify d s).events = s.events := by
  unfold notify; split <;> rfl

@[simp] theorem notify_exceptions (d : Nat) (s : State) :
    (notify d s).exceptions = s.exceptions := by
  unfold notify; split <;> rfl

@[simp] theorem registerThen_identity (d : Nat) (cb : Callback) (s : State) :
    (registerThen d cb s).identity = s.identity := by
  unfold registerThen; split <;> rfl

@[simp] theorem registerThen_cookie (d : Nat) (cb : Callback) (s : State) :
    (registerThen d cb s).cookie = s.cookie := by
  unfold registerThen; split <;> rfl

@[simp] theorem registerThen_loginRequest (d : Nat) (cb : Callback) (s : State) :
    (registerThen d cb s).loginRequest = s.loginRequest := by
  unfold registerThen; split <;> rfl

@[simp] theorem registerThen_logoutRequest (d : Nat) (cb : Callback) (s : State) :
    (registerThen d cb s).logoutRequest = s.logoutRequest := by
  unfold registerThen; split <;> rfl

@[simp] theorem registerThen_storage (d : Nat) (cb : Callback) (s : State) :
    (registerThen d cb s).storage = s.storage := by
  unfold registerThen; split <;> rfl

@[simp] theorem registerThen_exchanges (d : Nat) (cb : Callback) (s : State) :
    (registerThen d cb s).exchanges = s.exchanges := by
  unfold registerThen; split <;> rfl

@[simp] theorem registerThen_events (d : Nat) (cb : Callback) (s : State) :
    (registerThen d cb s).events = s.events := by
  unfold registerThen; split <;> rfl

@[simp] theorem registerThen_exceptions (d : Nat) (cb : Callback) (s : State) :
    (registerThen d cb s).exceptions = s.exceptions := by
  unfold registerThen; split <;> rfl

@[simp] theorem attachCallbacks_identity (mk : Nat → Callback) (count d : Nat) (s : State) :
    (attachCallbacks mk count d s).identity = s.identity := by
  unfold attachCallbacks
  induction List.range count generalizing s with
  | nil => rfl
  | cons i rest ih => simp [List.foldl_cons, ih]

@[simp] theorem attachCallbacks_cookie (mk : Nat → Callback) (count d : Nat) (s : State) :
    (attachCallbacks mk count d s).cookie = s.cookie := by
  unfold attachCallbacks
  induction List.range count generalizing s with
  | nil => rfl
  | cons i rest ih => simp [List.foldl_cons, ih]

@[simp] theorem attachCallbacks_loginRequest (mk : Nat → Callback) (count d : Nat) (s : State) :
    (attachCallbacks mk count d s).loginRequest = s.loginRequest := by
  unfold attachCallbacks
  induction List.range count generalizing s with
  | nil => rfl
  | cons i rest ih => simp [List.foldl_cons, ih]

@[simp] theorem attachCallbacks_logoutRequest (mk : Nat → Callback) (count d : Nat) (s : State) :
    (attachCallbacks mk count d s).logoutRequest = s.logoutRequest := by
  unfold attachCallbacks
  induction List.range count generalizing s with
  | nil => rfl
  | cons i rest ih => simp [List.foldl_cons, ih]

@[simp] theorem attachCallbacks_storage (mk : Nat → Callback) (count d : Nat) (s : State) :
    (attachCallbacks mk count d s).storage = s.storage := by
  unfold attachCallbacks
  induction List.range count generalizing s with
  | nil => rfl
  | cons i rest ih => simp [List.foldl_cons, ih]

@[simp] theorem attachCallbacks_exchanges (mk : Nat → Callback) (count d : Nat) (s : State) :
    (attachCallbacks mk count d s).exchanges = s.exchanges := by
  unfold attachCallbacks
  induction List.range count generalizing s with
  | nil => rfl
  | cons i rest ih => simp [List.foldl_cons, ih]

@[simp] theorem attachCallbacks_events (mk : Nat → Callback) (count d : Nat) (s : State) :
    (attachCallbacks mk count d s).events = s.events := by
  unfold attachCallbacks
  induction List.range count generalizing s with
  | nil => rfl
  | cons i rest ih => simp [List.foldl_cons, ih]

@[simp] theorem attachCallbacks_exceptions (mk : Nat → Callback) (count d : Nat) (s : State) :
    (attachCallbacks mk count d s).exceptions = s.exceptions := by
  unfold attachCallbacks
  induction List.range count generalizing s with
  | nil => rfl
  | cons i rest ih => simp [List.foldl_cons, ih]


@[simp] theorem settle_length (d : Nat) (st : Settlement) (sg : Signal) (s : State) :
    (settle d st sg s).deferreds.length = s.deferreds.length := by
  unfold settle; split <;> simp

@[simp] theorem notify_length (d : Nat) (s : State) :
    (notify d s).deferreds.length = s.deferreds.length := by
  unfold notify; split <;> simp

@[simp] theorem registerThen_length (d : Nat) (cb : Callback) (s : State) :
    (registerThen d cb s).deferreds.length = s.deferreds.length := by
  unfold registerThen; split <;> simp

theorem promise_pending (s : State) (d : Nat) (h : s.promise d = some .pending) :
    ∃ cbs n, s.deferreds[d]? = some ⟨.pending, cbs, n⟩ := by
  unfold State.promise at h
  cases hd : s.deferreds[d]? with
  | none => simp [hd] at h
  | some x =>
    obtain ⟨st, cbs, n⟩ := x
    simp [hd] at h
    exact ⟨cbs, n, by rw [h]⟩

theorem promise_lt (s : State) (d : Nat) (st : Settlement) (h : s.promise d = some st) :
    d < s.deferreds.length := by
  by_contra hc
  unfold State.promise at h
  rw [List.getElem?_eq_none (by omega)] at h
  cases h

theorem settle_promise_self (d : Nat) (st : Settlement) (sg : Signal) (s : State)
    (h : s.promise d = some .pending) : (settle d st sg s).promise d = some st := by
  obtain ⟨cbs, n, hd⟩ := promise_pending s d h
  have hlt := promise_lt s d _ h
  simp [settle, hd, State.promise, hlt]

theorem settle_promise_other (d k : Nat) (st : Settlement) (sg : Signal) (s : State)
    (h : k ≠ d) : (settle d st sg s).promise k = s.promise k := by
  unfold settle
  split
  · simp [State.promise, List.getElem?_set_ne (Ne.symm h)]
  · rfl

theorem settle_queue (d : Nat) (st : Settlement) (sg : Signal) (s : State)
    (h : s.promise d = some .pending) :
    (settle d st sg s).queue
      = s.queue ++ (s.callbacksOf d).map fun cb => { callback := cb, signal := sg } := by
  obtain ⟨cbs, n, hd⟩ := promise_pending s d h
  simp [settle, hd, State.callbacksOf]

@[simp] theorem notify_promise (d k : Nat) (s : State) :
    (notify d s).promise k = s.promise k := by
  unfold notify
  split
  · rename_i cbs n hd
    by_cases hk : k = d
    · subst hk
      have hlt : k < s.deferreds.length := by
        by_contra hc
        rw [List.getElem?_eq_none (by omega)] at hd
        cases hd
      simp [State.promise, hd, hlt]
    · simp [State.promise, List.getElem?_set_ne (Ne.symm hk)]
  · rfl

theorem notify_notified (d : Nat) (s : State) (h : s.promise d = some .pending) :
    (notify d s).notified d = (s.notified d).map (· + 1) := by
  obtain ⟨cbs, n, hd⟩ := promise_pending s d h
  have hlt := promise_lt s d _ h
  simp [notify, hd, State.notified, hlt]

theorem notify_queue (d : Nat) (s : State) (h : s.promise d = some .pending) :
    (notify d s).queue
      = s.queue ++ (s.callbacksOf d).map fun cb => { callback := cb, signal := .progress } := by
  obtain ⟨cbs, n, hd⟩ := promise_pending s d h
  simp [notify, hd, State.callbacksOf]

@[simp] theorem registerThen_promise (d k : Nat) (cb : Callback) (s : State) :
    (registerThen d cb s).promise k = s.promise k := by
  unfold registerThen
  split
  · rename_i cbs n hd
    by_cases hk : k = d
    · subst hk
      have hlt : k < s.deferreds.length := by
        by_contra hc
        rw [List.getElem?_eq_none (by omega)] at hd
        cases hd
      simp [State.promise, hd, hlt]
    · simp [State.promise, List.getElem?_set_ne (Ne.symm hk)]
  · rfl
  · rfl
  · rfl

@[simp] theorem attachCallbacks_promise (mk : Nat → Callback) (count d k : Nat) (s : State) :
    (attachCallbacks mk count d s).promise k = s.promise k := by
  unfold attachCallbacks
  induction List.range count generalizing s with
  | nil => rfl
  | cons i rest ih => simp [List.foldl_cons, ih]

@[simp] theorem attachCallbacks_length (mk : Nat → Callback) (count d : Nat) (s : State) :
    (attachCallbacks mk count d s).deferreds.length = s.deferreds.length := by
  unfold attachCallbacks
  induction List.range count generalizing s with
  | nil => rfl
  | cons i rest ih => simp [List.foldl_cons, ih]

theorem defer_promise_new (s : State) : (defer s).2.promise (defer s).1 = some .pending := by
  simp [defer, State.promise]

theorem defer_promise_old (s : State) (k : Nat) (h : k ≠ s.deferreds.length) :
    (defer s).2.promise k = s.promise k := by
  simp only [defer, State.promise]
  by_cases hk : k < s.deferreds.length
  · rw [List.getElem?_append_left hk]
  · rw [List.getElem?_eq_none (by simp; omega), List.getElem?_eq_none (by omega)]

theorem promise_fresh (s : State) : s.promise s.deferreds.length = none := by
  simp [State.promise]


/-! ## The interceptor -/

/-- C5: a response error whose status is not 401 comes back as a rejection with
the very same value, and the state (events, deferreds, login attempt and all the
rest) is the state before the call. -/
theorem responseError_passes_non401 (env : Env) (rejection : Response) (s : State)
    (h : rejection.status ≠ 401) :
    responseError env rejection s = (.rejection rejection, s) := by
  simp [responseError, h]

theorem responseError_passes_non401_witness :
    serverError.status ≠ 401 ∧
      responseError sampleEnv serverError signingIn = (.rejection serverError, signingIn) :=
  ⟨by decide, responseError_passes_non401 sampleEnv serverError signingIn (by decide)⟩

/-- C6: on a 401 that is not flagged terminal and whose header parses,
`responseError` builds a request of the original configuration and a new
deferred, which did not exist before and is pending; it broadcasts
`process.response`, then `authentication.header` with that request, then
`signin.required`; it returns the promise of that deferred; and the state in
which `signin.required` is broadcast already has the request as the
`httpRequest` of the login attempt. -/
theorem responseError_suspends (env : Env) (rejection : Response) (s : State)
    (h401 : rejection.status = 401) (hterm : rejection.mustTerminate = false)
    (hparse : env.parseHeader rejection = true) :
    ∃ request : HttpRequest, ∃ bound : State,
      request.config = rejection.config ∧
      request.deferred = s.deferreds.length ∧
      s.promise request.deferred = none ∧
      bound.events = s.events ++ [.processResponse rejection, .authenticationHeader request] ∧
      bound.loginRequest.httpRequest = some request ∧
      bound.promise request.deferred = some .pending ∧
      bound.callbacksOf request.deferred = [] ∧
      responseError env rejection s = (.promise request.deferred, broadcast .signinRequired bound) ∧
      (responseError env rejection s).2.events
        = s.events ++ [.processResponse rejection, .authenticationHeader request, .signinRequired] ∧
      (responseError env rejection s).2.loginRequest.httpRequest = some request ∧
      (responseError env rejection s).2.promise request.deferred = some .pending := by
  refine ⟨⟨rejection.config, s.deferreds.length⟩,
    broadcast (.authenticationHeader ⟨rejection.config, s.deferreds.length⟩)
      (defer (broadcast (.processResponse rejection) s)).2, ?_⟩
  simp [responseError, h401, hterm, hparse, broadcast, defer, setHttpRequest, State.promise,
    State.callbacksOf]

theorem responseError_suspends_witness :
    challenge401.status = 401 ∧ challenge401.mustTerminate = false ∧
    sampleEnv.parseHeader challenge401 = true ∧
    ∃ request : HttpRequest, ∃ bound : State,
      request.config = challenge401.config ∧
      request.deferred = signingIn.deferreds.length ∧
      signingIn.promise request.deferred = none ∧
      bound.events
        = signingIn.events ++ [.processResponse challenge401, .authenticationHeader request] ∧
      bound.loginRequest.httpRequest = some request ∧
      bound.promise request.deferred = some .pending ∧
      bound.callbacksOf request.deferred = [] ∧
      responseError sampleEnv challenge401 signingIn
        = (.promise request.deferred, broadcast .signinRequired bound) ∧
      (responseError sampleEnv challenge401 signingIn).2.events
        = signingIn.events
          ++ [.processResponse challenge401, .authenticationHeader request, .signinRequired] ∧
      (responseError sampleEnv challenge401 signingIn).2.loginRequest.httpRequest = some request ∧
      (responseError sampleEnv challenge401 signingIn).2.promise request.deferred = some .pending :=
  ⟨by decide, rfl, rfl, responseError_suspends sampleEnv challenge401 signingIn (by decide) rfl rfl⟩

/-- C7: on a 401 that is not flagged terminal and whose header does not parse,
`responseError` returns a rejection with the very same value; it broadcasts
`process.response` and `authentication.notFound` and nothing else, so neither
`authentication.header` nor `signin.required`; no deferred is created, and the
login attempt and every other part of the service are as before. -/
theorem responseError_scheme_not_found (env : Env) (rejection : Response) (s : State)
    (h401 : rejection.status = 401) (hterm : rejection.mustTerminate = false)
    (hparse : env.parseHeader rejection = false) :
    (responseError env rejection s).1 = .rejection rejection ∧
      (responseError env rejection s).2.events
        = s.events ++ [.processResponse rejection, .authenticationNotFound] ∧
      (responseError env rejection s).2.deferreds = s.deferreds ∧
      (responseError env rejection s).2.loginRequest = s.loginRequest ∧
      (responseError env rejection s).2.logoutRequest = s.logoutRequest ∧
      (responseError env rejection s).2.identity = s.identity ∧
      (responseError env rejection s).2.cookie = s.cookie ∧
      (responseError env rejection s).2.storage = s.storage ∧
      (responseError env rejection s).2.exchanges = s.exchanges ∧
      (responseError env rejection s).2.queue = s.queue := by
  simp [responseError, h401, hterm, hparse, broadcast]

theorem responseError_scheme_not_found_witness :
    bare401.status = 401 ∧ bare401.mustTerminate = false ∧
    sampleEnv.parseHeader bare401 = false ∧
    (responseError sampleEnv bare401 signingIn).1 = .rejection bare401 ∧
      (responseError sampleEnv bare401 signingIn).2.events
        = signingIn.events ++ [.processResponse bare401, .authenticationNotFound] ∧
      (responseError sampleEnv bare401 signingIn).2.deferreds = signingIn.deferreds ∧
      (responseError sampleEnv bare401 signingIn).2.loginRequest = signingIn.loginRequest ∧
      (responseError sampleEnv bare401 signingIn).2.logoutRequest = signingIn.logoutRequest ∧
      (responseError sampleEnv bare401 signingIn).2.identity = signingIn.identity ∧
      (responseError sampleEnv bare401 signingIn).2.cookie = signingIn.cookie ∧
      (responseError sampleEnv bare401 signingIn).2.storage = signingIn.storage ∧
      (responseError sampleEnv bare401 signingIn).2.exchanges = signingIn.exchanges ∧
      (responseError sampleEnv bare401 signingIn).2.queue = signingIn.queue :=
  ⟨by decide, rfl, rfl,
    responseError_scheme_not_found sampleEnv bare401 signingIn (by decide) rfl rfl⟩


/-! ## Sign-in -/

theorem restoreCredentials_deferred (env : Env) (s : State) :
    (restoreCredentials env s).loginRequest.deferred = s.loginRequest.deferred := by
  unfold restoreCredentials
  split
  · split
    · simp [broadcast]
    · rfl
  · rfl

theorem restoreCredentials_exchanges (env : Env) (s : State) :
    (restoreCredentials env s).exchanges = s.exchanges := by
  unfold restoreCredentials
  split
  · split
    · simp [broadcast]
    · rfl
  · rfl

theorem restoreCredentials_deferreds (env : Env) (s : State) :
    (restoreCredentials env s).deferreds = s.deferreds := by
  unfold restoreCredentials
  split
  · split
    · simp [broadcast]
    · rfl
  · rfl

theorem signin_in_flight (env : Env) (s : State) (h : Nat)
    (hd : s.loginRequest.deferred = some h) :
    (signin env s).1 = h ∧ (signin env s).2.exchanges = s.exchanges ∧
      (signin env s).2.deferreds = s.deferreds ∧
      (signin env s).2.loginRequest.deferred = some h := by
  have h1 := restoreCredentials_deferred env s
  rw [hd] at h1
  have e : signin env s = (h, restoreCredentials env s) := by simp only [signin, h1]
  rw [e]
  exact ⟨rfl, restoreCredentials_exchanges env s, restoreCredentials_deferreds env s, h1⟩

theorem signin_starts (env : Env) (s : State) (hd : s.loginRequest.deferred = none) :
    (signin env s).1 = s.deferreds.length ∧
      (signin env s).2.exchanges
        = s.exchanges ++ [{ kind := .login, deferred := s.deferreds.length, delivered := false }] ∧
      (signin env s).2.loginRequest.deferred = some s.deferreds.length ∧
      (signin env s).2.promise s.deferreds.length = some .pending := by
  have h1 := restoreCredentials_deferred env s
  rw [hd] at h1
  have h2 := restoreCredentials_deferreds env s
  have h3 := restoreCredentials_exchanges env s
  have e : signin env s = (s.deferreds.length,
      attachCallbacks .loginCallback env.loginCallbacks s.deferreds.length
        { (performLogin (restoreCredentials env s)).2 with
          loginRequest := { (performLogin (restoreCredentials env s)).2.loginRequest with
            deferred := some s.deferreds.length } }) := by
    simp only [signin, h1, performLogin, defer, h2]
  rw [e]
  refine ⟨rfl, ?_, ?_, ?_⟩
  · simp [performLogin, defer, h3, h2]
  · simp
  · rw [attachCallbacks_promise]
    simp [performLogin, defer, h2, State.promise]

/-- C3: when the login exchange succeeds, the handler of `performLogin` stores
the response data as the identity, sets the cookie to the hash of `true` (so
the cookie test holds), stores the username and password of the attempt in the
credential storage, broadcasts `credential.stored` and then `login.successful`,
sets `mustTerminate` of the attempt to false and resolves the handle of the
attempt, pending until then, with the response data. -/
theorem loginSuccess_effects (env : Env) (d : Nat) (response : Response) (s : State)
    (hd : s.loginRequest.deferred = some d) (hp : s.promise d = some .pending) :
    (loginSuccess env d response s).identity = response.data ∧
      (loginSuccess env d response s).cookie = some (env.createHash "true") ∧
      cookieSaysAuthenticated env (loginSuccess env d response s) = true ∧
      (loginSuccess env d response s).storage
        = some (s.loginRequest.username, s.loginRequest.password) ∧
      (loginSuccess env d response s).events
        = s.events ++ [.credentialStored s.loginRequest.username s.loginRequest.password,
            .loginSuccessful response] ∧
      (loginSuccess env d response s).loginRequest.mustTerminate = false ∧
      (loginSuccess env d response s).loginRequest.deferred = some d ∧
      (loginSuccess env d response s).promise d = some (.resolved response.data) := by
  refine ⟨?_, ?_, ?_, ?_, ?_, ?_, ?_, ?_⟩
  · simp [loginSuccess, resolve, broadcast, storeCredentials]
  · simp [loginSuccess, resolve, broadcast, storeCredentials]
  · simp [cookieSaysAuthenticated, loginSuccess, resolve, broadcast, storeCredentials]
  · simp [loginSuccess, resolve, broadcast, storeCredentials]
  · simp [loginSuccess, resolve, broadcast, storeCredentials]
  · simp [loginSuccess, resolve, broadcast, storeCredentials]
  · simp [loginSuccess, resolve, broadcast, storeCredentials, hd]
  · simp only [loginSuccess, resolve]
    apply settle_promise_self
    simpa [broadcast, storeCredentials, State.promise] using hp

theorem loginSuccess_effects_witness :
    signingIn.loginRequest.deferred = some 0 ∧ signingIn.promise 0 = some .pending ∧
      (loginSuccess sampleEnv 0 loginOk signingIn).identity = loginOk.data ∧
      (loginSuccess sampleEnv 0 loginOk signingIn).storage = some ("alice", "pw1") ∧
      (loginSuccess sampleEnv 0 loginOk signingIn).promise 0 = some (.resolved loginOk.data) :=
  have h := loginSuccess_effects sampleEnv 0 loginOk signingIn rfl rfl
  ⟨rfl, rfl, h.1, h.2.2.2.1, h.2.2.2.2.2.2.2⟩


theorem loginFailure_loginRequest (d : Nat) (response : Response) (s : State) :
    (loginFailure d response s).loginRequest = initLogin := by
  simp [loginFailure]

theorem loginFailure_exchanges (d : Nat) (response : Response) (s : State) :
    (loginFailure d response s).exchanges = s.exchanges := by
  unfold loginFailure
  split <;> simp [reject, broadcast]

theorem loginFailure_length (d : Nat) (response : Response) (s : State) :
    (loginFailure d response s).deferreds.length = s.deferreds.length := by
  unfold loginFailure
  split <;> simp [reject, broadcast]

theorem setCredentials_loginRequest (u p : String) (s : State) :
    (setCredentials u p s).loginRequest
      = { s.loginRequest with username := u, password := p, mustTerminate := true } := by
  simp [setCredentials, broadcast]

/-- The failure handler of `performLogin`, once it runs, looks at
`mustTerminate` of the attempt. When it is false, `login.required` is broadcast
and the handle gets one progress notification and stays pending. When it is
true, `login.error` is broadcast with the response and the handle is rejected
with the response data. Either way the login attempt is then the fresh one of
`initLogin`, no exchange has been issued by the handler, and a following
`setCredentials` and `signin` create a new pending handle, different from the
old one, and issue one new login exchange for it. -/
theorem loginFailure_effects (env : Env) (d : Nat) (response : Response) (s : State)
    (u p : String) (hp : s.promise d = some .pending) :
    (s.loginRequest.mustTerminate = false →
        (loginFailure d response s).events = s.events ++ [.loginRequired] ∧
        (loginFailure d response s).promise d = some .pending ∧
        (loginFailure d response s).notified d = (s.notified d).map (· + 1)) ∧
      (s.loginRequest.mustTerminate = true →
        (loginFailure d response s).events = s.events ++ [.loginError response] ∧
        (loginFailure d response s).promise d = some (.rejected response.data)) ∧
      (loginFailure d response s).loginRequest = initLogin ∧
      initLogin = ⟨"", "", none, none, false⟩ ∧
      (loginFailure d response s).exchanges = s.exchanges ∧
      (signin env (setCredentials u p (loginFailure d response s))).1 ≠ d ∧
      (signin env (setCredentials u p (loginFailure d response s))).2.promise
          (signin env (setCredentials u p (loginFailure d response s))).1 = some .pending ∧
      (signin env (setCredentials u p (loginFailure d response s))).2.exchanges
        = s.exchanges
          ++ [⟨.login, (signin env (setCredentials u p (loginFailure d response s))).1, false⟩] := by
  have hidle : (setCredentials u p (loginFailure d response s)).loginRequest.deferred = none := by
    rw [setCredentials_loginRequest, loginFailure_loginRequest]; rfl
  obtain ⟨e1, e2, -, e4⟩ := signin_starts env _ hidle
  have hlen : (setCredentials u p (loginFailure d response s)).deferreds.length
      = s.deferreds.length := by
    simp [setCredentials, broadcast, loginFailure_length]
  have hex : (setCredentials u p (loginFailure d response s)).exchanges = s.exchanges := by
    simp [setCredentials, broadcast, loginFailure_exchanges]
  have hlt := promise_lt s d _ hp
  refine ⟨?_, ?_, loginFailure_loginRequest d response s, rfl, loginFailure_exchanges d response s,
    ?_, ?_, ?_⟩
  · intro hm
    have hpb : (broadcast .loginRequired s).promise d = some .pending := by
      simpa [broadcast, State.promise] using hp
    refine ⟨?_, ?_, ?_⟩
    · simp [loginFailure, hm, broadcast]
    · simp only [loginFailure, hm]
      show (notify d (broadcast .loginRequired s)).promise d = _
      rw [notify_promise]; exact hpb
    · simp only [loginFailure, hm]
      show (notify d (broadcast .loginRequired s)).notified d = _
      rw [notify_notified d _ hpb]; rfl
  · intro hm
    have hpb : (broadcast (.loginError response) s).promise d = some .pending := by
      simpa [broadcast, State.promise] using hp
    refine ⟨?_, ?_⟩
    · simp [loginFailure, hm, broadcast, reject]
    · simp only [loginFailure, hm, reject]
      exact settle_promise_self d (.rejected response.data) (.rejected response.data) _ hpb
  · rw [e1, hlen]; omega
  · rw [e1]; exact e4
  · rw [e2, e1, hex]

theorem loginFailure_effects_witness :
    signingIn.promise 0 = some .pending ∧ signingIn.loginRequest.mustTerminate = true ∧
      (loginFailure 0 loginRefused signingIn).promise 0 = some (.rejected loginRefused.data) ∧
      (loginFailure 0 loginRefused signingIn).loginRequest = initLogin ∧
      (signin sampleEnv (setCredentials "alice" "pw2" (loginFailure 0 loginRefused signingIn))).1
        ≠ 0 :=
  have h := loginFailure_effects sampleEnv 0 loginRefused signingIn "alice" "pw2" rfl
  ⟨rfl, rfl, (h.2.1 rfl).2, h.2.2.1, h.2.2.2.2.2.1⟩

/-! ## Sign-out -/

/-- C10: when the logout exchange succeeds, the handler of `performLogout` sets
the cookie to the hash of `false`, sets the identity to `null`, replaces the
login attempt by the fresh one of `initLogin`, broadcasts `logout.successful`
and resolves the logout handle, pending until then, with the response data.
When the logout exchange fails, the handler broadcasts `logout.error`, rejects
the logout handle with the response data, issues no exchange, and leaves the
cookie, the identity and the login attempt as they were. -/
theorem logout_handlers_effects (env : Env) (d : Nat) (response : Response) (s : State)
    (hp : s.promise d = some .pending) :
    ((logoutSuccess env d response s).cookie = some (env.createHash "false") ∧
        (logoutSuccess env d response s).identity = .null ∧
        (logoutSuccess env d response s).loginRequest = initLogin ∧
        (logoutSuccess env d response s).events = s.events ++ [.logoutSuccessful response] ∧
        (logoutSuccess env d response s).promise d = some (.resolved response.data)) ∧
      ((logoutFailure d response s).events = s.events ++ [.logoutError response] ∧
        (logoutFailure d response s).promise d = some (.rejected response.data) ∧
        (logoutFailure d response s).exchanges = s.exchanges ∧
        (logoutFailure d response s).cookie = s.cookie ∧
        (logoutFailure d response s).identity = s.identity ∧
        (logoutFailure d response s).loginRequest = s.loginRequest) := by
  refine ⟨⟨?_, ?_, ?_, ?_, ?_⟩, ?_, ?_, ?_, ?_, ?_, ?_⟩
  · simp [logoutSuccess, resolve, broadcast]
  · simp [logoutSuccess, resolve, broadcast]
  · simp [logoutSuccess, resolve, broadcast]
  · simp [logoutSuccess, resolve, broadcast]
  · simp only [logoutSuccess, resolve]
    apply settle_promise_self
    simpa [broadcast, State.promise] using hp
  · simp [logoutFailure, reject, broadcast]
  · simp only [logoutFailure, reject]
    apply settle_promise_self
    simpa [broadcast, State.promise] using hp
  · simp [logoutFailure, reject, broadcast]
  · simp [logoutFailure, reject, broadcast]
  · simp [logoutFailure, reject, broadcast]
  · simp [logoutFailure, reject, broadcast]

theorem logout_handlers_effects_witness :
    signingOut.promise 0 = some .pending ∧
      (logoutSuccess sampleEnv 0 logoutOk signingOut).identity = .null ∧
      (logoutSuccess sampleEnv 0 logoutOk signingOut).promise 0
        = some (.resolved logoutOk.data) ∧
      (logoutFailure 0 logoutFailed signingOut).promise 0
        = some (.rejected logoutFailed.data) :=
  have h := logout_handlers_effects sampleEnv 0 logoutFailed signingOut rfl
  have h2 := logout_handlers_effects sampleEnv 0 logoutOk signingOut rfl
  ⟨rfl, h2.1.2.1, h2.1.2.2.2.2, h.2.2.1⟩


/-! ## The suspended request -/

/-- C1, as stated, fails: in the scenario of the specification the sign-in
succeeds (its handle is resolved with the identity), yet the handle of the
suspended `/orders` request is still pending, it is not resolved, the only
exchange ever issued is the login exchange, and nothing is left to run. With the
login refused terminally (its handle is rejected), the handle of the suspended
request is still pending as well: it is not rejected. -/
theorem suspended_request_not_settled :
    ordersThenLoginOk.promise 1 = some (.resolved loginOk.data) ∧
      ordersThenLoginOk.loginRequest.httpRequest = some ⟨challenge401.config, 0⟩ ∧
      ordersThenLoginOk.promise 0 = some .pending ∧
      (¬ ∃ v, ordersThenLoginOk.promise 0 = some (.resolved v)) ∧
      ordersThenLoginOk.exchanges = [⟨.login, 1, true⟩] ∧
      ordersThenLoginOk.queue.length = 0 ∧
      ordersThenLoginRefused.promise 1 = some (.rejected loginRefused.data) ∧
      ordersThenLoginRefused.promise 0 = some .pending ∧
      (¬ ∃ r, ordersThenLoginRefused.promise 0 = some (.rejected r)) ∧
      ordersThenLoginRefused.exchanges = [⟨.login, 1, true⟩] ∧
      ordersThenLoginRefused.queue.length = 0 := by
  refine ⟨rfl, rfl, rfl, ?_, rfl, rfl, rfl, rfl, ?_, rfl, rfl⟩
  · rintro ⟨v, hv⟩
    have h : ordersThenLoginOk.promise 0 = some .pending := rfl
    rw [h] at hv
    cases hv
  · rintro ⟨v, hv⟩
    have h : ordersThenLoginRefused.promise 0 = some .pending := rfl
    rw [h] at hv
    cases hv

/-! ## The authentication check -/

/-- C8, at the failing input: `isAuthenticated` is called while a login
handle exists and no logout handle does. The login exchange is refused with the
record `error: bad credentials`, and the login handle is rejected with that
record; the result of `isAuthenticated` is rejected with `undefined`, the `data`
property of the record, not with the record. With a refusal whose data is
`null` the login handle is rejected with `null`, and the result of
`isAuthenticated` stays pending with nothing left to run: reading `data` of
`null` threw. -/
theorem isAuthenticated_rejects_with_data_of_payload :
    signingIn.loginRequest.deferred = some 0 ∧ signingIn.logoutRequest.deferred = none ∧
      (isAuthenticated signingIn).1 = 1 ∧
      checkThenLoginRefused.promise 0
        = some (.rejected (.obj [("error", .str "bad credentials")])) ∧
      checkThenLoginRefused.promise 1 = some (.rejected .undefined) ∧
      checkThenLoginRefusedEmpty.promise 0 = some (.rejected .null) ∧
      checkThenLoginRefusedEmpty.promise 1 = some .pending ∧
      checkThenLoginRefusedEmpty.queue.length = 0 ∧
      checkThenLoginRefusedEmpty.exceptions = ["TypeError: cannot read property data"] := by
  refine ⟨rfl, rfl, rfl, rfl, rfl, rfl, rfl, rfl, rfl⟩

/-- C9, at the failing input: `isAuthenticated` is called while a logout
handle exists. The logout exchange succeeds and the logout handle is resolved;
the result of `isAuthenticated` is rejected, here with `undefined`, the `data`
property of the logout data. The logout exchange fails and the logout handle is
rejected; the result of `isAuthenticated` is resolved with the check, here
`false`. The two outcomes are the other way round in the claim, and in the
login branch of the same function. After a sign-out and a new sign-in that both
succeeded the check is true, and the result of `isAuthenticated` is rejected
all the same. -/
theorem isAuthenticated_after_logout_inverted :
    signingOut.logoutRequest.deferred = some 0 ∧
      (isAuthenticated signingOut).1 = 1 ∧
      checkThenLogoutOk.promise 0 = some (.resolved logoutOk.data) ∧
      checkThenLogoutOk.promise 1 = some (.rejected .undefined) ∧
      checkThenLogoutFailed.promise 0 = some (.rejected logoutFailed.data) ∧
      checkThenLogoutFailed.promise 1 = some (.resolved (.bool false)) ∧
      checkAfterSignOutAndIn.logoutRequest.deferred = some 0 ∧
      checkAfterSignOutAndIn.promise 0 = some (.resolved logoutOk.data) ∧
      checkAfterSignOutAndIn.promise 1 = some (.resolved loginOk.data) ∧
      authCheck sampleEnv checkAfterSignOutAndIn = true ∧
      checkAfterSignOutAndIn.promise 2 = some (.rejected .undefined) := by
  refine ⟨rfl, rfl, rfl, rfl, rfl, rfl, rfl, rfl, rfl, rfl, rfl⟩

/-! ## A result of `isAuthenticated` waits for the promise it watches -/

theorem settle_of_not_pending (k : Nat) (st : Settlement) (sg : Signal) (s : State)
    (h : s.promise k ≠ some .pending) : settle k st sg s = s := by
  unfold settle
  split
  · rename_i cbs n hd
    exact absurd (by simp [State.promise, hd]) h
  · rfl

theorem settle_of_pending (k : Nat) (st : Settlement) (sg : Signal) (s : State)
    (cbs : List Callback) (n : Nat) (h : s.deferreds[k]? = some ⟨.pending, cbs, n⟩) :
    settle k st sg s
      = { s with
          deferreds := s.deferreds.set k ⟨st, [], n⟩
          queue := s.queue ++ cbs.map fun cb => { callback := cb, signal := sg } } := by
  simp [settle, h]

theorem settle_keeps_settled (k j : Nat) (st : Settlement) (sg : Signal) (s : State)
    (h : s.promise j ≠ some .pending) :
    (settle k st sg s).promise j ≠ some .pending := by
  by_cases hp : s.promise k = some .pending
  · by_cases hj : j = k
    · subst hj; exact absurd hp h
    · rw [settle_promise_other _ _ _ _ _ hj]; exact h
  · rw [settle_of_not_pending _ _ _ _ hp]; exact h

theorem defer_keeps_settled (j : Nat) (s : State) (hj : j < s.deferreds.length)
    (h : s.promise j ≠ some .pending) : (defer s).2.promise j ≠ some .pending := by
  rw [defer_promise_old s j (by omega)]; exact h

theorem Awaits.frame_awaits {d l : Nat} {s s' : State} (h : Awaits d l s)
    (hd : s'.deferreds = s.deferreds) (he : s'.exchanges = s.exchanges)
    (hq : s'.queue = s.queue) : Awaits d l s' := by
  unfold Awaits State.promise at *
  rw [hd, he, hq]
  exact h

theorem Awaits.defer_awaits {d l : Nat} {s : State} (h : Awaits d l s) : Awaits d l (defer s).2 := by
  obtain ⟨h1, h2, h3, h4, h5, h6⟩ := h
  refine ⟨?_, ?_, ?_, ?_, ?_, ?_⟩
  · simp [DgAuth.defer]; omega
  · simp [DgAuth.defer]; omega
  · exact h3
  · intro k x hk cb hcb ht
    simp only [DgAuth.defer] at hk
    by_cases hlt : k < s.deferreds.length
    · rw [List.getElem?_append_left hlt] at hk
      exact h4 k x hk cb hcb ht
    · by_cases hkeq : k = s.deferreds.length
      · subst hkeq
        simp at hk
        subst hk
        simp at hcb
      · rw [List.getElem?_eq_none (by simp; omega)] at hk
        cases hk
  · intro t ht htar hsig
    rw [defer_promise_old s l (by omega)]
    exact h5 t ht htar hsig
  · intro hd
    rw [defer_promise_old s d (by omega)] at hd
    rw [defer_promise_old s l (by omega)]
    exact h6 hd

theorem Awaits.addExchange_awaits {d l : Nat} {s : State} (h : Awaits d l s) (e : Exchange)
    (he : e.deferred ≠ d) : Awaits d l { s with exchanges := s.exchanges ++ [e] } := by
  obtain ⟨h1, h2, h3, h4, h5, h6⟩ := h
  refine ⟨h1, h2, ?_, h4, h5, h6⟩
  intro e' he'
  simp only [List.mem_append, List.mem_singleton] at he'
  rcases he' with he' | he'
  · exact h3 e' he'
  · subst he'; exact he

theorem Awaits.markDelivered_awaits {d l : Nat} {s : State} (h : Awaits d l s) (i : Nat)
    (e : Exchange) (he : s.exchanges[i]? = some e) :
    Awaits d l { s with exchanges := s.exchanges.set i { e with delivered := true } } := by
  obtain ⟨h1, h2, h3, h4, h5, h6⟩ := h
  refine ⟨h1, h2, ?_, h4, h5, h6⟩
  intro e' he'
  rcases List.mem_or_eq_of_mem_set he' with hm | hm
  · exact h3 e' hm
  · subst hm
    exact h3 e (List.getElem?_mem he)

theorem Awaits.settle_awaits {d l : Nat} {s : State} (h : Awaits d l s) (k : Nat)
    (st : Settlement) (sg : Signal) (hst : st ≠ .pending)
    (hk : k = d → s.promise l ≠ some .pending) : Awaits d l (settle k st sg s) := by
  by_cases hp : s.promise k = some .pending
  · obtain ⟨cbs, n, hd⟩ := promise_pending s k hp
    have hklt := promise_lt s k _ hp
    obtain ⟨h1, h2, h3, h4, h5, h6⟩ := h
    have hl' : k = l → (DgAuth.settle k st sg s).promise l ≠ some .pending := by
      intro hkl
      subst hkl
      rw [settle_promise_self _ _ _ _ hp]
      intro hc
      exact hst (by cases hc; rfl)
    refine ⟨by simpa using h1, by simpa using h2, by simpa using h3, ?_, ?_, ?_⟩
    · intro k' x hk' cb hcb ht
      rw [settle_of_pending _ _ _ _ _ _ hd] at hk'
      simp only at hk'
      by_cases hkk : k' = k
      · subst hkk
        rw [List.getElem?_set_self hklt] at hk'
        cases hk'
        simp at hcb
      · rw [List.getElem?_set_ne (Ne.symm hkk)] at hk'
        exact h4 k' x hk' cb hcb ht
    · intro t ht htar hsig
      rw [settle_queue _ _ _ _ hp] at ht
      simp only [List.mem_append, List.mem_map] at ht
      rcases ht with ht | ⟨cb, hcb, rfl⟩
      · exact settle_keeps_settled _ _ _ _ _ (h5 t ht htar hsig)
      · have hcb' : cb ∈ cbs := by simpa [State.callbacksOf, hd] using hcb
        exact hl' (h4 k _ hd cb hcb' htar)
    · intro hdne
      by_cases hkd : k = d
      · exact settle_keeps_settled _ _ _ _ _ (hk hkd)
      · rw [settle_promise_other _ _ _ _ _ (Ne.symm hkd)] at hdne
        exact settle_keeps_settled _ _ _ _ _ (h6 hdne)
  · rw [settle_of_not_pending _ _ _ _ hp]; exact h

theorem Awaits.notify_awaits {d l : Nat} {s : State} (h : Awaits d l s) (k : Nat) :
    Awaits d l (notify k s) := by
  by_cases hp : s.promise k = some .pending
  · obtain ⟨cbs, n, hd⟩ := promise_pending s k hp
    have hklt := promise_lt s k _ hp
    obtain ⟨h1, h2, h3, h4, h5, h6⟩ := h
    refine ⟨by simpa using h1, by simpa using h2, by simpa using h3, ?_, ?_, ?_⟩
    · intro k' x hk' cb hcb ht
      simp only [DgAuth.notify, hd] at hk'
      by_cases hkk : k' = k
      · subst hkk
        rw [List.getElem?_set_self hklt] at hk'
        cases hk'
        exact h4 k' _ hd cb hcb ht
      · rw [List.getElem?_set_ne (Ne.symm hkk)] at hk'
        exact h4 k' x hk' cb hcb ht
    · intro t ht htar hsig
      rw [notify_queue _ _ hp] at ht
      simp only [List.mem_append, List.mem_map] at ht
      rw [notify_promise]
      rcases ht with ht | ⟨cb, hcb, rfl⟩
      · exact h5 t ht htar hsig
      · exact absurd rfl hsig
    · simpa using h6
  · have : DgAuth.notify k s = s := by
      unfold DgAuth.notify
      split
      · rename_i cbs n hd
        exact absurd (by simp [State.promise, hd]) hp
      · rfl
    rw [this]; exact h

theorem Awaits.registerThen_awaits {d l : Nat} {s : State} (h : Awaits d l s) (k : Nat)
    (cb : Callback) (hcb : cb.target ≠ some d) : Awaits d l (registerThen k cb s) := by
  obtain ⟨h1, h2, h3, h4, h5, h6⟩ := h
  refine ⟨by simpa using h1, by simpa using h2, by simpa using h3, ?_, ?_, by simpa using h6⟩
  · intro k' x hk' cb' hcb' ht
    unfold DgAuth.registerThen at hk'
    split at hk'
    · rename_i cbs n hd
      have hklt : k < s.deferreds.length := by
        by_contra hc
        rw [List.getElem?_eq_none (by omega)] at hd
        cases hd
      simp only at hk'
      by_cases hkk : k' = k
      · subst hkk
        rw [List.getElem?_set_self hklt] at hk'
        cases hk'
        simp only [List.mem_append, List.mem_singleton] at hcb'
        rcases hcb' with hcb' | hcb'
        · exact h4 k' _ hd cb' hcb' ht
        · subst hcb'; exact absurd ht hcb
      · rw [List.getElem?_set_ne (Ne.symm hkk)] at hk'
        exact h4 k' x hk' cb' hcb' ht
    · exact h4 k' x hk' cb' hcb' ht
    · exact h4 k' x hk' cb' hcb' ht
    · exact h4 k' x hk' cb' hcb' ht
  · intro t ht htar hsig
    rw [registerThen_promise]
    unfold DgAuth.registerThen at ht
    split at ht
    · exact h5 t ht htar hsig
    · simp only [List.mem_append, List.mem_singleton] at ht
      rcases ht with ht | ht
      · exact h5 t ht htar hsig
      · subst ht; exact absurd htar hcb
    · simp only [List.mem_append, List.mem_singleton] at ht
      rcases ht with ht | ht
      · exact h5 t ht htar hsig
      · subst ht; exact absurd htar hcb
    · exact h5 t ht htar hsig

theorem Awaits.attachCallbacks_awaits {d l : Nat} {s : State} (h : Awaits d l s)
    (mk : Nat → Callback) (hmk : ∀ i, (mk i).target = none) (count k : Nat) :
    Awaits d l (attachCallbacks mk count k s) := by
  unfold DgAuth.attachCallbacks
  induction List.range count generalizing s with
  | nil => exact h
  | cons i rest ih =>
    rw [List.foldl_cons]
    exact ih (h.registerThen_awaits k (mk i) (by rw [hmk i]; simp))

theorem Awaits.pop_awaits {d l : Nat} {s : State} (h : Awaits d l s) (t : Task) (rest : List Task)
    (hq : s.queue = t :: rest) : Awaits d l { s with queue := rest } := by
  obtain ⟨h1, h2, h3, h4, h5, h6⟩ := h
  refine ⟨h1, h2, h3, h4, ?_, h6⟩
  intro t' ht'
  exact h5 t' (by rw [hq]; exact List.mem_cons_of_mem _ ht')


theorem Awaits.broadcast_awaits {d l : Nat} {s : State} (h : Awaits d l s) (ev : Event) :
    Awaits d l (broadcast ev s) := by
  apply h.frame_awaits <;> cases ev <;> rfl

theorem restoreCredentials_queue (env : Env) (s : State) :
    (restoreCredentials env s).queue = s.queue := by
  unfold restoreCredentials
  split
  · split
    · simp [broadcast]
    · rfl
  · rfl

theorem Awaits.performLogin_awaits {d l : Nat} {s : State} (h : Awaits d l s) :
    Awaits d l (performLogin s).2 := by
  have hne : s.deferreds.length ≠ d := by have := h.1; omega
  exact h.defer_awaits.addExchange_awaits ⟨.login, s.deferreds.length, false⟩ hne

theorem Awaits.performLogout_awaits {d l : Nat} {s : State} (h : Awaits d l s) :
    Awaits d l (performLogout s).2 := by
  have hne : s.deferreds.length ≠ d := by have := h.1; omega
  exact h.defer_awaits.addExchange_awaits ⟨.logout, s.deferreds.length, false⟩ hne

theorem Awaits.signin_awaits {d l : Nat} {s : State} (h : Awaits d l s) (env : Env) :
    Awaits d l (signin env s).2 := by
  have h1 : Awaits d l (restoreCredentials env s) :=
    h.frame_awaits (restoreCredentials_deferreds env s) (restoreCredentials_exchanges env s)
      (restoreCredentials_queue env s)
  unfold DgAuth.signin
  simp only
  split
  · exact h1
  · show Awaits d l (DgAuth.attachCallbacks _ _ _ _)
    refine Awaits.attachCallbacks_awaits ?_ Callback.loginCallback (fun _ => rfl) _ _
    exact h1.performLogin_awaits.frame_awaits rfl rfl rfl

theorem Awaits.signout_awaits {d l : Nat} {s : State} (h : Awaits d l s) (env : Env) :
    Awaits d l (signout env s).2 := by
  unfold DgAuth.signout
  split
  · exact h
  · show Awaits d l (DgAuth.attachCallbacks _ _ _ _)
    refine Awaits.attachCallbacks_awaits ?_ Callback.logoutCallback (fun _ => rfl) _ _
    exact h.performLogout_awaits.frame_awaits rfl rfl rfl

theorem Awaits.isAuthenticated_awaits {d l : Nat} {s : State} (h : Awaits d l s) :
    Awaits d l (isAuthenticated s).2 := by
  have hne : s.deferreds.length ≠ d := by have := h.1; omega
  unfold DgAuth.isAuthenticated
  simp only [DgAuth.defer]
  split
  · apply Awaits.registerThen_awaits h.defer_awaits
    simpa [Callback.target] using hne
  · split
    · apply Awaits.registerThen_awaits h.defer_awaits
      simpa [Callback.target] using hne
    · exact h.defer_awaits

theorem Awaits.setCredentials_awaits {d l : Nat} {s : State} (h : Awaits d l s) (u p : String) :
    Awaits d l (setCredentials u p s) := by
  unfold DgAuth.setCredentials
  apply h.frame_awaits <;> simp [DgAuth.broadcast]

theorem Awaits.responseError_awaits {d l : Nat} {s : State} (h : Awaits d l s) (env : Env)
    (rejection : Response) : Awaits d l (responseError env rejection s).2 := by
  unfold DgAuth.responseError
  split
  · split
    · exact h.broadcast_awaits _
    · split
      · exact (h.broadcast_awaits _).broadcast_awaits _
      · exact (((h.broadcast_awaits _).defer_awaits).broadcast_awaits _).broadcast_awaits _
  · exact h

theorem Awaits.loginSuccess_awaits {d l : Nat} {s : State} (h : Awaits d l s) (env : Env)
    (k : Nat) (response : Response) (hk : k ≠ d) :
    Awaits d l (loginSuccess env k response s) := by
  unfold DgAuth.loginSuccess resolve storeCredentials
  apply Awaits.settle_awaits _ _ _ _ (by simp) (fun hc => absurd hc hk)
  apply h.frame_awaits <;> simp [DgAuth.broadcast]

theorem Awaits.loginFailure_awaits {d l : Nat} {s : State} (h : Awaits d l s)
    (k : Nat) (response : Response) (hk : k ≠ d) :
    Awaits d l (loginFailure k response s) := by
  unfold DgAuth.loginFailure
  split
  · exact ((h.broadcast_awaits _).notify_awaits k).frame_awaits rfl rfl rfl
  · apply Awaits.frame_awaits _ rfl rfl rfl
    unfold reject
    exact (h.broadcast_awaits _).settle_awaits _ _ _ (by simp) (fun hc => absurd hc hk)

theorem Awaits.logoutSuccess_awaits {d l : Nat} {s : State} (h : Awaits d l s) (env : Env)
    (k : Nat) (response : Response) (hk : k ≠ d) :
    Awaits d l (logoutSuccess env k response s) := by
  unfold DgAuth.logoutSuccess resolve
  apply Awaits.settle_awaits _ _ _ _ (by simp) (fun hc => absurd hc hk)
  apply h.frame_awaits <;> simp [DgAuth.broadcast]

theorem Awaits.logoutFailure_awaits {d l : Nat} {s : State} (h : Awaits d l s)
    (k : Nat) (response : Response) (hk : k ≠ d) :
    Awaits d l (logoutFailure k response s) := by
  unfold DgAuth.logoutFailure reject
  exact (h.broadcast_awaits _).settle_awaits _ _ _ (by simp) (fun hc => absurd hc hk)

theorem Awaits.httpSuccess_awaits {d l : Nat} {s : State} (h : Awaits d l s) (env : Env)
    (i : Nat) (response : Response) : Awaits d l (httpSuccess env i response s) := by
  unfold DgAuth.httpSuccess
  split
  · rename_i kind k he
    have hk : k ≠ d := h.2.2.1 _ (List.getElem?_mem he)
    have h1 := h.markDelivered_awaits i _ he
    cases kind
    · exact h1.loginSuccess_awaits env k response hk
    · exact h1.logoutSuccess_awaits env k response hk
  · exact h

theorem Awaits.httpError_awaits {d l : Nat} {s : State} (h : Awaits d l s) (env : Env)
    (i : Nat) (response : Response) : Awaits d l (httpError env i response s) := by
  unfold DgAuth.httpError
  split
  · rename_i kind k he
    have hk : k ≠ d := h.2.2.1 _ (List.getElem?_mem he)
    have h1 := (h.markDelivered_awaits i _ he).responseError_awaits env response
    simp only at h1 ⊢
    split
    · rename_i r s2 heq
      rw [heq] at h1
      cases kind
      · exact h1.loginFailure_awaits k r hk
      · exact h1.logoutFailure_awaits k r hk
    · rename_i k' s2 heq
      rw [heq] at h1
      exact h1
  · exact h

theorem Awaits.rejectWithData_awaits {d l : Nat} {s : State} (h : Awaits d l s) (k : Nat)
    (v : JsVal) (hk : k = d → s.promise l ≠ some .pending) :
    Awaits d l (rejectWithData k v s) := by
  unfold DgAuth.rejectWithData
  split
  · unfold reject
    exact h.settle_awaits _ _ _ (by simp) hk
  · exact h.frame_awaits rfl rfl rfl

theorem Awaits.runTask_awaits {d l : Nat} {s : State} (h : Awaits d l s) (env : Env) :
    Awaits d l (runTask env s) := by
  unfold DgAuth.runTask
  split
  · exact h
  · rename_i t rest hq
    have h1 := h.pop_awaits t rest hq
    have ht : t ∈ s.queue := by rw [hq]; exact List.mem_cons_self _ _
    have hq5 := h.2.2.2.2.1 t ht
    obtain ⟨cb, sg⟩ := t
    unfold runCallback
    split
    · rename_i k v hcb hsg
      simp only at hcb hsg
      subst hcb hsg
      exact h1.rejectWithData_awaits k v (fun hc => hq5 (by simp [Callback.target, hc]) (by simp))
    · rename_i k v hcb hsg
      simp only at hcb hsg
      subst hcb hsg
      unfold resolve
      exact h1.settle_awaits _ _ _ (by simp)
        (fun hc => hq5 (by simp [Callback.target, hc]) (by simp))
    · rename_i k v hcb hsg
      simp only at hcb hsg
      subst hcb hsg
      unfold resolve
      exact h1.settle_awaits _ _ _ (by simp)
        (fun hc => hq5 (by simp [Callback.target, hc]) (by simp))
    · rename_i k v hcb hsg
      simp only at hcb hsg
      subst hcb hsg
      exact h1.rejectWithData_awaits k v (fun hc => hq5 (by simp [Callback.target, hc]) (by simp))
    · exact h1

theorem Awaits.step_awaits {d l : Nat} {s : State} (h : Awaits d l s) (env : Env) (a : Action) :
    Awaits d l (step env s a) := by
  cases a with
  | signin => exact h.signin_awaits env
  | signout => exact h.signout_awaits env
  | isAuthenticated => exact h.isAuthenticated_awaits
  | setCredentials u p => exact h.setCredentials_awaits u p
  | setHttpRequest request => exact h.frame_awaits rfl rfl rfl
  | responseError rejection => exact h.responseError_awaits env rejection
  | httpSuccess i response => exact h.httpSuccess_awaits env i response
  | httpError i response => exact h.httpError_awaits env i response
  | runTask => exact h.runTask_awaits env

theorem Awaits.run_awaits {d l : Nat} {s : State} (h : Awaits d l s) (env : Env)
    (actions : List Action) : Awaits d l (run env s actions) := by
  unfold DgAuth.run
  induction actions generalizing s with
  | nil => exact h
  | cons a rest ih =>
    rw [List.foldl_cons]
    exact ih (h.step_awaits env a)


/-! ## Every state of a run is well formed -/

theorem State.WellFormed.init (cookie : Option String) (storage : Option (String × String)) :
    (State.init cookie storage).WellFormed := by
  simp [State.WellFormed, State.init, initLogin, initLogout]

theorem State.WellFormed.frame_wf {s s' : State} (h : s.WellFormed)
    (hd : s'.deferreds = s.deferreds) (he : s'.exchanges = s.exchanges)
    (hq : s'.queue = s.queue) (hli : s'.loginRequest.deferred = s.loginRequest.deferred)
    (hlo : s'.logoutRequest.deferred = s.logoutRequest.deferred) : s'.WellFormed := by
  unfold State.WellFormed at *
  rw [hd, he, hq, hli, hlo]
  exact h

theorem State.WellFormed.defer_wf {s : State} (h : s.WellFormed) : (defer s).2.WellFormed := by
  obtain ⟨h1, h2, h3, h4, h5⟩ := h
  have hlen : (DgAuth.defer s).2.deferreds.length = s.deferreds.length + 1 := by
    simp [DgAuth.defer]
  refine ⟨?_, ?_, ?_, ?_, ?_⟩
  · intro e he; rw [hlen]; exact Nat.lt_succ_of_lt (h1 e he)
  · intro t ht d hd; rw [hlen]; exact Nat.lt_succ_of_lt (h2 t ht d hd)
  · intro x hx cb hcb d hd
    rw [hlen]
    simp only [DgAuth.defer, List.mem_append, List.mem_singleton] at hx
    rcases hx with hx | hx
    · exact Nat.lt_succ_of_lt (h3 x hx cb hcb d hd)
    · subst hx; simp at hcb
  · intro d hd; rw [hlen]; exact Nat.lt_succ_of_lt (h4 d hd)
  · intro d hd; rw [hlen]; exact Nat.lt_succ_of_lt (h5 d hd)

theorem State.WellFormed.addExchange_wf {s : State} (h : s.WellFormed) (e : Exchange)
    (he : e.deferred < s.deferreds.length) :
    State.WellFormed { s with exchanges := s.exchanges ++ [e] } := by
  obtain ⟨h1, h2, h3, h4, h5⟩ := h
  refine ⟨?_, h2, h3, h4, h5⟩
  intro e' he'
  simp only [List.mem_append, List.mem_singleton] at he'
  rcases he' with he' | he'
  · exact h1 e' he'
  · subst he'; exact he

theorem State.WellFormed.markDelivered_wf {s : State} (h : s.WellFormed) (i : Nat)
    (e : Exchange) (he : s.exchanges[i]? = some e) :
    State.WellFormed { s with exchanges := s.exchanges.set i { e with delivered := true } } := by
  obtain ⟨h1, h2, h3, h4, h5⟩ := h
  refine ⟨?_, h2, h3, h4, h5⟩
  intro e' he'
  rcases List.mem_or_eq_of_mem_set he' with hm | hm
  · exact h1 e' hm
  · subst hm
    exact h1 e (List.getElem?_mem he)

theorem State.WellFormed.settle_wf {s : State} (h : s.WellFormed) (k : Nat) (st : Settlement)
    (sg : Signal) : (settle k st sg s).WellFormed := by
  by_cases hp : s.promise k = some .pending
  · obtain ⟨cbs, n, hd⟩ := promise_pending s k hp
    obtain ⟨h1, h2, h3, h4, h5⟩ := h
    refine ⟨by simpa using h1, ?_, ?_, by simpa using h4, by simpa using h5⟩
    · intro t ht d hdt
      rw [settle_length]
      rw [settle_queue _ _ _ _ hp] at ht
      simp only [List.mem_append, List.mem_map] at ht
      rcases ht with ht | ⟨cb, hcb, rfl⟩
      · exact h2 t ht d hdt
      · have hcb' : cb ∈ cbs := by simpa [State.callbacksOf, hd] using hcb
        exact h3 _ (List.getElem?_mem hd) cb hcb' d hdt
    · intro x hx cb hcb d hdt
      rw [settle_length]
      rw [settle_of_pending _ _ _ _ _ _ hd] at hx
      rcases List.mem_or_eq_of_mem_set hx with hm | hm
      · exact h3 x hm cb hcb d hdt
      · subst hm; simp at hcb
  · rw [settle_of_not_pending _ _ _ _ hp]; exact h

theorem State.WellFormed.notify_wf {s : State} (h : s.WellFormed) (k : Nat) :
    (notify k s).WellFormed := by
  by_cases hp : s.promise k = some .pending
  · obtain ⟨cbs, n, hd⟩ := promise_pending s k hp
    obtain ⟨h1, h2, h3, h4, h5⟩ := h
    refine ⟨by simpa using h1, ?_, ?_, by simpa using h4, by simpa using h5⟩
    · intro t ht d hdt
      rw [notify_length]
      rw [notify_queue _ _ hp] at ht
      simp only [List.mem_append, List.mem_map] at ht
      rcases ht with ht | ⟨cb, hcb, rfl⟩
      · exact h2 t ht d hdt
      · have hcb' : cb ∈ cbs := by simpa [State.callbacksOf, hd] using hcb
        exact h3 _ (List.getElem?_mem hd) cb hcb' d hdt
    · intro x hx cb hcb d hdt
      rw [notify_length]
      simp only [DgAuth.notify, hd] at hx
      rcases List.mem_or_eq_of_mem_set hx with hm | hm
      · exact h3 x hm cb hcb d hdt
      · subst hm
        exact h3 _ (List.getElem?_mem hd) cb hcb d hdt
  · have : DgAuth.notify k s = s := by
      unfold DgAuth.notify
      split
      · rename_i cbs n hd
        exact absurd (by simp [State.promise, hd]) hp
      · rfl
    rw [this]; exact h

theorem State.WellFormed.registerThen_wf {s : State} (h : s.WellFormed) (k : Nat) (cb : Callback)
    (hcb : ∀ d, cb.target = some d → d < s.deferreds.length) :
    (registerThen k cb s).WellFormed := by
  obtain ⟨h1, h2, h3, h4, h5⟩ := h
  refine ⟨by simpa using h1, ?_, ?_, by simpa using h4, by simpa using h5⟩
  · intro t ht d hdt
    rw [registerThen_length]
    unfold DgAuth.registerThen at ht
    split at ht
    · exact h2 t ht d hdt
    · simp only [List.mem_append, List.mem_singleton] at ht
      rcases ht with ht | ht
      · exact h2 t ht d hdt
      · subst ht; exact hcb d hdt
    · simp only [List.mem_append, List.mem_singleton] at ht
      rcases ht with ht | ht
      · exact h2 t ht d hdt
      · subst ht; exact hcb d hdt
    · exact h2 t ht d hdt
  · intro x hx cb' hcb' d hdt
    rw [registerThen_length]
    unfold DgAuth.registerThen at hx
    split at hx
    · rename_i cbs n hd
      rcases List.mem_or_eq_of_mem_set hx with hm | hm
      · exact h3 x hm cb' hcb' d hdt
      · subst hm
        simp only [List.mem_append, List.mem_singleton] at hcb'
        rcases hcb' with hcb' | hcb'
        · exact h3 _ (List.getElem?_mem hd) cb' hcb' d hdt
        · subst hcb'; exact hcb d hdt
    · exact h3 x hx cb' hcb' d hdt
    · exact h3 x hx cb' hcb' d hdt
    · exact h3 x hx cb' hcb' d hdt

theorem State.WellFormed.attachCallbacks_wf {s : State} (h : s.WellFormed)
    (mk : Nat → Callback) (hmk : ∀ i, (mk i).target = none) (count k : Nat) :
    (attachCallbacks mk count k s).WellFormed := by
  unfold DgAuth.attachCallbacks
  induction List.range count generalizing s with
  | nil => exact h
  | cons i rest ih =>
    rw [List.foldl_cons]
    exact ih (h.registerThen_wf k (mk i) (by intro d hd; rw [hmk i] at hd; cases hd))

theorem State.WellFormed.pop_wf {s : State} (h : s.WellFormed) (t : Task) (rest : List Task)
    (hq : s.queue = t :: rest) : State.WellFormed { s with queue := rest } := by
  obtain ⟨h1, h2, h3, h4, h5⟩ := h
  refine ⟨h1, ?_, h3, h4, h5⟩
  intro t' ht'
  exact h2 t' (by rw [hq]; exact List.mem_cons_of_mem _ ht')

theorem State.WellFormed.setLogin {s : State} (h : s.WellFormed) (r : LoginRequest)
    (hr : ∀ d, r.deferred = some d → d < s.deferreds.length) :
    State.WellFormed { s with loginRequest := r } := by
  obtain ⟨h1, h2, h3, h4, h5⟩ := h
  exact ⟨h1, h2, h3, hr, h5⟩

theorem State.WellFormed.setLogout {s : State} (h : s.WellFormed) (r : LogoutRequest)
    (hr : ∀ d, r.deferred = some d → d < s.deferreds.length) :
    State.WellFormed { s with logoutRequest := r } := by
  obtain ⟨h1, h2, h3, h4, h5⟩ := h
  exact ⟨h1, h2, h3, h4, hr⟩

theorem broadcast_deferreds (ev : Event) (s : State) :
    (broadcast ev s).deferreds = s.deferreds := by
  cases ev <;> rfl

theorem broadcast_exchanges (ev : Event) (s : State) :
    (broadcast ev s).exchanges = s.exchanges := by
  cases ev <;> rfl

theorem broadcast_queue (ev : Event) (s : State) : (broadcast ev s).queue = s.queue := by
  cases ev <;> rfl

theorem broadcast_login_deferred (ev : Event) (s : State) :
    (broadcast ev s).loginRequest.deferred = s.loginRequest.deferred := by
  cases ev <;> rfl

theorem broadcast_logoutRequest (ev : Event) (s : State) :
    (broadcast ev s).logoutRequest = s.logoutRequest := by
  cases ev <;> rfl

theorem State.WellFormed.broadcast_wf {s : State} (h : s.WellFormed) (ev : Event) :
    (broadcast ev s).WellFormed :=
  h.frame_wf (broadcast_deferreds ev s) (broadcast_exchanges ev s) (broadcast_queue ev s)
    (broadcast_login_deferred ev s) (by rw [broadcast_logoutRequest])


theorem restoreCredentials_logoutRequest (env : Env) (s : State) :
    (restoreCredentials env s).logoutRequest = s.logoutRequest := by
  unfold restoreCredentials
  split
  · split
    · simp [broadcast]
    · rfl
  · rfl

theorem State.WellFormed.performLogin_wf {s : State} (h : s.WellFormed) :
    (performLogin s).2.WellFormed :=
  h.defer_wf.addExchange_wf ⟨.login, s.deferreds.length, false⟩ (by simp [DgAuth.defer])

theorem State.WellFormed.performLogout_wf {s : State} (h : s.WellFormed) :
    (performLogout s).2.WellFormed :=
  h.defer_wf.addExchange_wf ⟨.logout, s.deferreds.length, false⟩ (by simp [DgAuth.defer])

theorem State.WellFormed.signin_wf {s : State} (h : s.WellFormed) (env : Env) :
    (signin env s).2.WellFormed := by
  have h1 : (restoreCredentials env s).WellFormed :=
    h.frame_wf (restoreCredentials_deferreds env s) (restoreCredentials_exchanges env s)
      (restoreCredentials_queue env s) (restoreCredentials_deferred env s)
      (by rw [restoreCredentials_logoutRequest])
  unfold DgAuth.signin
  simp only
  split
  · exact h1
  · show State.WellFormed (DgAuth.attachCallbacks _ _ _ _)
    refine State.WellFormed.attachCallbacks_wf ?_ Callback.loginCallback (fun _ => rfl) _ _
    refine h1.performLogin_wf.setLogin _ ?_
    intro d hd
    have hd' := Option.some.inj hd
    subst hd'
    simp [DgAuth.performLogin, DgAuth.defer]

theorem State.WellFormed.signout_wf {s : State} (h : s.WellFormed) (env : Env) :
    (signout env s).2.WellFormed := by
  unfold DgAuth.signout
  split
  · exact h
  · show State.WellFormed (DgAuth.attachCallbacks _ _ _ _)
    refine State.WellFormed.attachCallbacks_wf ?_ Callback.logoutCallback (fun _ => rfl) _ _
    refine h.performLogout_wf.setLogout _ ?_
    intro d hd
    have hd' := Option.some.inj hd
    subst hd'
    simp [DgAuth.performLogout, DgAuth.defer]

theorem State.WellFormed.isAuthenticated_wf {s : State} (h : s.WellFormed) :
    (isAuthenticated s).2.WellFormed := by
  unfold DgAuth.isAuthenticated
  simp only [DgAuth.defer]
  split
  · apply State.WellFormed.registerThen_wf h.defer_wf
    intro d hd
    simp only [Callback.target, Option.some.injEq] at hd
    subst hd
    simp [DgAuth.defer]
  · split
    · apply State.WellFormed.registerThen_wf h.defer_wf
      intro d hd
      simp only [Callback.target, Option.some.injEq] at hd
      subst hd
      simp [DgAuth.defer]
    · exact h.defer_wf

theorem State.WellFormed.setCredentials_wf {s : State} (h : s.WellFormed) (u p : String) :
    (setCredentials u p s).WellFormed := by
  unfold DgAuth.setCredentials
  apply h.frame_wf <;> simp [DgAuth.broadcast]

theorem State.WellFormed.responseError_wf {s : State} (h : s.WellFormed) (env : Env)
    (rejection : Response) : (responseError env rejection s).2.WellFormed := by
  unfold DgAuth.responseError
  split
  · split
    · exact h.broadcast_wf _
    · split
      · exact (h.broadcast_wf _).broadcast_wf _
      · exact (((h.broadcast_wf _).defer_wf).broadcast_wf _).broadcast_wf _
  · exact h

theorem State.WellFormed.loginSuccess_wf {s : State} (h : s.WellFormed) (env : Env)
    (k : Nat) (response : Response) : (loginSuccess env k response s).WellFormed := by
  unfold DgAuth.loginSuccess resolve storeCredentials
  apply State.WellFormed.settle_wf
  apply h.frame_wf <;> simp [DgAuth.broadcast]

theorem State.WellFormed.loginFailure_wf {s : State} (h : s.WellFormed)
    (k : Nat) (response : Response) : (loginFailure k response s).WellFormed := by
  unfold DgAuth.loginFailure
  split
  · exact ((h.broadcast_wf _).notify_wf k).setLogin initLogin (by intro d hd; cases hd)
  · unfold reject
    exact ((h.broadcast_wf _).settle_wf _ _ _).setLogin initLogin (by intro d hd; cases hd)

theorem State.WellFormed.logoutSuccess_wf {s : State} (h : s.WellFormed) (env : Env)
    (k : Nat) (response : Response) : (logoutSuccess env k response s).WellFormed := by
  unfold DgAuth.logoutSuccess resolve
  apply State.WellFormed.settle_wf
  apply State.WellFormed.broadcast_wf
  have h0 : State.WellFormed
      { s with cookie := some (env.createHash "false"), identity := .null } :=
    h.frame_wf rfl rfl rfl rfl rfl
  exact h0.setLogin initLogin (by intro d hd; cases hd)

theorem State.WellFormed.logoutFailure_wf {s : State} (h : s.WellFormed)
    (k : Nat) (response : Response) : (logoutFailure k response s).WellFormed := by
  unfold DgAuth.logoutFailure reject
  exact (h.broadcast_wf _).settle_wf _ _ _

theorem State.WellFormed.httpSuccess_wf {s : State} (h : s.WellFormed) (env : Env)
    (i : Nat) (response : Response) : (httpSuccess env i response s).WellFormed := by
  unfold DgAuth.httpSuccess
  split
  · rename_i kind k he
    have h1 := h.markDelivered_wf i _ he
    cases kind
    · exact h1.loginSuccess_wf env k response
    · exact h1.logoutSuccess_wf env k response
  · exact h

theorem State.WellFormed.httpError_wf {s : State} (h : s.WellFormed) (env : Env)
    (i : Nat) (response : Response) : (httpError env i response s).WellFormed := by
  unfold DgAuth.httpError
  split
  · rename_i kind k he
    have h1 := (h.markDelivered_wf i _ he).responseError_wf env response
    simp only at h1 ⊢
    split
    · rename_i r s2 heq
      rw [heq] at h1
      cases kind
      · exact h1.loginFailure_wf k r
      · exact h1.logoutFailure_wf k r
    · rename_i k' s2 heq
      rw [heq] at h1
      exact h1
  · exact h

theorem State.WellFormed.rejectWithData_wf {s : State} (h : s.WellFormed) (k : Nat)
    (v : JsVal) : (rejectWithData k v s).WellFormed := by
  unfold DgAuth.rejectWithData
  split
  · unfold reject
    exact h.settle_wf _ _ _
  · exact h.frame_wf rfl rfl rfl rfl rfl

theorem State.WellFormed.runTask_wf {s : State} (h : s.WellFormed) (env : Env) :
    (runTask env s).WellFormed := by
  unfold DgAuth.runTask
  split
  · exact h
  · rename_i t rest hq
    have h1 := h.pop_wf t rest hq
    unfold runCallback
    split
    · exact h1.rejectWithData_wf _ _
    · unfold resolve; exact h1.settle_wf _ _ _
    · unfold resolve; exact h1.settle_wf _ _ _
    · exact h1.rejectWithData_wf _ _
    · exact h1

theorem State.WellFormed.step_wf {s : State} (h : s.WellFormed) (env : Env) (a : Action) :
    (step env s a).WellFormed := by
  cases a with
  | signin => exact h.signin_wf env
  | signout => exact h.signout_wf env
  | isAuthenticated => exact h.isAuthenticated_wf
  | setCredentials u p => exact h.setCredentials_wf u p
  | setHttpRequest request => exact h.frame_wf rfl rfl rfl rfl rfl
  | responseError rejection => exact h.responseError_wf env rejection
  | httpSuccess i response => exact h.httpSuccess_wf env i response
  | httpError i response => exact h.httpError_wf env i response
  | runTask => exact h.runTask_wf env

theorem State.WellFormed.run_wf {s : State} (h : s.WellFormed) (env : Env)
    (actions : List Action) : (run env s actions).WellFormed := by
  unfold DgAuth.run
  induction actions generalizing s with
  | nil => exact h
  | cons a rest ih =>
    rw [List.foldl_cons]
    exact ih (h.step_wf env a)

/-- Every state reached from the initial one is well formed. -/
theorem wellFormed_of_run (env : Env) (cookie : Option String)
    (storage : Option (String × String)) (actions : List Action) :
    (run env (State.init cookie storage) actions).WellFormed :=
  (State.WellFormed.init cookie storage).run_wf env actions

theorem Awaits.start {l : Nat} {s : State} (hwf : s.WellFormed)
    (hl : l < s.deferreds.length) (cb : Callback) :
    Awaits s.deferreds.length l (DgAuth.registerThen l cb (DgAuth.defer s).2) := by
  obtain ⟨w1, w2, w3, -, -⟩ := hwf
  have hlen : (DgAuth.defer s).2.deferreds.length = s.deferreds.length + 1 := by simp [DgAuth.defer]
  have hold : ∀ (k : Nat) (x : Deferred), (DgAuth.defer s).2.deferreds[k]? = some x → ∀ c ∈ x.callbacks,
      c.target ≠ some s.deferreds.length := by
    intro k x hk c hc ht
    simp only [DgAuth.defer] at hk
    by_cases hlt : k < s.deferreds.length
    · rw [List.getElem?_append_left hlt] at hk
      exact Nat.lt_irrefl _ (w3 x (List.getElem?_mem hk) c hc _ ht)
    · by_cases hkeq : k = s.deferreds.length
      · subst hkeq
        simp at hk
        subst hk
        simp at hc
      · rw [List.getElem?_eq_none (by simp; omega)] at hk
        cases hk
  have holdq : ∀ t ∈ (DgAuth.defer s).2.queue, t.callback.target ≠ some s.deferreds.length := by
    intro t ht htar
    exact Nat.lt_irrefl _ (w2 t ht _ htar)
  refine ⟨by rw [registerThen_length, hlen]; omega, by rw [registerThen_length, hlen]; omega,
    ?_, ?_, ?_, ?_⟩
  · intro e he
    rw [registerThen_exchanges] at he
    exact Nat.ne_of_lt (w1 e he)
  · intro k x hk c hc ht
    unfold DgAuth.registerThen at hk
    split at hk
    · rename_i cbs n hd
      by_cases hkl : k = l
      · exact hkl
      · simp only at hk
        rw [List.getElem?_set_ne (Ne.symm hkl)] at hk
        exact absurd ht (hold k x hk c hc)
    · exact absurd ht (hold k x hk c hc)
    · exact absurd ht (hold k x hk c hc)
    · exact absurd ht (hold k x hk c hc)
  · intro t ht htar _
    rw [registerThen_promise]
    unfold DgAuth.registerThen at ht
    split at ht
    · exact absurd htar (holdq t ht)
    · rename_i v _ _ hd
      intro hc
      simp [State.promise, hd] at hc
    · rename_i v _ _ hd
      intro hc
      simp [State.promise, hd] at hc
    · exact absurd htar (holdq t ht)
  · intro hne
    rw [registerThen_promise] at hne
    exact absurd (defer_promise_new s) hne


theorem isAuthenticated_logout_branch (s : State) (l : Nat)
    (hl : s.logoutRequest.deferred = some l) :
    isAuthenticated s
      = (s.deferreds.length,
          registerThen l (.authAfterLogout s.deferreds.length) (defer s).2) := by
  simp [isAuthenticated, defer, hl]

theorem registerThen_callbacksOf_self (k : Nat) (cb : Callback) (s : State)
    (h : s.promise k = some .pending) :
    (registerThen k cb s).callbacksOf k = s.callbacksOf k ++ [cb] := by
  obtain ⟨cbs, n, hd⟩ := promise_pending s k h
  have hlt := promise_lt s k _ h
  simp [registerThen, hd, State.callbacksOf, hlt]

theorem registerThen_queue_pending (k : Nat) (cb : Callback) (s : State)
    (h : s.promise k = some .pending) : (registerThen k cb s).queue = s.queue := by
  obtain ⟨cbs, n, hd⟩ := promise_pending s k h
  simp [registerThen, hd]

theorem defer_callbacksOf_old (s : State) (k : Nat) (h : k < s.deferreds.length) :
    (defer s).2.callbacksOf k = s.callbacksOf k := by
  simp only [defer, State.callbacksOf]
  rw [List.getElem?_append_left h]

/-- The logout branch of `isAuthenticated` as the code has it, in general.
The call is made in a well formed state whose logout object has a handle `l`.
Its result is a new deferred, pending after the call. In every run that
follows, the result is settled only in states where `l` is settled. While `l`
is pending the call only adds its pair of functions to the callbacks of `l`;
the failure handler of the logout then schedules that pair with the rejection,
and the success handler schedules it with the fulfilment. When the pair runs
for a rejected logout, the result is resolved with the value of the cookie test
and `null !== _identity` in the state of that moment. When it runs for a
fulfilled logout, the result is not resolved, whatever the data. -/
theorem isAuthenticated_during_logout (env : Env) (s : State) (l : Nat)
    (hwf : s.WellFormed) (hl : s.logoutRequest.deferred = some l) :
    (isAuthenticated s).1 = s.deferreds.length ∧
      (isAuthenticated s).2.promise (isAuthenticated s).1 = some .pending ∧
      (∀ actions : List Action,
        (run env (isAuthenticated s).2 actions).promise (isAuthenticated s).1 ≠ some .pending →
          (run env (isAuthenticated s).2 actions).promise l ≠ some .pending) ∧
      (s.promise l = some .pending →
        (isAuthenticated s).2.callbacksOf l
            = s.callbacksOf l ++ [.authAfterLogout (isAuthenticated s).1] ∧
          (isAuthenticated s).2.queue = s.queue) ∧
      (∀ (s2 : State) (response : Response), s2.promise l = some .pending →
        Callback.authAfterLogout (isAuthenticated s).1 ∈ s2.callbacksOf l →
          (⟨.authAfterLogout (isAuthenticated s).1, .rejected response.data⟩ : Task)
              ∈ (logoutFailure l response s2).queue ∧
            (⟨.authAfterLogout (isAuthenticated s).1, .fulfilled response.data⟩ : Task)
              ∈ (logoutSuccess env l response s2).queue) ∧
      (∀ (s2 : State) (reason : JsVal), s2.promise (isAuthenticated s).1 = some .pending →
        (runCallback env ⟨.authAfterLogout (isAuthenticated s).1, .rejected reason⟩ s2).promise
            (isAuthenticated s).1
          = some (.resolved (.bool (authCheck env s2)))) ∧
      (∀ (s2 : State) (value v : JsVal), s2.promise (isAuthenticated s).1 = some .pending →
        (runCallback env ⟨.authAfterLogout (isAuthenticated s).1, .fulfilled value⟩ s2).promise
            (isAuthenticated s).1
          ≠ some (.resolved v)) := by
  have hlt : l < s.deferreds.length := hwf.2.2.2.2 l hl
  rw [isAuthenticated_logout_branch s l hl]
  simp only
  refine ⟨trivial, ?_, ?_, ?_, ?_, ?_, ?_⟩
  · rw [registerThen_promise]; exact defer_promise_new s
  · intro actions
    exact ((Awaits.start hwf hlt _).run_awaits env actions).2.2.2.2.2
  · intro hp
    have hp' : (defer s).2.promise l = some .pending := by
      rw [defer_promise_old s l (by omega)]; exact hp
    constructor
    · rw [registerThen_callbacksOf_self _ _ _ hp', defer_callbacksOf_old s l hlt]
    · rw [registerThen_queue_pending _ _ _ hp']; rfl
  · intro s2 response hp hmem
    constructor
    · have hpb : (broadcast (.logoutError response) s2).promise l = some .pending := by
        simpa [broadcast, State.promise] using hp
      simp only [logoutFailure, reject]
      rw [settle_queue _ _ _ _ hpb]
      apply List.mem_append_right
      exact List.mem_map.2 ⟨_, by simpa [State.callbacksOf, broadcast] using hmem, rfl⟩
    · simp only [logoutSuccess, resolve]
      rw [settle_queue]
      · apply List.mem_append_right
        exact List.mem_map.2 ⟨_, by simpa [State.callbacksOf, broadcast] using hmem, rfl⟩
      · simpa [broadcast, State.promise] using hp
  · intro s2 reason hp
    simp only [runCallback, resolve]
    exact settle_promise_self _ _ _ _ hp
  · intro s2 value v hp
    simp only [runCallback, rejectWithData]
    split
    · unfold reject
      rw [settle_promise_self _ _ _ _ hp]
      simp
    · show s2.promise _ ≠ _
      rw [hp]
      simp

theorem isAuthenticated_during_logout_witness :
    signingOut.WellFormed ∧ signingOut.logoutRequest.deferred = some 0 ∧
      (isAuthenticated signingOut).1 = 1 ∧
      ((run sampleEnv (isAuthenticated signingOut).2
            [.httpError 0 logoutFailed, .runTask]).promise 1 ≠ some .pending →
        (run sampleEnv (isAuthenticated signingOut).2
            [.httpError 0 logoutFailed, .runTask]).promise 0 ≠ some .pending) ∧
      (runCallback sampleEnv ⟨.authAfterLogout 1, .rejected logoutFailed.data⟩
          (logoutFailure 0 logoutFailed (isAuthenticated signingOut).2)).promise 1
        = some (.resolved (.bool (authCheck sampleEnv
            (logoutFailure 0 logoutFailed (isAuthenticated signingOut).2)))) :=
  have hwf : signingOut.WellFormed := wellFormed_of_run sampleEnv none none [.signout]
  have h := isAuthenticated_during_logout sampleEnv signingOut 0 hwf rfl
  ⟨hwf, rfl, h.1, h.2.2.1 [.httpError 0 logoutFailed, .runTask],
    h.2.2.2.2.2.1 (logoutFailure 0 logoutFailed (isAuthenticated signingOut).2)
      logoutFailed.data rfl⟩


/-! ## The deferred of a suspended request is never settled -/

theorem Untouched.frame_untouched {d : Nat} {s s' : State} (h : Untouched d s)
    (hd : s'.deferreds = s.deferreds) (he : s'.exchanges = s.exchanges)
    (hq : s'.queue = s.queue) : Untouched d s' := by
  unfold Untouched State.promise at *
  rw [hd, he, hq]
  exact h

theorem Untouched.defer_untouched {d : Nat} {s : State} (h : Untouched d s) :
    Untouched d (defer s).2 := by
  obtain ⟨h1, h2, h3, h4⟩ := h
  have hlt := promise_lt s d _ h1
  refine ⟨?_, h2, ?_, h4⟩
  · rw [defer_promise_old s d (by omega)]; exact h1
  · intro x hx cb hcb
    simp only [DgAuth.defer, List.mem_append, List.mem_singleton] at hx
    rcases hx with hx | hx
    · exact h3 x hx cb hcb
    · subst hx; simp at hcb

theorem Untouched.addExchange_untouched {d : Nat} {s : State} (h : Untouched d s) (e : Exchange)
    (he : e.deferred ≠ d) : Untouched d { s with exchanges := s.exchanges ++ [e] } := by
  obtain ⟨h1, h2, h3, h4⟩ := h
  refine ⟨h1, ?_, h3, h4⟩
  intro e' he'
  simp only [List.mem_append, List.mem_singleton] at he'
  rcases he' with he' | he'
  · exact h2 e' he'
  · subst he'; exact he

theorem Untouched.markDelivered_untouched {d : Nat} {s : State} (h : Untouched d s) (i : Nat)
    (e : Exchange) (he : s.exchanges[i]? = some e) :
    Untouched d { s with exchanges := s.exchanges.set i { e with delivered := true } } := by
  obtain ⟨h1, h2, h3, h4⟩ := h
  refine ⟨h1, ?_, h3, h4⟩
  intro e' he'
  rcases List.mem_or_eq_of_mem_set he' with hm | hm
  · exact h2 e' hm
  · subst hm
    exact h2 e (List.getElem?_mem he)

theorem Untouched.settle_untouched {d : Nat} {s : State} (h : Untouched d s) (k : Nat)
    (st : Settlement) (sg : Signal) (hk : k ≠ d) : Untouched d (settle k st sg s) := by
  by_cases hp : s.promise k = some .pending
  · obtain ⟨cbs, n, hd⟩ := promise_pending s k hp
    obtain ⟨h1, h2, h3, h4⟩ := h
    refine ⟨?_, by simpa using h2, ?_, ?_⟩
    · rw [settle_promise_other _ _ _ _ _ (Ne.symm hk)]; exact h1
    · intro x hx cb hcb
      rw [settle_of_pending _ _ _ _ _ _ hd] at hx
      rcases List.mem_or_eq_of_mem_set hx with hm | hm
      · exact h3 x hm cb hcb
      · subst hm; simp at hcb
    · intro t ht
      rw [settle_queue _ _ _ _ hp] at ht
      simp only [List.mem_append, List.mem_map] at ht
      rcases ht with ht | ⟨cb, hcb, rfl⟩
      · exact h4 t ht
      · have hcb' : cb ∈ cbs := by simpa [State.callbacksOf, hd] using hcb
        exact h3 _ (List.getElem?_mem hd) cb hcb'
  · rw [settle_of_not_pending _ _ _ _ hp]; exact h

theorem Untouched.notify_untouched {d : Nat} {s : State} (h : Untouched d s) (k : Nat) :
    Untouched d (notify k s) := by
  by_cases hp : s.promise k = some .pending
  · obtain ⟨cbs, n, hd⟩ := promise_pending s k hp
    obtain ⟨h1, h2, h3, h4⟩ := h
    refine ⟨by rw [notify_promise]; exact h1, by simpa using h2, ?_, ?_⟩
    · intro x hx cb hcb
      simp only [DgAuth.notify, hd] at hx
      rcases List.mem_or_eq_of_mem_set hx with hm | hm
      · exact h3 x hm cb hcb
      · subst hm
        exact h3 _ (List.getElem?_mem hd) cb hcb
    · intro t ht
      rw [notify_queue _ _ hp] at ht
      simp only [List.mem_append, List.mem_map] at ht
      rcases ht with ht | ⟨cb, hcb, rfl⟩
      · exact h4 t ht
      · have hcb' : cb ∈ cbs := by simpa [State.callbacksOf, hd] using hcb
        exact h3 _ (List.getElem?_mem hd) cb hcb'
  · have : DgAuth.notify k s = s := by
      unfold DgAuth.notify
      split
      · rename_i cbs n hd
        exact absurd (by simp [State.promise, hd]) hp
      · rfl
    rw [this]; exact h

theorem Untouched.registerThen_untouched {d : Nat} {s : State} (h : Untouched d s) (k : Nat)
    (cb : Callback) (hcb : cb.target ≠ some d) : Untouched d (registerThen k cb s) := by
  obtain ⟨h1, h2, h3, h4⟩ := h
  refine ⟨by rw [registerThen_promise]; exact h1, by simpa using h2, ?_, ?_⟩
  · intro x hx cb' hcb'
    unfold DgAuth.registerThen at hx
    split at hx
    · rename_i cbs n hd
      rcases List.mem_or_eq_of_mem_set hx with hm | hm
      · exact h3 x hm cb' hcb'
      · subst hm
        simp only [List.mem_append, List.mem_singleton] at hcb'
        rcases hcb' with hcb' | hcb'
        · exact h3 _ (List.getElem?_mem hd) cb' hcb'
        · subst hcb'; exact hcb
    · exact h3 x hx cb' hcb'
    · exact h3 x hx cb' hcb'
    · exact h3 x hx cb' hcb'
  · intro t ht
    unfold DgAuth.registerThen at ht
    split at ht
    · exact h4 t ht
    · simp only [List.mem_append, List.mem_singleton] at ht
      rcases ht with ht | ht
      · exact h4 t ht
      · subst ht; exact hcb
    · simp only [List.mem_append, List.mem_singleton] at ht
      rcases ht with ht | ht
      · exact h4 t ht
      · subst ht; exact hcb
    · exact h4 t ht

theorem Untouched.attachCallbacks_untouched {d : Nat} {s : State} (h : Untouched d s)
    (mk : Nat → Callback) (hmk : ∀ i, (mk i).target = none) (count k : Nat) :
    Untouched d (attachCallbacks mk count k s) := by
  unfold DgAuth.attachCallbacks
  induction List.range count generalizing s with
  | nil => exact h
  | cons i rest ih =>
    rw [List.foldl_cons]
    exact ih (h.registerThen_untouched k (mk i) (by rw [hmk i]; simp))

theorem Untouched.pop_untouched {d : Nat} {s : State} (h : Untouched d s) (t : Task)
    (rest : List Task) (hq : s.queue = t :: rest) : Untouched d { s with queue := rest } := by
  obtain ⟨h1, h2, h3, h4⟩ := h
  refine ⟨h1, h2, h3, ?_⟩
  intro t' ht'
  exact h4 t' (by rw [hq]; exact List.mem_cons_of_mem _ ht')

theorem Untouched.broadcast_untouched {d : Nat} {s : State} (h : Untouched d s) (ev : Event) :
    Untouched d (broadcast ev s) :=
  h.frame_untouched (broadcast_deferreds ev s) (broadcast_exchanges ev s) (broadcast_queue ev s)

theorem Untouched.lt {d : Nat} {s : State} (h : Untouched d s) : d < s.deferreds.length :=
  promise_lt s d _ h.1

theorem Untouched.performLogin_untouched {d : Nat} {s : State} (h : Untouched d s) :
    Untouched d (performLogin s).2 := by
  have hne : s.deferreds.length ≠ d := by have := h.lt; omega
  exact h.defer_untouched.addExchange_untouched ⟨.login, s.deferreds.length, false⟩ hne

theorem Untouched.performLogout_untouched {d : Nat} {s : State} (h : Untouched d s) :
    Untouched d (performLogout s).2 := by
  have hne : s.deferreds.length ≠ d := by have := h.lt; omega
  exact h.defer_untouched.addExchange_untouched ⟨.logout, s.deferreds.length, false⟩ hne

theorem Untouched.signin_untouched {d : Nat} {s : State} (h : Untouched d s) (env : Env) :
    Untouched d (signin env s).2 := by
  have h1 : Untouched d (restoreCredentials env s) :=
    h.frame_untouched (restoreCredentials_deferreds env s) (restoreCredentials_exchanges env s)
      (restoreCredentials_queue env s)
  unfold DgAuth.signin
  simp only
  split
  · exact h1
  · show Untouched d (DgAuth.attachCallbacks _ _ _ _)
    refine Untouched.attachCallbacks_untouched ?_ Callback.loginCallback (fun _ => rfl) _ _
    exact h1.performLogin_untouched.frame_untouched rfl rfl rfl

theorem Untouched.signout_untouched {d : Nat} {s : State} (h : Untouched d s) (env : Env) :
    Untouched d (signout env s).2 := by
  unfold DgAuth.signout
  split
  · exact h
  · show Untouched d (DgAuth.attachCallbacks _ _ _ _)
    refine Untouched.attachCallbacks_untouched ?_ Callback.logoutCallback (fun _ => rfl) _ _
    exact h.performLogout_untouched.frame_untouched rfl rfl rfl

theorem Untouched.isAuthenticated_untouched {d : Nat} {s : State} (h : Untouched d s) :
    Untouched d (isAuthenticated s).2 := by
  have hne : s.deferreds.length ≠ d := by have := h.lt; omega
  unfold DgAuth.isAuthenticated
  simp only [DgAuth.defer]
  split
  · apply Untouched.registerThen_untouched h.defer_untouched
    simpa [Callback.target] using hne
  · split
    · apply Untouched.registerThen_untouched h.defer_untouched
      simpa [Callback.target] using hne
    · exact h.defer_untouched

theorem Untouched.setCredentials_untouched {d : Nat} {s : State} (h : Untouched d s) (u p : String) :
    Untouched d (setCredentials u p s) := by
  unfold DgAuth.setCredentials
  apply h.frame_untouched <;> simp [DgAuth.broadcast]

theorem Untouched.responseError_untouched {d : Nat} {s : State} (h : Untouched d s) (env : Env)
    (rejection : Response) : Untouched d (responseError env rejection s).2 := by
  unfold DgAuth.responseError
  split
  · split
    · exact h.broadcast_untouched _
    · split
      · exact (h.broadcast_untouched _).broadcast_untouched _
      · exact (((h.broadcast_untouched _).defer_untouched).broadcast_untouched _).broadcast_untouched _
  · exact h

theorem Untouched.loginSuccess_untouched {d : Nat} {s : State} (h : Untouched d s) (env : Env)
    (k : Nat) (response : Response) (hk : k ≠ d) :
    Untouched d (loginSuccess env k response s) := by
  unfold DgAuth.loginSuccess resolve storeCredentials
  apply Untouched.settle_untouched _ _ _ _ hk
  apply h.frame_untouched <;> simp [DgAuth.broadcast]

theorem Untouched.loginFailure_untouched {d : Nat} {s : State} (h : Untouched d s)
    (k : Nat) (response : Response) (hk : k ≠ d) :
    Untouched d (loginFailure k response s) := by
  unfold DgAuth.loginFailure
  split
  · exact ((h.broadcast_untouched _).notify_untouched k).frame_untouched rfl rfl rfl
  · apply Untouched.frame_untouched _ rfl rfl rfl
    unfold reject
    exact (h.broadcast_untouched _).settle_untouched _ _ _ hk

theorem Untouched.logoutSuccess_untouched {d : Nat} {s : State} (h : Untouched d s) (env : Env)
    (k : Nat) (response : Response) (hk : k ≠ d) :
    Untouched d (logoutSuccess env k response s) := by
  unfold DgAuth.logoutSuccess resolve
  apply Untouched.settle_untouched _ _ _ _ hk
  apply h.frame_untouched <;> simp [DgAuth.broadcast]

theorem Untouched.logoutFailure_untouched {d : Nat} {s : State} (h : Untouched d s)
    (k : Nat) (response : Response) (hk : k ≠ d) :
    Untouched d (logoutFailure k response s) := by
  unfold DgAuth.logoutFailure reject
  exact (h.broadcast_untouched _).settle_untouched _ _ _ hk

theorem Untouched.httpSuccess_untouched {d : Nat} {s : State} (h : Untouched d s) (env : Env)
    (i : Nat) (response : Response) : Untouched d (httpSuccess env i response s) := by
  unfold DgAuth.httpSuccess
  split
  · rename_i kind k he
    have hk : k ≠ d := h.2.1 _ (List.getElem?_mem he)
    have h1 := h.markDelivered_untouched i _ he
    cases kind
    · exact h1.loginSuccess_untouched env k response hk
    · exact h1.logoutSuccess_untouched env k response hk
  · exact h

theorem Untouched.httpError_untouched {d : Nat} {s : State} (h : Untouched d s) (env : Env)
    (i : Nat) (response : Response) : Untouched d (httpError env i response s) := by
  unfold DgAuth.httpError
  split
  · rename_i kind k he
    have hk : k ≠ d := h.2.1 _ (List.getElem?_mem he)
    have h1 := (h.markDelivered_untouched i _ he).responseError_untouched env response
    simp only at h1 ⊢
    split
    · rename_i r s2 heq
      rw [heq] at h1
      cases kind
      · exact h1.loginFailure_untouched k r hk
      · exact h1.logoutFailure_untouched k r hk
    · rename_i k' s2 heq
      rw [heq] at h1
      exact h1
  · exact h

theorem Untouched.rejectWithData_untouched {d : Nat} {s : State} (h : Untouched d s) (k : Nat)
    (v : JsVal) (hk : k ≠ d) : Untouched d (rejectWithData k v s) := by
  unfold DgAuth.rejectWithData
  split
  · unfold reject
    exact h.settle_untouched _ _ _ hk
  · exact h.frame_untouched rfl rfl rfl

theorem Untouched.runTask_untouched {d : Nat} {s : State} (h : Untouched d s) (env : Env) :
    Untouched d (runTask env s) := by
  unfold DgAuth.runTask
  split
  · exact h
  · rename_i t rest hq
    have h1 := h.pop_untouched t rest hq
    have ht : t ∈ s.queue := by rw [hq]; exact List.mem_cons_self _ _
    have hq4 := h.2.2.2 t ht
    obtain ⟨cb, sg⟩ := t
    unfold runCallback
    split
    · rename_i k v hcb hsg
      simp only at hcb hsg
      subst hcb hsg
      exact h1.rejectWithData_untouched k v (fun hc => hq4 (by simp [Callback.target, hc]))
    · rename_i k v hcb hsg
      simp only at hcb hsg
      subst hcb hsg
      unfold resolve
      exact h1.settle_untouched _ _ _ (fun hc => hq4 (by simp [Callback.target, hc]))
    · rename_i k v hcb hsg
      simp only at hcb hsg
      subst hcb hsg
      unfold resolve
      exact h1.settle_untouched _ _ _ (fun hc => hq4 (by simp [Callback.target, hc]))
    · rename_i k v hcb hsg
      simp only at hcb hsg
      subst hcb hsg
      exact h1.rejectWithData_untouched k v (fun hc => hq4 (by simp [Callback.target, hc]))
    · exact h1

theorem Untouched.step_untouched {d : Nat} {s : State} (h : Untouched d s) (env : Env) (a : Action) :
    Untouched d (step env s a) := by
  cases a with
  | signin => exact h.signin_untouched env
  | signout => exact h.signout_untouched env
  | isAuthenticated => exact h.isAuthenticated_untouched
  | setCredentials u p => exact h.setCredentials_untouched u p
  | setHttpRequest request => exact h.frame_untouched rfl rfl rfl
  | responseError rejection => exact h.responseError_untouched env rejection
  | httpSuccess i response => exact h.httpSuccess_untouched env i response
  | httpError i response => exact h.httpError_untouched env i response
  | runTask => exact h.runTask_untouched env

theorem Untouched.run_untouched {d : Nat} {s : State} (h : Untouched d s) (env : Env)
    (actions : List Action) : Untouched d (run env s actions) := by
  unfold DgAuth.run
  induction actions generalizing s with
  | nil => exact h
  | cons a rest ih =>
    rw [List.foldl_cons]
    exact ih (h.step_untouched env a)

theorem Untouched.of_defer {s : State} (hwf : s.WellFormed) :
    Untouched s.deferreds.length (DgAuth.defer s).2 := by
  obtain ⟨w1, w2, w3, -, -⟩ := hwf
  refine ⟨defer_promise_new s, ?_, ?_, ?_⟩
  · intro e he
    exact Nat.ne_of_lt (w1 e he)
  · intro x hx cb hcb ht
    simp only [DgAuth.defer, List.mem_append, List.mem_singleton] at hx
    rcases hx with hx | hx
    · exact Nat.lt_irrefl _ (w3 x hx cb hcb _ ht)
    · subst hx; simp at hcb
  · intro t ht htar
    exact Nat.lt_irrefl _ (w2 t ht _ htar)


/-- C1, amended: `responseError` suspends a request on a 401 with a challenge
and binds it to the login attempt. In every run that follows, whatever the
outcome of a sign-in, the promise of the suspended request stays pending: it is
neither resolved nor rejected. The handlers of the login exchange issue no
exchange, so nothing is replayed; the success handler keeps the request bound
to the attempt, and the failure handler drops the binding with the attempt. -/
theorem suspended_request_stays_pending (env : Env) (rejection : Response) (s : State)
    (hwf : s.WellFormed) (h401 : rejection.status = 401)
    (hterm : rejection.mustTerminate = false) (hparse : env.parseHeader rejection = true) :
    (responseError env rejection s).1 = .promise s.deferreds.length ∧
      (responseError env rejection s).2.loginRequest.httpRequest
        = some ⟨rejection.config, s.deferreds.length⟩ ∧
      (∀ actions : List Action,
        (run env (responseError env rejection s).2 actions).promise s.deferreds.length
          = some .pending) ∧
      (∀ (s2 : State) (k : Nat) (response : Response),
        s2.loginRequest.httpRequest = some ⟨rejection.config, s.deferreds.length⟩ →
          (loginSuccess env k response s2).exchanges = s2.exchanges ∧
          (loginSuccess env k response s2).loginRequest.httpRequest
            = some ⟨rejection.config, s.deferreds.length⟩ ∧
          (loginFailure k response s2).exchanges = s2.exchanges ∧
          (loginFailure k response s2).loginRequest.httpRequest = none) := by
  have hre : responseError env rejection s
      = (.promise s.deferreds.length,
          broadcast .signinRequired
            (broadcast (.authenticationHeader ⟨rejection.config, s.deferreds.length⟩)
              (defer (broadcast (.processResponse rejection) s)).2)) := by
    simp [responseError, h401, hterm, hparse, broadcast, defer, setHttpRequest]
  have hu : Untouched s.deferreds.length
      (defer (broadcast (.processResponse rejection) s)).2 := by
    have := Untouched.of_defer (hwf.broadcast_wf (.processResponse rejection))
    rwa [broadcast_deferreds] at this
  rw [hre]
  refine ⟨rfl, ?_, ?_, ?_⟩
  · simp [broadcast, defer, setHttpRequest]
  · intro actions
    exact (((hu.broadcast_untouched
      (.authenticationHeader ⟨rejection.config, s.deferreds.length⟩)).broadcast_untouched
      .signinRequired).run_untouched env actions).1
  · intro s2 k response hb
    refine ⟨?_, ?_, loginFailure_exchanges k response s2, ?_⟩
    · simp [loginSuccess, resolve, broadcast, storeCredentials]
    · simp [loginSuccess, resolve, broadcast, storeCredentials, hb]
    · rw [loginFailure_loginRequest]; rfl

theorem suspended_request_stays_pending_witness :
    (State.init none none).WellFormed ∧ challenge401.status = 401 ∧
      challenge401.mustTerminate = false ∧ sampleEnv.parseHeader challenge401 = true ∧
      (responseError sampleEnv challenge401 (State.init none none)).1 = .promise 0 ∧
      (run sampleEnv (responseError sampleEnv challenge401 (State.init none none)).2
          [.setCredentials "alice" "pw1", .signin, .httpSuccess 0 loginOk, .runTask]).promise 0
        = some .pending :=
  have h := suspended_request_stays_pending sampleEnv challenge401 (State.init none none)
    (State.WellFormed.init none none) (by decide) rfl rfl
  ⟨State.WellFormed.init none none, by decide, rfl, rfl, h.1,
    h.2.2.1 [.setCredentials "alice" "pw1", .signin, .httpSuccess 0 loginOk, .runTask]⟩

/-! ## Credentials -/

/-- C11: `setCredentials(u, p)` puts `u`, `p` and `mustTerminate = true` on the
login attempt, broadcasts `credential.submitted` with `u` and `p`, and leaves the
`httpRequest` and the deferred of the attempt, the identity, the cookie and the
logout object as they were (and the deferreds, exchanges and scheduled callbacks
too); `getCredentials()` then returns `u` and `p`. -/
theorem setCredentials_effects (u p : String) (s : State) :
    (setCredentials u p s).loginRequest.username = u ∧
      (setCredentials u p s).loginRequest.password = p ∧
      (setCredentials u p s).loginRequest.mustTerminate = true ∧
      (setCredentials u p s).events = s.events ++ [.credentialSubmitted u p] ∧
      (setCredentials u p s).loginRequest.httpRequest = s.loginRequest.httpRequest ∧
      (setCredentials u p s).loginRequest.deferred = s.loginRequest.deferred ∧
      (setCredentials u p s).identity = s.identity ∧
      (setCredentials u p s).cookie = s.cookie ∧
      (setCredentials u p s).logoutRequest = s.logoutRequest ∧
      (setCredentials u p s).deferreds = s.deferreds ∧
      (setCredentials u p s).exchanges = s.exchanges ∧
      (setCredentials u p s).queue = s.queue ∧
      getCredentials (setCredentials u p s) = (u, p) := by
  simp [setCredentials, getCredentials, broadcast]

theorem restoreCredentials_of_stored (env : Env) (s : State) (u p : String)
    (hflag : (cookieSaysAuthenticated env s || env.automatic) = true)
    (hst : s.storage = some (u, p)) :
    restoreCredentials env s
      = broadcast (.credentialRestored u p)
          { s with loginRequest :=
              { s.loginRequest with username := u, password := p, mustTerminate := true } } := by
  simp [restoreCredentials, hflag, hst, hasCredential, getUsername, getPassword]

theorem restoreCredentials_of_not (env : Env) (s : State)
    (h : (cookieSaysAuthenticated env s || env.automatic) = false ∨ s.storage = none) :
    restoreCredentials env s = s := by
  unfold restoreCredentials
  rcases h with h | h
  · simp [h]
  · simp [h, hasCredential]

theorem signin_idle_eq (env : Env) (s : State) (hd : s.loginRequest.deferred = none) :
    signin env s = (s.deferreds.length,
      attachCallbacks .loginCallback env.loginCallbacks s.deferreds.length
        { (performLogin (restoreCredentials env s)).2 with
          loginRequest := { (performLogin (restoreCredentials env s)).2.loginRequest with
            deferred := some s.deferreds.length } }) := by
  have h1 := restoreCredentials_deferred env s
  rw [hd] at h1
  have h2 := restoreCredentials_deferreds env s
  simp only [signin, h1, performLogin, defer, h2]

/-- C15: take a call of `signin` that starts an attempt. When the cookie says
authenticated or `automatic` is set, and the storage holds `u` and `p`: the
state in which the login exchange is issued already has `u`, `p` and
`mustTerminate = true` on the attempt and `credential.restored` with `u` and
`p` as its last event, with no exchange added yet; and after the call the
attempt has `u`, `p`, `mustTerminate = true`. Otherwise the username, password
and `mustTerminate` of the attempt and the events are what they were before
the call. -/
theorem signin_restores_credentials (env : Env) (s : State)
    (hidle : s.loginRequest.deferred = none) :
    (∀ u p : String, (cookieSaysAuthenticated env s || env.automatic) = true →
        s.storage = some (u, p) →
        (restoreCredentials env s).loginRequest.username = u ∧
          (restoreCredentials env s).loginRequest.password = p ∧
          (restoreCredentials env s).loginRequest.mustTerminate = true ∧
          (restoreCredentials env s).events = s.events ++ [.credentialRestored u p] ∧
          (restoreCredentials env s).exchanges = s.exchanges ∧
          (signin env s).2.loginRequest.username = u ∧
          (signin env s).2.loginRequest.password = p ∧
          (signin env s).2.loginRequest.mustTerminate = true ∧
          (signin env s).2.events = s.events ++ [.credentialRestored u p] ∧
          (signin env s).2.exchanges
            = (restoreCredentials env s).exchanges ++ [⟨.login, (signin env s).1, false⟩]) ∧
      (((cookieSaysAuthenticated env s || env.automatic) = false ∨ s.storage = none) →
        (signin env s).2.loginRequest.username = s.loginRequest.username ∧
          (signin env s).2.loginRequest.password = s.loginRequest.password ∧
          (signin env s).2.loginRequest.mustTerminate = s.loginRequest.mustTerminate ∧
          (signin env s).2.events = s.events ∧
          (signin env s).2.exchanges = s.exchanges ++ [⟨.login, (signin env s).1, false⟩]) := by
  rw [signin_idle_eq env s hidle]
  constructor
  · intro u p hflag hst
    rw [restoreCredentials_of_stored env s u p hflag hst]
    simp [broadcast, performLogin, defer]
  · intro h
    rw [restoreCredentials_of_not env s h]
    simp [performLogin, defer]

theorem signin_restores_credentials_witness :
    (State.init (some (sampleEnv.createHash "true")) (some ("bob", "pw9"))).loginRequest.deferred
        = none ∧
      (signin sampleEnv
          (State.init (some (sampleEnv.createHash "true")) (some ("bob", "pw9")))).2.loginRequest.username
        = "bob" ∧
      (signin sampleEnv (State.init none (some ("bob", "pw9")))).2.loginRequest.username = "" :=
  ⟨rfl,
    ((signin_restores_credentials sampleEnv
      (State.init (some (sampleEnv.createHash "true")) (some ("bob", "pw9"))) rfl).1
        "bob" "pw9" rfl rfl).2.2.2.2.2.1,
    ((signin_restores_credentials sampleEnv (State.init none (some ("bob", "pw9"))) rfl).2
      (Or.inl rfl)).1⟩

/-! ## After a login attempt -/

/-- C13, as stated, fails: after a sign-in that succeeded and settled, the
login attempt still has the username and password that were submitted and its
deferred, now resolved; it is not the fresh attempt. A call of `signin` then
returns that same deferred, creates none and issues no exchange: the one login
exchange of the run stays the only one. -/
theorem attempt_kept_after_success :
    signedIn.promise 0 = some (.resolved loginOk.data) ∧
      signedIn.queue.length = 0 ∧
      signedIn.loginRequest.username = "alice" ∧
      signedIn.loginRequest.password = "pw1" ∧
      signedIn.loginRequest.deferred = some 0 ∧
      signedIn.loginRequest.deferred ≠ initLogin.deferred ∧
      (signin sampleEnv signedIn).1 = 0 ∧
      (signin sampleEnv signedIn).2.deferreds.length = signedIn.deferreds.length ∧
      signedIn.exchanges = [⟨.login, 0, true⟩] ∧
      (signin sampleEnv signedIn).2.exchanges = [⟨.login, 0, true⟩] := by
  refine ⟨rfl, rfl, rfl, rfl, rfl, ?_, rfl, rfl, rfl, rfl⟩
  intro h
  have h0 : signedIn.loginRequest.deferred = some 0 := rfl
  rw [h0] at h
  cases h

/-! ## The check with nothing in flight -/

/-- C16, as stated, fails: in the initial state neither object has a
deferred; `isAuthenticated` returns the promise of deferred 0, which is pending
after the call, with nothing scheduled and no exchange issued, and it is still
pending after a tick. It is not resolved. -/
theorem isAuthenticated_idle_stays_pending :
    (State.init none none).loginRequest.deferred = none ∧
      (State.init none none).logoutRequest.deferred = none ∧
      (isAuthenticated (State.init none none)).1 = 0 ∧
      (isAuthenticated (State.init none none)).2.promise 0 = some .pending ∧
      (isAuthenticated (State.init none none)).2.queue.length = 0 ∧
      (isAuthenticated (State.init none none)).2.exchanges.length = 0 ∧
      (run sampleEnv (State.init none none) [.isAuthenticated, .runTask]).promise 0
        = some .pending ∧
      (¬ ∃ v, (run sampleEnv (State.init none none) [.isAuthenticated, .runTask]).promise 0
        = some (.resolved v)) := by
  refine ⟨rfl, rfl, rfl, rfl, rfl, rfl, rfl, ?_⟩
  rintro ⟨v, hv⟩
  have h : (run sampleEnv (State.init none none) [.isAuthenticated, .runTask]).promise 0
      = some .pending := rfl
  rw [h] at hv
  cases hv

/-- C16, amended: when neither the login object nor the logout object has a
deferred, `isAuthenticated` creates its deferred, registers nothing, schedules
nothing and returns its promise; in every run that follows that promise stays
pending. -/
theorem isAuthenticated_idle (env : Env) (s : State) (hwf : s.WellFormed)
    (hli : s.loginRequest.deferred = none) (hlo : s.logoutRequest.deferred = none) :
    isAuthenticated s = (s.deferreds.length, (defer s).2) ∧
      (isAuthenticated s).2.queue = s.queue ∧
      (isAuthenticated s).2.promise s.deferreds.length = some .pending ∧
      (∀ actions : List Action,
        (run env (isAuthenticated s).2 actions).promise s.deferreds.length = some .pending) := by
  have e : isAuthenticated s = (s.deferreds.length, (defer s).2) := by
    simp [isAuthenticated, defer, hli, hlo]
  rw [e]
  refine ⟨rfl, rfl, defer_promise_new s, ?_⟩
  intro actions
  exact ((Untouched.of_defer hwf).run_untouched env actions).1

theorem isAuthenticated_idle_witness :
    (State.init none none).WellFormed ∧
      (State.init none none).loginRequest.deferred = none ∧
      (State.init none none).logoutRequest.deferred = none ∧
      (run sampleEnv (isAuthenticated (State.init none none)).2
          [.setCredentials "alice" "pw1", .signin, .httpSuccess 0 loginOk, .runTask]).promise 0
        = some .pending :=
  ⟨State.WellFormed.init none none, rfl, rfl,
    (isAuthenticated_idle sampleEnv (State.init none none) (State.WellFormed.init none none)
      rfl rfl).2.2.2 [.setCredentials "alice" "pw1", .signin, .httpSuccess 0 loginOk, .runTask]⟩

/-! ## A 401 from the login exchange -/

/-- C17, at the failing input: a login is in flight and the login exchange
itself answers 401 with a challenge. `process.response` is broadcast with the
answer; its listener calls `authService.mustTerminate`, which does not exist,
and the error goes to the exception handler; the answer is not flagged. The
interceptor then parses the header, creates deferred 1, binds the suspended
login request to the login attempt and broadcasts `authentication.header` and
`signin.required`. The handlers of the login exchange never run: the login
handle, deferred 0, stays pending with nothing left to run. -/
theorem login_401_is_suspended :
    signingIn.loginRequest.deferred = some 0 ∧
      signingIn.exchanges = [⟨.login, 0, false⟩] ∧
      login401.status = 401 ∧ login401.mustTerminate = false ∧
      (responseError sampleEnv login401 signingIn).1 = .promise 1 ∧
      loginChallenged.exceptions = ["TypeError: authService.mustTerminate is not a function"] ∧
      loginChallenged.events
        = [.credentialSubmitted "alice" "pw1", .processResponse login401,
            .authenticationHeader ⟨login401.config, 1⟩, .signinRequired] ∧
      loginChallenged.loginRequest.httpRequest = some ⟨login401.config, 1⟩ ∧
      loginChallenged.promise 1 = some .pending ∧
      loginChallenged.promise 0 = some .pending ∧
      loginChallenged.exchanges = [⟨.login, 0, true⟩] ∧
      loginChallenged.queue.length = 0 := by
  refine ⟨rfl, rfl, by decide, rfl, rfl, rfl, rfl, rfl, rfl, rfl, rfl, rfl⟩

/-! ## A settled promise stays as it is -/

theorem keeps_refl (s : State) : Keeps s s :=
  fun _ _ _ h => h

theorem keeps_trans {s s' s'' : State} (h1 : Keeps s s') (h2 : Keeps s' s'') : Keeps s s'' :=
  fun j st hst h => h2 j st hst (h1 j st hst h)

theorem keeps_of_deferreds {s s' : State} (h : s'.deferreds = s.deferreds) : Keeps s s' := by
  intro j st _ hj
  unfold State.promise at *
  rw [h]; exact hj

theorem keeps_defer (s : State) : Keeps s (defer s).2 := by
  intro j st _ hj
  have hlt := promise_lt s j st hj
  rw [defer_promise_old s j (by omega)]; exact hj

theorem keeps_settle (k : Nat) (st : Settlement) (sg : Signal) (s : State) :
    Keeps s (settle k st sg s) := by
  intro j st' hst hj
  by_cases hp : s.promise k = some .pending
  · by_cases hjk : j = k
    · subst hjk
      rw [hp] at hj
      exact absurd (Option.some.inj hj).symm hst
    · rw [settle_promise_other _ _ _ _ _ hjk]; exact hj
  · rw [settle_of_not_pending _ _ _ _ hp]; exact hj

theorem keeps_notify (k : Nat) (s : State) : Keeps s (notify k s) := by
  intro j st _ hj
  rw [notify_promise]; exact hj

theorem keeps_registerThen (k : Nat) (cb : Callback) (s : State) :
    Keeps s (registerThen k cb s) := by
  intro j st _ hj
  rw [registerThen_promise]; exact hj

theorem keeps_attachCallbacks (mk : Nat → Callback) (count k : Nat) (s : State) :
    Keeps s (attachCallbacks mk count k s) := by
  intro j st _ hj
  rw [attachCallbacks_promise]; exact hj

theorem keeps_broadcast (ev : Event) (s : State) : Keeps s (broadcast ev s) :=
  keeps_of_deferreds (broadcast_deferreds ev s)

theorem keeps_signin (env : Env) (s : State) : Keeps s (signin env s).2 := by
  have h1 : Keeps s (restoreCredentials env s) :=
    keeps_of_deferreds (restoreCredentials_deferreds env s)
  unfold signin
  simp only
  split
  · exact h1
  · show Keeps s (attachCallbacks _ _ _ _)
    refine keeps_trans (keeps_trans h1 ?_) (keeps_attachCallbacks _ _ _ _)
    exact keeps_trans (keeps_defer _) (keeps_of_deferreds rfl)

theorem keeps_signout (env : Env) (s : State) : Keeps s (signout env s).2 := by
  unfold signout
  split
  · exact keeps_refl s
  · show Keeps s (attachCallbacks _ _ _ _)
    refine keeps_trans ?_ (keeps_attachCallbacks _ _ _ _)
    exact keeps_trans (keeps_defer _) (keeps_of_deferreds rfl)

theorem keeps_isAuthenticated (s : State) : Keeps s (isAuthenticated s).2 := by
  unfold isAuthenticated
  simp only
  split
  · exact keeps_trans (keeps_defer s) (keeps_registerThen _ _ _)
  · split
    · exact keeps_trans (keeps_defer s) (keeps_registerThen _ _ _)
    · exact keeps_defer s

theorem keeps_responseError (env : Env) (rejection : Response) (s : State) :
    Keeps s (responseError env rejection s).2 := by
  unfold responseError
  split
  · split
    · exact keeps_broadcast _ _
    · split
      · exact keeps_trans (keeps_broadcast _ _) (keeps_broadcast _ _)
      · exact keeps_trans (keeps_broadcast _ _)
          (keeps_trans (keeps_defer _) (keeps_trans (keeps_broadcast _ _) (keeps_broadcast _ _)))
  · exact keeps_refl s

theorem keeps_loginSuccess (env : Env) (k : Nat) (response : Response) (s : State) :
    Keeps s (loginSuccess env k response s) := by
  unfold loginSuccess resolve storeCredentials
  refine keeps_trans ?_ (keeps_settle _ _ _ _)
  apply keeps_of_deferreds
  simp [broadcast]

theorem keeps_loginFailure (k : Nat) (response : Response) (s : State) :
    Keeps s (loginFailure k response s) := by
  unfold loginFailure
  split
  · exact keeps_trans (keeps_trans (keeps_broadcast _ s) (keeps_notify k _))
      (keeps_of_deferreds rfl)
  · unfold reject
    exact keeps_trans (keeps_trans (keeps_broadcast _ s) (keeps_settle k _ _ _))
      (keeps_of_deferreds rfl)

theorem keeps_logoutSuccess (env : Env) (k : Nat) (response : Response) (s : State) :
    Keeps s (logoutSuccess env k response s) := by
  unfold logoutSuccess resolve
  refine keeps_trans ?_ (keeps_settle _ _ _ _)
  apply keeps_of_deferreds
  simp [broadcast]

theorem keeps_logoutFailure (k : Nat) (response : Response) (s : State) :
    Keeps s (logoutFailure k response s) := by
  unfold logoutFailure reject
  exact keeps_trans (keeps_broadcast _ s) (keeps_settle k _ _ _)

theorem keeps_httpSuccess (env : Env) (i : Nat) (response : Response) (s : State) :
    Keeps s (httpSuccess env i response s) := by
  unfold httpSuccess
  split
  · rename_i kind k he
    have h0 : Keeps s { s with exchanges := s.exchanges.set i ⟨kind, k, true⟩ } :=
      keeps_of_deferreds rfl
    cases kind
    · exact keeps_trans h0 (keeps_loginSuccess env k response _)
    · exact keeps_trans h0 (keeps_logoutSuccess env k response _)
  · exact keeps_refl s

theorem keeps_httpError (env : Env) (i : Nat) (response : Response) (s : State) :
    Keeps s (httpError env i response s) := by
  unfold httpError
  split
  · rename_i kind k he
    have h0 : Keeps s { s with exchanges := s.exchanges.set i ⟨kind, k, true⟩ } :=
      keeps_of_deferreds rfl
    have h1 : Keeps s (responseError env response
        { s with exchanges := s.exchanges.set i ⟨kind, k, true⟩ }).2 :=
      keeps_trans h0 (keeps_responseError env response _)
    simp only at h1 ⊢
    split
    · rename_i r s2 heq
      rw [heq] at h1
      cases kind
      · exact keeps_trans h1 (keeps_loginFailure k r s2)
      · exact keeps_trans h1 (keeps_logoutFailure k r s2)
    · rename_i k' s2 heq
      rw [heq] at h1
      exact h1
  · exact keeps_refl s

theorem keeps_rejectWithData (k : Nat) (v : JsVal) (s : State) :
    Keeps s (rejectWithData k v s) := by
  unfold rejectWithData
  split
  · unfold reject
    exact keeps_settle _ _ _ _
  · exact keeps_of_deferreds rfl

theorem keeps_runTask (env : Env) (s : State) : Keeps s (runTask env s) := by
  unfold runTask
  split
  · exact keeps_refl s
  · rename_i t rest hq
    have h0 : Keeps s { s with queue := rest } := keeps_of_deferreds rfl
    refine keeps_trans h0 ?_
    unfold runCallback
    split
    · exact keeps_rejectWithData _ _ _
    · unfold resolve; exact keeps_settle _ _ _ _
    · unfold resolve; exact keeps_settle _ _ _ _
    · exact keeps_rejectWithData _ _ _
    · exact keeps_refl _

theorem keeps_step (env : Env) (s : State) (a : Action) : Keeps s (step env s a) := by
  cases a with
  | signin => exact keeps_signin env s
  | signout => exact keeps_signout env s
  | isAuthenticated => exact keeps_isAuthenticated s
  | setCredentials u p =>
    exact keeps_of_deferreds (by simp [step, setCredentials, broadcast])
  | setHttpRequest request => exact keeps_of_deferreds rfl
  | responseError rejection => exact keeps_responseError env rejection s
  | httpSuccess i response => exact keeps_httpSuccess env i response s
  | httpError i response => exact keeps_httpError env i response s
  | runTask => exact keeps_runTask env s

theorem keeps_run (env : Env) (s : State) (actions : List Action) :
    Keeps s (run env s actions) := by
  unfold run
  induction actions generalizing s with
  | nil => exact keeps_refl s
  | cons a rest ih =>
    rw [List.foldl_cons]
    exact keeps_trans (keeps_step env s a) (ih (step env s a))

/-! ## The login handle -/

/-- C12, as stated, fails: `signin` is called with no credentials submitted,
so `mustTerminate` is false, and the login exchange is refused. The exchange
is answered, `login.required` has been broadcast, the handle has had one
progress notification, the attempt has been replaced, nothing is left to run,
and the handle of that attempt is still pending: it has not settled. -/
theorem login_handle_left_pending :
    signinRefusedOpen.exchanges = [⟨.login, 0, true⟩] ∧
      signinRefusedOpen.events = [.loginRequired] ∧
      signinRefusedOpen.notified 0 = some 1 ∧
      signinRefusedOpen.loginRequest = initLogin ∧
      signinRefusedOpen.queue.length = 0 ∧
      signinRefusedOpen.promise 0 = some .pending ∧
      (¬ ∃ v, signinRefusedOpen.promise 0 = some (.resolved v)) ∧
      (¬ ∃ r, signinRefusedOpen.promise 0 = some (.rejected r)) := by
  have h : signinRefusedOpen.promise 0 = some .pending := rfl
  refine ⟨rfl, rfl, rfl, rfl, rfl, rfl, ?_, ?_⟩
  · rintro ⟨v, hv⟩
    rw [h] at hv; cases hv
  · rintro ⟨v, hv⟩
    rw [h] at hv; cases hv

theorem httpSuccess_of_delivered (env : Env) (i : Nat) (response : Response) (s : State)
    (kind : ExchangeKind) (d : Nat) (h : s.exchanges[i]? = some ⟨kind, d, true⟩) :
    httpSuccess env i response s = s := by
  simp [httpSuccess, h]

theorem httpError_of_delivered (env : Env) (i : Nat) (response : Response) (s : State)
    (kind : ExchangeKind) (d : Nat) (h : s.exchanges[i]? = some ⟨kind, d, true⟩) :
    httpError env i response s = s := by
  simp [httpError, h]

/-! ## What each operation leaves alone -/

theorem restoreCredentials_identity (env : Env) (s : State) :
    (restoreCredentials env s).identity = s.identity := by
  unfold restoreCredentials
  split
  · split
    · simp [broadcast]
    · rfl
  · rfl

theorem signin_identity (env : Env) (s : State) :
    ((signin env s).2).identity = s.identity := by
  unfold signin
  simp only
  split
  · exact restoreCredentials_identity env s
  · simp [performLogin, defer, restoreCredentials_identity]

theorem isAuthenticated_identity (s : State) :
    ((isAuthenticated s).2).identity = s.identity := by
  unfold isAuthenticated
  simp only [defer]
  split
  · simp
  · split
    · simp
    · rfl

theorem responseError_identity (env : Env) (rejection : Response) (s : State) :
    ((responseError env rejection s).2).identity = s.identity := by
  unfold responseError
  split
  · split
    · simp [broadcast]
    · split
      · simp [broadcast]
      · simp [broadcast, defer, setHttpRequest]
  · rfl

theorem loginFailure_identity (d : Nat) (response : Response) (s : State) :
    (loginFailure d response s).identity = s.identity := by
  unfold loginFailure
  split <;> simp [reject, broadcast]

theorem logoutFailure_identity (d : Nat) (response : Response) (s : State) :
    (logoutFailure d response s).identity = s.identity := by
  simp [logoutFailure, reject, broadcast]

theorem rejectWithData_identity (d : Nat) (v : JsVal) (s : State) :
    (rejectWithData d v s).identity = s.identity := by
  unfold rejectWithData
  split
  · simp [reject]
  · rfl

theorem runTask_identity (env : Env) (s : State) :
    (runTask env s).identity = s.identity := by
  unfold runTask
  split
  · rfl
  · unfold runCallback
    split <;> simp [resolve, rejectWithData_identity]

theorem restoreCredentials_cookie (env : Env) (s : State) :
    (restoreCredentials env s).cookie = s.cookie := by
  unfold restoreCredentials
  split
  · split
    · simp [broadcast]
    · rfl
  · rfl

theorem signin_cookie (env : Env) (s : State) :
    ((signin env s).2).cookie = s.cookie := by
  unfold signin
  simp only
  split
  · exact restoreCredentials_cookie env s
  · simp [performLogin, defer, restoreCredentials_cookie]

theorem isAuthenticated_cookie (s : State) :
    ((isAuthenticated s).2).cookie = s.cookie := by
  unfold isAuthenticated
  simp only [defer]
  split
  · simp
  · split
    · simp
    · rfl

theorem responseError_cookie (env : Env) (rejection : Response) (s : State) :
    ((responseError env rejection s).2).cookie = s.cookie := by
  unfold responseError
  split
  · split
    · simp [broadcast]
    · split
      · simp [broadcast]
      · simp [broadcast, defer, setHttpRequest]
  · rfl

theorem loginFailure_cookie (d : Nat) (response : Response) (s : State) :
    (loginFailure d response s).cookie = s.cookie := by
  unfold loginFailure
  split <;> simp [reject, broadcast]

theorem logoutFailure_cookie (d : Nat) (response : Response) (s : State) :
    (logoutFailure d response s).cookie = s.cookie := by
  simp [logoutFailure, reject, broadcast]

theorem rejectWithData_cookie (d : Nat) (v : JsVal) (s : State) :
    (rejectWithData d v s).cookie = s.cookie := by
  unfold rejectWithData
  split
  · simp [reject]
  · rfl

theorem runTask_cookie (env : Env) (s : State) :
    (runTask env s).cookie = s.cookie := by
  unfold runTask
  split
  · rfl
  · unfold runCallback
    split <;> simp [resolve, rejectWithData_cookie]

theorem signin_logoutRequest (env : Env) (s : State) :
    ((signin env s).2).logoutRequest = s.logoutRequest := by
  unfold signin
  simp only
  split
  · exact restoreCredentials_logoutRequest env s
  · simp [performLogin, defer, restoreCredentials_logoutRequest]

theorem isAuthenticated_logoutRequest (s : State) :
    ((isAuthenticated s).2).logoutRequest = s.logoutRequest := by
  unfold isAuthenticated
  simp only [defer]
  split
  · simp
  · split
    · simp
    · rfl

theorem responseError_logoutRequest (env : Env) (rejection : Response) (s : State) :
    ((responseError env rejection s).2).logoutRequest = s.logoutRequest := by
  unfold responseError
  split
  · split
    · simp [broadcast]
    · split
      · simp [broadcast]
      · simp [broadcast, defer, setHttpRequest]
  · rfl

theorem loginFailure_logoutRequest (d : Nat) (response : Response) (s : State) :
    (loginFailure d response s).logoutRequest = s.logoutRequest := by
  unfold loginFailure
  split <;> simp [reject, broadcast]

theorem logoutFailure_logoutRequest (d : Nat) (response : Response) (s : State) :
    (logoutFailure d response s).logoutRequest = s.logoutRequest := by
  simp [logoutFailure, reject, broadcast]

theorem rejectWithData_logoutRequest (d : Nat) (v : JsVal) (s : State) :
    (rejectWithData d v s).logoutRequest = s.logoutRequest := by
  unfold rejectWithData
  split
  · simp [reject]
  · rfl

theorem runTask_logoutRequest (env : Env) (s : State) :
    (runTask env s).logoutRequest = s.logoutRequest := by
  unfold runTask
  split
  · rfl
  · unfold runCallback
    split <;> simp [resolve, rejectWithData_logoutRequest]

theorem isAuthenticated_exchanges (s : State) :
    ((isAuthenticated s).2).exchanges = s.exchanges := by
  unfold isAuthenticated
  simp only [defer]
  split
  · simp
  · split
    · simp
    · rfl

theorem responseError_exchanges (env : Env) (rejection : Response) (s : State) :
    ((responseError env rejection s).2).exchanges = s.exchanges := by
  unfold responseError
  split
  · split
    · simp [broadcast]
    · split
      · simp [broadcast]
      · simp [broadcast, defer, setHttpRequest]
  · rfl

theorem logoutFailure_exchanges (d : Nat) (response : Response) (s : State) :
    (logoutFailure d response s).exchanges = s.exchanges := by
  simp [logoutFailure, reject, broadcast]

theorem rejectWithData_exchanges (d : Nat) (v : JsVal) (s : State) :
    (rejectWithData d v s).exchanges = s.exchanges := by
  unfold rejectWithData
  split
  · simp [reject]
  · rfl

theorem runTask_exchanges (env : Env) (s : State) :
    (runTask env s).exchanges = s.exchanges := by
  unfold runTask
  split
  · rfl
  · unfold runCallback
    split <;> simp [resolve, rejectWithData_exchanges]

theorem loginSuccess_logoutRequest (env : Env) (d : Nat) (response : Response) (s : State) :
    (loginSuccess env d response s).logoutRequest = s.logoutRequest := by
  simp [loginSuccess, resolve, broadcast, storeCredentials]

theorem logoutSuccess_logoutRequest (env : Env) (d : Nat) (response : Response) (s : State) :
    (logoutSuccess env d response s).logoutRequest = s.logoutRequest := by
  simp [logoutSuccess, resolve, broadcast]

theorem loginSuccess_exchanges (env : Env) (d : Nat) (response : Response) (s : State) :
    (loginSuccess env d response s).exchanges = s.exchanges := by
  simp [loginSuccess, resolve, broadcast, storeCredentials]

theorem logoutSuccess_exchanges (env : Env) (d : Nat) (response : Response) (s : State) :
    (logoutSuccess env d response s).exchanges = s.exchanges := by
  simp [logoutSuccess, resolve, broadcast]

theorem signout_identity (env : Env) (s : State) :
    ((signout env s).2).identity = s.identity := by
  unfold signout
  split
  · rfl
  · simp [performLogout, defer]

theorem signout_cookie (env : Env) (s : State) :
    ((signout env s).2).cookie = s.cookie := by
  unfold signout
  split
  · rfl
  · simp [performLogout, defer]

/-! ## The identity and the cookie -/

theorem identityNeedsFlag_of_same {env : Env} {s s' : State} (h : IdentityNeedsFlag env s)
    (hi : s'.identity = s.identity) (hc : s'.cookie = s.cookie) : IdentityNeedsFlag env s' := by
  unfold IdentityNeedsFlag cookieSaysAuthenticated at *
  rw [hi, hc]; exact h

theorem identityNeedsFlag_loginSuccess (env : Env) (d : Nat) (response : Response)
    (s : State) : IdentityNeedsFlag env (loginSuccess env d response s) := by
  intro _
  simp [cookieSaysAuthenticated, loginSuccess, resolve, broadcast, storeCredentials]

theorem identityNeedsFlag_logoutSuccess (env : Env) (d : Nat) (response : Response)
    (s : State) : IdentityNeedsFlag env (logoutSuccess env d response s) := by
  intro hnn
  simp [logoutSuccess, resolve, broadcast, JsVal.isNull] at hnn

theorem identityNeedsFlag_step (env : Env) (s : State) (a : Action)
    (h : IdentityNeedsFlag env s) : IdentityNeedsFlag env (step env s a) := by
  cases a with
  | signin => exact identityNeedsFlag_of_same h (signin_identity env s) (signin_cookie env s)
  | signout => exact identityNeedsFlag_of_same h (signout_identity env s) (signout_cookie env s)
  | isAuthenticated =>
    exact identityNeedsFlag_of_same h (isAuthenticated_identity s) (isAuthenticated_cookie s)
  | setCredentials u p =>
    exact identityNeedsFlag_of_same h (by simp [step, setCredentials, broadcast])
      (by simp [step, setCredentials, broadcast])
  | setHttpRequest request => exact identityNeedsFlag_of_same h rfl rfl
  | responseError rejection =>
    exact identityNeedsFlag_of_same h (responseError_identity env rejection s)
      (responseError_cookie env rejection s)
  | httpSuccess i response =>
    show IdentityNeedsFlag env (httpSuccess env i response s)
    unfold httpSuccess
    split
    · rename_i kind k he
      cases kind
      · exact identityNeedsFlag_loginSuccess env k response _
      · exact identityNeedsFlag_logoutSuccess env k response _
    · exact h
  | httpError i response =>
    show IdentityNeedsFlag env (httpError env i response s)
    unfold httpError
    split
    · rename_i kind k he
      have hi := responseError_identity env response
        { s with exchanges := s.exchanges.set i ⟨kind, k, true⟩ }
      have hc := responseError_cookie env response
        { s with exchanges := s.exchanges.set i ⟨kind, k, true⟩ }
      simp only at hi hc ⊢
      split
      · rename_i r s2 heq
        rw [heq] at hi hc
        cases kind
        · exact identityNeedsFlag_of_same h
            (by rw [loginFailure_identity]; exact hi) (by rw [loginFailure_cookie]; exact hc)
        · exact identityNeedsFlag_of_same h
            (by rw [logoutFailure_identity]; exact hi) (by rw [logoutFailure_cookie]; exact hc)
      · rename_i k' s2 heq
        rw [heq] at hi hc
        exact identityNeedsFlag_of_same h hi hc
    · exact h
  | runTask => exact identityNeedsFlag_of_same h (runTask_identity env s) (runTask_cookie env s)

theorem identityNeedsFlag_run (env : Env) (s : State) (actions : List Action)
    (h : IdentityNeedsFlag env s) : IdentityNeedsFlag env (run env s actions) := by
  unfold run
  induction actions generalizing s with
  | nil => exact h
  | cons a rest ih =>
    rw [List.foldl_cons]
    exact ih _ (identityNeedsFlag_step env s a h)

/-- C14: in every state reached from the initial state, where the identity is
`null`, by calls of `signin`, `signout`, `setCredentials`, `setHttpRequest`,
`isAuthenticated`, failed requests at the interceptor, answers of the login and
logout exchanges and ticks of `$q`, and whatever the cookie held at the start:
when the identity is not `null`, the cookie is the hash of `true`. -/
theorem identity_only_when_flag (env : Env) (cookie : Option String)
    (storage : Option (String × String)) (actions : List Action) :
    (State.init cookie storage).identity = .null ∧
      ((run env (State.init cookie storage) actions).identity.isNull = false →
        (run env (State.init cookie storage) actions).cookie = some (env.createHash "true") ∧
          cookieSaysAuthenticated env (run env (State.init cookie storage) actions) = true) := by
  refine ⟨rfl, ?_⟩
  intro hnn
  have h := identityNeedsFlag_run env (State.init cookie storage) actions
    (by intro hc; simp [State.init, JsVal.isNull] at hc) hnn
  refine ⟨?_, h⟩
  simpa [cookieSaysAuthenticated] using h

theorem identity_only_when_flag_witness :
    signedIn.identity.isNull = false ∧
      signedIn.cookie = some (sampleEnv.createHash "true") :=
  ⟨rfl, ((identity_only_when_flag sampleEnv none none
    [.setCredentials "alice" "pw1", .signin, .httpSuccess 0 loginOk, .runTask]).2 rfl).1⟩

/-! ## The logout object is never reset -/

theorem set_of_getElem?_eq {α : Type} (l : List α) (i : Nat) (a : α) (h : l[i]? = some a) :
    l.set i a = l := by
  apply List.ext_getElem?
  intro n
  by_cases hn : i = n
  · subst hn
    have hlt : i < l.length := by
      by_contra hc
      rw [List.getElem?_eq_none (by omega)] at h
      cases h
    rw [List.getElem?_set_self hlt, h]
  · rw [List.getElem?_set_ne hn]

theorem kinds_markDelivered (l : List Exchange) (i : Nat) (kind : ExchangeKind) (k : Nat)
    (b : Bool) (h : l[i]? = some ⟨kind, k, b⟩) :
    (l.set i ⟨kind, k, true⟩).map Exchange.kind = l.map Exchange.kind := by
  rw [List.map_set]
  apply set_of_getElem?_eq
  simp [h]

theorem signout_in_flight (env : Env) (s : State) (d : Nat)
    (h : s.logoutRequest.deferred = some d) : signout env s = (d, s) := by
  simp [signout, h]

theorem signout_logoutRequest (env : Env) (s : State) (d : Nat)
    (h : s.logoutRequest.deferred = some d) : (signout env s).2.logoutRequest.deferred = some d := by
  rw [signout_in_flight env s d h]; exact h

theorem signout_sets_handle (env : Env) (s : State) :
    (signout env s).2.logoutRequest.deferred = some (signout env s).1 := by
  cases hd : s.logoutRequest.deferred with
  | some d => rw [signout_in_flight env s d hd]; exact hd
  | none => simp [signout, hd, performLogout, defer]

theorem step_keeps_logout_handle (env : Env) (s : State) (a : Action) (d : Nat)
    (h : s.logoutRequest.deferred = some d) : (step env s a).logoutRequest.deferred = some d := by
  cases a with
  | signin => show (signin env s).2.logoutRequest.deferred = _; rw [signin_logoutRequest]; exact h
  | signout => exact signout_logoutRequest env s d h
  | isAuthenticated =>
    show (isAuthenticated s).2.logoutRequest.deferred = _
    rw [isAuthenticated_logoutRequest]; exact h
  | setCredentials u p => simpa [step, setCredentials, broadcast] using h
  | setHttpRequest request => exact h
  | responseError rejection =>
    show (responseError env rejection s).2.logoutRequest.deferred = _
    rw [responseError_logoutRequest]; exact h
  | httpSuccess i response =>
    show (httpSuccess env i response s).logoutRequest.deferred = _
    unfold httpSuccess
    split
    · rename_i kind k he
      cases kind
      · simp only; rw [loginSuccess_logoutRequest]; exact h
      · simp only; rw [logoutSuccess_logoutRequest]; exact h
    · exact h
  | httpError i response =>
    show (httpError env i response s).logoutRequest.deferred = _
    unfold httpError
    split
    · rename_i kind k he
      have hl := responseError_logoutRequest env response
        { s with exchanges := s.exchanges.set i ⟨kind, k, true⟩ }
      simp only at hl ⊢
      split
      · rename_i r s2 heq
        rw [heq] at hl
        cases kind
        · simp only; rw [loginFailure_logoutRequest, hl]; exact h
        · simp only; rw [logoutFailure_logoutRequest, hl]; exact h
      · rename_i k' s2 heq
        rw [heq] at hl
        rw [hl]; exact h
    · exact h
  | runTask => show (runTask env s).logoutRequest.deferred = _; rw [runTask_logoutRequest]; exact h

theorem run_keeps_logout_handle (env : Env) (s : State) (actions : List Action) (d : Nat)
    (h : s.logoutRequest.deferred = some d) :
    (run env s actions).logoutRequest.deferred = some d := by
  unfold run
  induction actions generalizing s with
  | nil => exact h
  | cons a rest ih =>
    rw [List.foldl_cons]
    exact ih _ (step_keeps_logout_handle env s a d h)

theorem logoutOnce_of_same {s s' : State} (h : LogoutOnce s)
    (hl : s'.logoutRequest = s.logoutRequest)
    (hk : s'.exchanges.map Exchange.kind = s.exchanges.map Exchange.kind) : LogoutOnce s' := by
  unfold LogoutOnce State.logoutExchanges at *
  rw [hl, hk]; exact h

theorem logoutOnce_signin (env : Env) (s : State) (h : LogoutOnce s) :
    LogoutOnce (signin env s).2 := by
  cases hd : s.loginRequest.deferred with
  | some d =>
    exact logoutOnce_of_same h (signin_logoutRequest env s)
      (by rw [(signin_in_flight env s d hd).2.1])
  | none =>
    have he := (signin_starts env s hd).2.1
    unfold LogoutOnce State.logoutExchanges at *
    rw [signin_logoutRequest, he]
    simpa using h

theorem logoutOnce_signout (env : Env) (s : State) (h : LogoutOnce s) :
    LogoutOnce (signout env s).2 := by
  cases hd : s.logoutRequest.deferred with
  | some d => rw [signout_in_flight env s d hd]; exact h
  | none =>
    have h0 := h.1 hd
    unfold LogoutOnce State.logoutExchanges at *
    simp [signout, hd, performLogout, defer, h0]

theorem logoutOnce_step (env : Env) (s : State) (a : Action) (h : LogoutOnce s) :
    LogoutOnce (step env s a) := by
  cases a with
  | signin => exact logoutOnce_signin env s h
  | signout => exact logoutOnce_signout env s h
  | isAuthenticated =>
    exact logoutOnce_of_same h (isAuthenticated_logoutRequest s)
      (congrArg (List.map Exchange.kind) (isAuthenticated_exchanges s))
  | setCredentials u p =>
    exact logoutOnce_of_same h (by simp [step, setCredentials, broadcast])
      (by simp [step, setCredentials, broadcast])
  | setHttpRequest request => exact logoutOnce_of_same h rfl rfl
  | responseError rejection =>
    exact logoutOnce_of_same h (responseError_logoutRequest env rejection s)
      (congrArg (List.map Exchange.kind) (responseError_exchanges env rejection s))
  | httpSuccess i response =>
    show LogoutOnce (httpSuccess env i response s)
    unfold httpSuccess
    split
    · rename_i kind k he
      have hk := kinds_markDelivered s.exchanges i kind k false he
      cases kind
      · exact logoutOnce_of_same h (by simp only; rw [loginSuccess_logoutRequest])
          (by simp only; rw [loginSuccess_exchanges]; exact hk)
      · exact logoutOnce_of_same h (by simp only; rw [logoutSuccess_logoutRequest])
          (by simp only; rw [logoutSuccess_exchanges]; exact hk)
    · exact h
  | httpError i response =>
    show LogoutOnce (httpError env i response s)
    unfold httpError
    split
    · rename_i kind k he
      have hk := kinds_markDelivered s.exchanges i kind k false he
      have hl := responseError_logoutRequest env response
        { s with exchanges := s.exchanges.set i ⟨kind, k, true⟩ }
      have hx := responseError_exchanges env response
        { s with exchanges := s.exchanges.set i ⟨kind, k, true⟩ }
      simp only at hl hx ⊢
      split
      · rename_i r s2 heq
        rw [heq] at hl hx
        cases kind
        · exact logoutOnce_of_same h (by rw [loginFailure_logoutRequest, hl])
            (by rw [loginFailure_exchanges, hx]; exact hk)
        · exact logoutOnce_of_same h (by rw [logoutFailure_logoutRequest, hl])
            (by rw [logoutFailure_exchanges, hx]; exact hk)
      · rename_i k' s2 heq
        rw [heq] at hl hx
        exact logoutOnce_of_same h hl (by rw [hx]; exact hk)
    · exact h
  | runTask =>
    exact logoutOnce_of_same h (runTask_logoutRequest env s)
      (congrArg (List.map Exchange.kind) (runTask_exchanges env s))

theorem logoutOnce_run (env : Env) (s : State) (actions : List Action) (h : LogoutOnce s) :
    LogoutOnce (run env s actions) := by
  unfold run
  induction actions generalizing s with
  | nil => exact h
  | cons a rest ih =>
    rw [List.foldl_cons]
    exact ih _ (logoutOnce_step env s a h)

/-- C19: a call of `signout` leaves a deferred `d` on the logout object. In
every state of every run that follows, whatever the answer of the logout
exchange, the logout object still has `d`; a call of `signout` there returns
`d` and changes nothing, so it issues no exchange; and `isAuthenticated` there
takes the logout branch, registering its functions on `d`. In every state
reached from the initial one at most one logout exchange has been issued. -/
theorem logout_never_reset (env : Env) (s0 : State) (actions : List Action) :
    (signout env s0).2.logoutRequest.deferred = some (signout env s0).1 ∧
      (run env (signout env s0).2 actions).logoutRequest.deferred = some (signout env s0).1 ∧
      signout env (run env (signout env s0).2 actions)
        = ((signout env s0).1, run env (signout env s0).2 actions) ∧
      isAuthenticated (run env (signout env s0).2 actions)
        = ((run env (signout env s0).2 actions).deferreds.length,
            registerThen (signout env s0).1
              (.authAfterLogout (run env (signout env s0).2 actions).deferreds.length)
              (defer (run env (signout env s0).2 actions)).2) ∧
      (∀ (cookie : Option String) (storage : Option (String × String)) (acts : List Action),
        (run env (State.init cookie storage) acts).logoutExchanges ≤ 1) := by
  have h1 := signout_sets_handle env s0
  have h2 := run_keeps_logout_handle env _ actions _ h1
  refine ⟨h1, h2, signout_in_flight env _ _ h2, isAuthenticated_logout_branch _ _ h2, ?_⟩
  intro cookie storage acts
  exact (logoutOnce_run env (State.init cookie storage) acts
    (by simp [LogoutOnce, State.logoutExchanges, State.init, initLogout])).2

/-! ## `AuthIdentity` -/

theorem lookup_assignField_self (fields : List (String × JsVal)) (k : String) (v : JsVal) :
    (assignField fields k v).lookup k = some v := by
  induction fields with
  | nil => simp [assignField, List.lookup]
  | cons p rest ih =>
    obtain ⟨k0, v0⟩ := p
    by_cases h : k0 = k
    · simp [assignField, h, List.lookup]
    · have hb : (k == k0) = false := by simpa using fun hc => h hc.symm
      simp [assignField, h, List.lookup, hb, ih]

theorem lookup_assignField_other (fields : List (String × JsVal)) (k k' : String) (v : JsVal)
    (hne : k' ≠ k) : (assignField fields k v).lookup k' = fields.lookup k' := by
  induction fields with
  | nil =>
    have hb : (k' == k) = false := by simpa using hne
    simp [assignField, List.lookup, hb]
  | cons p rest ih =>
    obtain ⟨k0, v0⟩ := p
    by_cases h : k0 = k
    · subst h
      have hb : (k' == k0) = false := by simpa using hne
      simp [assignField, List.lookup, hb]
    · simp only [assignField, h, if_false, List.lookup]
      rw [ih]

theorem keyGiven_some (k : String) (hk : k ≠ "") : keyGiven (some k) = true := by
  simpa [keyGiven] using hk

/-- C18: `set` called with a falsy key, that is with the key left out or
empty. With a value that is `instanceof Object`, whatever the identity was, the
value becomes the identity, `get()` then returns that very value and `has()` is
true. With any other value the call throws the message of the source and the
identity is what it was. -/
theorem set_without_key (identity : JsVal) (key : Option String) (value : JsVal)
    (hk : keyGiven key = false) :
    (value.instanceOfObject = true →
        AuthIdentity.set identity key value = .stored value ∧
          AuthIdentity.get value none = .value value ∧
          AuthIdentity.get value key = .value value ∧
          AuthIdentity.has value = true) ∧
      (value.instanceOfObject = false →
        AuthIdentity.set identity key value
          = .thrown "You have to provide an object if you want to set the identity without a key."
              identity) := by
  constructor
  · intro hv
    refine ⟨by simp [AuthIdentity.set, hk, hv], by simp [AuthIdentity.get, keyGiven],
      by simp [AuthIdentity.get, hk], ?_⟩
    cases value <;> simp [JsVal.instanceOfObject] at hv <;> rfl
  · intro hv
    simp [AuthIdentity.set, hk, hv]

theorem set_without_key_witness :
    keyGiven none = false ∧
      AuthIdentity.set (.obj [("old", .num 0)]) none loginOk.data = .stored loginOk.data ∧
      AuthIdentity.get loginOk.data none = .value loginOk.data ∧
      AuthIdentity.set (.obj [("old", .num 0)]) none (.str "alice")
        = .thrown "You have to provide an object if you want to set the identity without a key."
            (.obj [("old", .num 0)]) :=
  have h := set_without_key (.obj [("old", .num 0)]) none loginOk.data rfl
  ⟨rfl, (h.1 rfl).1, (h.1 rfl).2.1,
    (set_without_key (.obj [("old", .num 0)]) none (.str "alice") rfl).2 rfl⟩

/-- C20, as stated, fails. The empty key is a key different from `a`, and
`get` with it returns the whole identity: `null` before `set('a', 1)` and the
object holding `a` after it. The identity can be an array, given to `set`
without a key: on the array of the one element 7, `set('1', 8)` appends the
element, and `get('length')` returns 1 before and 2 after. And after
`set('hasOwnProperty', 1)` the call `_identity.hasOwnProperty(key)` of `get`
calls the number 1 and throws: `get('hasOwnProperty')` does not return 1. -/
theorem get_changes_for_other_key :
    AuthIdentity.set .null (some "a") (.num 1) = .stored (.obj [("a", .num 1)]) ∧
      AuthIdentity.get .null (some "") = .value .null ∧
      AuthIdentity.get (.obj [("a", .num 1)]) (some "") = .value (.obj [("a", .num 1)]) ∧
      AuthIdentity.get (.obj [("a", .num 1)]) (some "") ≠ AuthIdentity.get .null (some "") ∧
      AuthIdentity.set .null none (.arr [.num 7]) = .stored (.arr [.num 7]) ∧
      AuthIdentity.set (.arr [.num 7]) (some "1") (.num 8) = .stored (.arr [.num 7, .num 8]) ∧
      AuthIdentity.get (.arr [.num 7]) (some "length") = .value (.num 1) ∧
      AuthIdentity.get (.arr [.num 7, .num 8]) (some "length") = .value (.num 2) ∧
      AuthIdentity.get (.arr [.num 7, .num 8]) (some "length")
        ≠ AuthIdentity.get (.arr [.num 7]) (some "length") ∧
      AuthIdentity.set .null (some "hasOwnProperty") (.num 1)
        = .stored (.obj [("hasOwnProperty", .num 1)]) ∧
      AuthIdentity.get (.obj [("hasOwnProperty", .num 1)]) (some "hasOwnProperty")
        = .typeError := by
  refine ⟨rfl, rfl, rfl, ?_, rfl, rfl, rfl, rfl, ?_, rfl, rfl⟩
  · simp [AuthIdentity.get, keyGiven]
  · intro h
    have h1 : AuthIdentity.get (.arr [.num 7, .num 8]) (some "length") = .value (.num 2) := rfl
    have h2 : AuthIdentity.get (.arr [.num 7]) (some "length") = .value (.num 1) := rfl
    rw [h1, h2] at h
    simp at h

/-- C20, amended: the identity is `null` or a plain object with no property
of its own named `hasOwnProperty`; `k` is a key other than the empty key,
`__proto__` and `hasOwnProperty`; `v` is any value. `set(k, v)` stores an
identity for which `get(k)` returns `v`, `has()` is true, and `get(k')` returns
what it returned before for every non-empty key `k'` other than `k`. After
`clear()`, whatever the identity was, `has()` is false, `get()` is `null` and
`get(k)` is `null` for every key. -/
theorem set_get_clear (identity : JsVal) (k : String) (v : JsVal)
    (hid : identity.nullOrPlain = true) (hk : k ≠ "") (hproto : k ≠ "__proto__")
    (hown : k ≠ "hasOwnProperty") :
    (∃ stored : JsVal,
        AuthIdentity.set identity (some k) v = .stored stored ∧
          AuthIdentity.get stored (some k) = .value v ∧
          AuthIdentity.has stored = true ∧
          (∀ k' : String, k' ≠ "" → k' ≠ k →
            AuthIdentity.get stored (some k') = AuthIdentity.get identity (some k'))) ∧
      (∀ any : JsVal,
        AuthIdentity.has (AuthIdentity.clear any) = false ∧
          AuthIdentity.get (AuthIdentity.clear any) none = .value .null ∧
          (∀ key : Option String,
            AuthIdentity.get (AuthIdentity.clear any) key = .value .null)) := by
  have hg := keyGiven_some k hk
  have hown' : ("hasOwnProperty" : String) ≠ k := fun h => hown h.symm
  constructor
  · cases identity with
    | null =>
      have hb : (("hasOwnProperty" : String) == k) = false := by simpa using hown'
      refine ⟨.obj (assignField [] k v),
        by simp [AuthIdentity.set, hg, assignIdentity, hproto], ?_, rfl, ?_⟩
      · simp [AuthIdentity.get, hg, JsVal.truthy, readOwn, assignField, List.lookup, hb]
      · intro k' hk' hne
        have hg' := keyGiven_some k' hk'
        have hb' : (k' == k) = false := by simpa using hne
        simp [AuthIdentity.get, hg', JsVal.truthy, readOwn, assignField, List.lookup, hb, hb']
    | obj fields =>
      have hnone : fields.lookup "hasOwnProperty" = none := by
        simpa [JsVal.nullOrPlain] using hid
      have hnone' : (assignField fields k v).lookup "hasOwnProperty" = none := by
        rw [lookup_assignField_other _ _ _ _ hown']; exact hnone
      refine ⟨.obj (assignField fields k v),
        by simp [AuthIdentity.set, hg, assignIdentity, hproto], ?_, rfl, ?_⟩
      · simp [AuthIdentity.get, hg, JsVal.truthy, readOwn, hnone', lookup_assignField_self]
      · intro k' hk' hne
        have hg' := keyGiven_some k' hk'
        simp [AuthIdentity.get, hg', JsVal.truthy, readOwn, hnone, hnone',
          lookup_assignField_other _ _ _ _ hne]
    | undefined => simp [JsVal.nullOrPlain] at hid
    | bool b => simp [JsVal.nullOrPlain] at hid
    | num n => simp [JsVal.nullOrPlain] at hid
    | str s => simp [JsVal.nullOrPlain] at hid
    | arr items => simp [JsVal.nullOrPlain] at hid
  · intro any
    refine ⟨rfl, rfl, ?_⟩
    intro key
    by_cases hkey : keyGiven key = true
    · simp [AuthIdentity.get, AuthIdentity.clear, hkey, JsVal.truthy]
    · simp [AuthIdentity.get, AuthIdentity.clear, hkey]

theorem set_get_clear_witness :
    (JsVal.obj [("id", .num 1)]).nullOrPlain = true ∧ "name" ≠ "" ∧ "name" ≠ "__proto__" ∧
      "name" ≠ "hasOwnProperty" ∧
      ∃ stored : JsVal,
        AuthIdentity.set (.obj [("id", .num 1)]) (some "name") (.str "alice") = .stored stored ∧
          AuthIdentity.get stored (some "name") = .value (.str "alice") ∧
          AuthIdentity.has stored = true ∧
          (∀ k' : String, k' ≠ "" → k' ≠ "name" →
            AuthIdentity.get stored (some k')
              = AuthIdentity.get (.obj [("id", .num 1)]) (some k')) :=
  ⟨rfl, by decide, by decide, by decide,
    (set_get_clear (.obj [("id", .num 1)]) "name" (.str "alice") rfl (by decide) (by decide)
      (by decide)).1⟩

/-! ## Failures through the interceptor -/

theorem responseError_of_suspends (env : Env) (r : Response) (s : State)
    (h : suspends env r = true) :
    responseError env r s
      = (.promise s.deferreds.length,
          broadcast .signinRequired
            (broadcast (.authenticationHeader ⟨r.config, s.deferreds.length⟩)
              (defer (broadcast (.processResponse r) s)).2)) := by
  simp only [suspends, Bool.and_eq_true, decide_eq_true_eq, Bool.not_eq_true'] at h
  obtain ⟨⟨h401, hterm⟩, hparse⟩ := h
  simp [responseError, h401, hterm, hparse, broadcast, defer, setHttpRequest]

theorem responseError_of_not_suspends (env : Env) (r : Response) (s : State)
    (h : suspends env r = false) :
    (responseError env r s).1 = .rejection r ∧
      (responseError env r s).2.deferreds = s.deferreds ∧
      (responseError env r s).2.loginRequest = s.loginRequest := by
  unfold responseError
  by_cases h401 : r.status = 401
  · cases hterm : r.mustTerminate
    · cases hparse : env.parseHeader r
      · simp [h401, hterm, hparse, broadcast]
      · simp [suspends, h401, hterm, hparse] at h
    · simp [h401, hterm, broadcast]
  · simp [h401]

theorem httpSuccess_login (env : Env) (i : Nat) (r : Response) (s : State) (d : Nat)
    (he : s.exchanges[i]? = some ⟨.login, d, false⟩) :
    httpSuccess env i r s
      = loginSuccess env d r { s with exchanges := s.exchanges.set i ⟨.login, d, true⟩ } := by
  simp [httpSuccess, he]

theorem httpError_login_handed_on (env : Env) (i : Nat) (r : Response) (s : State) (d : Nat)
    (he : s.exchanges[i]? = some ⟨.login, d, false⟩) (hns : suspends env r = false) :
    httpError env i r s
      = loginFailure d r
          (responseError env r { s with exchanges := s.exchanges.set i ⟨.login, d, true⟩ }).2 := by
  have h1 := (responseError_of_not_suspends env r
    { s with exchanges := s.exchanges.set i ⟨.login, d, true⟩ } hns).1
  simp only [httpError, he]
  split
  · rename_i r' s2 heq
    rw [heq] at h1
    simp only at h1
    cases h1
    rw [heq]
  · rename_i k' s2 heq
    rw [heq] at h1
    cases h1

theorem httpError_suspended (env : Env) (i : Nat) (r : Response) (s : State)
    (kind : ExchangeKind) (d : Nat)
    (he : s.exchanges[i]? = some ⟨kind, d, false⟩) (hs : suspends env r = true) :
    httpError env i r s
      = (responseError env r { s with exchanges := s.exchanges.set i ⟨kind, d, true⟩ }).2 := by
  simp only [httpError, he]
  rw [responseError_of_suspends env r _ hs]

theorem responseError_login_deferred (env : Env) (r : Response) (s : State) :
    (responseError env r s).2.loginRequest.deferred = s.loginRequest.deferred := by
  unfold responseError
  split
  · split
    · simp [broadcast]
    · split
      · simp [broadcast]
      · simp [broadcast, defer, setHttpRequest]
  · rfl

theorem signout_loginRequest (env : Env) (s : State) :
    (signout env s).2.loginRequest = s.loginRequest := by
  unfold signout
  split
  · rfl
  · simp [performLogout, defer]

theorem isAuthenticated_loginRequest (s : State) :
    (isAuthenticated s).2.loginRequest = s.loginRequest := by
  unfold isAuthenticated
  simp only [defer]
  split
  · simp
  · split
    · simp
    · rfl

theorem rejectWithData_loginRequest (d : Nat) (v : JsVal) (s : State) :
    (rejectWithData d v s).loginRequest = s.loginRequest := by
  unfold rejectWithData
  split
  · simp [reject]
  · rfl

theorem runTask_loginRequest (env : Env) (s : State) :
    (runTask env s).loginRequest = s.loginRequest := by
  unfold runTask
  split
  · rfl
  · unfold runCallback
    split <;> simp [resolve, rejectWithData_loginRequest]

theorem logoutFailure_loginRequest (d : Nat) (response : Response) (s : State) :
    (logoutFailure d response s).loginRequest = s.loginRequest := by
  simp [logoutFailure, reject, broadcast]

theorem loginSuccess_login_deferred (env : Env) (d : Nat) (response : Response) (s : State) :
    (loginSuccess env d response s).loginRequest.deferred = s.loginRequest.deferred := by
  simp [loginSuccess, resolve, broadcast, storeCredentials]

/-- A step that does not run a handler replacing the attempt leaves the
deferred of the attempt in place. -/
theorem step_keeps_attempt (env : Env) (s : State) (a : Action) (h : Nat)
    (hk : replacesAttempt env s a = false) (hd : s.loginRequest.deferred = some h) :
    (step env s a).loginRequest.deferred = some h := by
  cases a with
  | signin => exact (signin_in_flight env s h hd).2.2.2
  | signout => show (signout env s).2.loginRequest.deferred = _; rw [signout_loginRequest]; exact hd
  | isAuthenticated =>
    show (isAuthenticated s).2.loginRequest.deferred = _
    rw [isAuthenticated_loginRequest]; exact hd
  | setCredentials u p => simpa [step, setCredentials, broadcast] using hd
  | setHttpRequest request => exact hd
  | responseError rejection =>
    show (responseError env rejection s).2.loginRequest.deferred = _
    rw [responseError_login_deferred]; exact hd
  | httpSuccess i response =>
    show (httpSuccess env i response s).loginRequest.deferred = _
    unfold httpSuccess
    split
    · rename_i kind k he
      cases kind
      · simp only; rw [loginSuccess_login_deferred]; exact hd
      · simp [replacesAttempt, he] at hk
    · exact hd
  | httpError i response =>
    show (httpError env i response s).loginRequest.deferred = _
    cases he : s.exchanges[i]? with
    | none => simp [httpError, he]; exact hd
    | some e =>
      obtain ⟨kind, k, b⟩ := e
      cases b
      · cases kind
        · have hs : suspends env response = true := by
            simpa [replacesAttempt, he] using hk
          rw [httpError_suspended env i response s .login k he hs,
            responseError_login_deferred]
          exact hd
        · unfold httpError
          simp only [he]
          have hl := responseError_login_deferred env response
            { s with exchanges := s.exchanges.set i ⟨.logout, k, true⟩ }
          split
          · rename_i r s2 heq
            rw [heq] at hl
            rw [logoutFailure_loginRequest, hl]; exact hd
          · rename_i k' s2 heq
            rw [heq] at hl
            rw [hl]; exact hd
      · simp [httpError, he]; exact hd
  | runTask => show (runTask env s).loginRequest.deferred = _; rw [runTask_loginRequest]; exact hd

theorem run_keeps_attempt (env : Env) (s : State) (actions : List Action) (h : Nat)
    (hk : attemptKept env s actions = true) (hd : s.loginRequest.deferred = some h) :
    (run env s actions).loginRequest.deferred = some h := by
  unfold run
  induction actions generalizing s with
  | nil => exact hd
  | cons a rest ih =>
    simp only [attemptKept, Bool.and_eq_true, Bool.not_eq_true'] at hk
    rw [List.foldl_cons]
    exact ih _ hk.2 (step_keeps_attempt env s a h hk.1 hd)

/-! ## Which exchanges have been issued -/

theorem calls_markDelivered (l : List Exchange) (i : Nat) (kind : ExchangeKind) (k : Nat)
    (b : Bool) (h : l[i]? = some ⟨kind, k, b⟩) :
    (l.set i ⟨kind, k, true⟩).map (fun e => (e.kind, e.deferred))
      = l.map (fun e => (e.kind, e.deferred)) := by
  rw [List.map_set]
  apply set_of_getElem?_eq
  simp [h]

theorem httpSuccess_calls (env : Env) (i : Nat) (response : Response) (s : State) :
    (httpSuccess env i response s).exchanges.map (fun e => (e.kind, e.deferred))
      = s.exchanges.map (fun e => (e.kind, e.deferred)) := by
  unfold httpSuccess
  split
  · rename_i kind k he
    have hk := calls_markDelivered s.exchanges i kind k false he
    cases kind
    · simp only; rw [loginSuccess_exchanges]; exact hk
    · simp only; rw [logoutSuccess_exchanges]; exact hk
  · rfl

theorem httpError_calls (env : Env) (i : Nat) (response : Response) (s : State) :
    (httpError env i response s).exchanges.map (fun e => (e.kind, e.deferred))
      = s.exchanges.map (fun e => (e.kind, e.deferred)) := by
  unfold httpError
  split
  · rename_i kind k he
    have hk := calls_markDelivered s.exchanges i kind k false he
    have hx := responseError_exchanges env response
      { s with exchanges := s.exchanges.set i ⟨kind, k, true⟩ }
    simp only at hx ⊢
    split
    · rename_i r s2 heq
      rw [heq] at hx
      cases kind
      · simp only; rw [loginFailure_exchanges, hx]; exact hk
      · simp only; rw [logoutFailure_exchanges, hx]; exact hk
    · rename_i k' s2 heq
      rw [heq] at hx
      rw [hx]; exact hk
  · rfl

theorem signout_exchanges_cases (env : Env) (s : State) :
    (signout env s).2.exchanges = s.exchanges ∨
      (signout env s).2.exchanges = s.exchanges ++ [⟨.logout, s.deferreds.length, false⟩] := by
  unfold signout
  split
  · exact Or.inl rfl
  · right
    simp [performLogout, defer]

/-- Every action but a `signin` that starts an attempt and a `signout` that
starts the logout leaves the issued exchanges, with their deferreds, as they
are. -/
theorem step_calls (env : Env) (s : State) (a : Action) :
    (step env s a).exchanges.map (fun e => (e.kind, e.deferred))
        = s.exchanges.map (fun e => (e.kind, e.deferred)) ∨
      (a = .signin ∧ s.loginRequest.deferred = none ∧
        (step env s a).exchanges = s.exchanges ++ [⟨.login, s.deferreds.length, false⟩]) ∨
      (a = .signout ∧
        (step env s a).exchanges = s.exchanges ++ [⟨.logout, s.deferreds.length, false⟩]) := by
  cases a with
  | signin =>
    cases hd : s.loginRequest.deferred with
    | some d =>
      left
      show (signin env s).2.exchanges.map _ = _
      rw [(signin_in_flight env s d hd).2.1]
    | none => exact Or.inr (Or.inl ⟨rfl, rfl, (signin_starts env s hd).2.1⟩)
  | signout =>
    rcases signout_exchanges_cases env s with h | h
    · left
      show (signout env s).2.exchanges.map _ = _
      rw [h]
    · exact Or.inr (Or.inr ⟨rfl, h⟩)
  | isAuthenticated =>
    left
    show (isAuthenticated s).2.exchanges.map _ = _
    rw [isAuthenticated_exchanges]
  | setCredentials u p => left; simp [step, setCredentials, broadcast]
  | setHttpRequest request => left; rfl
  | responseError rejection =>
    left
    show (responseError env rejection s).2.exchanges.map _ = _
    rw [responseError_exchanges]
  | httpSuccess i response => exact Or.inl (httpSuccess_calls env i response s)
  | httpError i response => exact Or.inl (httpError_calls env i response s)
  | runTask =>
    left
    show (runTask env s).exchanges.map _ = _
    rw [runTask_exchanges]

theorem kinds_of_calls {l l' : List Exchange}
    (h : l'.map (fun e => (e.kind, e.deferred)) = l.map (fun e => (e.kind, e.deferred))) :
    l'.map Exchange.kind = l.map Exchange.kind := by
  have h2 := congrArg (List.map Prod.fst) h
  simpa [List.map_map, Function.comp_def] using h2

theorem deferreds_of_calls {l l' : List Exchange}
    (h : l'.map (fun e => (e.kind, e.deferred)) = l.map (fun e => (e.kind, e.deferred))) :
    l'.map Exchange.deferred = l.map Exchange.deferred := by
  have h2 := congrArg (List.map Prod.snd) h
  simpa [List.map_map, Function.comp_def] using h2

/-- While the attempt has a deferred, no action issues a login exchange. -/
theorem step_loginExchanges (env : Env) (s : State) (a : Action) (h : Nat)
    (hd : s.loginRequest.deferred = some h) :
    (step env s a).loginExchanges = s.loginExchanges := by
  unfold State.loginExchanges
  rcases step_calls env s a with hc | ⟨-, hn, -⟩ | ⟨-, hc⟩
  · rw [kinds_of_calls hc]
  · rw [hd] at hn; cases hn
  · rw [hc]; simp

theorem run_loginExchanges (env : Env) (s : State) (actions : List Action) (h : Nat)
    (hk : attemptKept env s actions = true) (hd : s.loginRequest.deferred = some h) :
    (run env s actions).loginExchanges = s.loginExchanges := by
  unfold run
  induction actions generalizing s with
  | nil => rfl
  | cons a rest ih =>
    simp only [attemptKept, Bool.and_eq_true, Bool.not_eq_true'] at hk
    rw [List.foldl_cons, ih _ hk.2 (step_keeps_attempt env s a h hk.1 hd),
      step_loginExchanges env s a h hd]

theorem step_login_deferred_cases (env : Env) (s : State) (a : Action) :
    (step env s a).loginRequest.deferred = s.loginRequest.deferred ∨
      (step env s a).loginRequest.deferred = none ∨
      (a = .signin ∧ s.loginRequest.deferred = none ∧
        (step env s a).loginRequest.deferred = some s.deferreds.length) := by
  cases hd : s.loginRequest.deferred with
  | some h =>
    by_cases hk : replacesAttempt env s a = false
    · exact Or.inl (step_keeps_attempt env s a h hk hd)
    · right; left
      cases a with
      | httpSuccess i response =>
        show (httpSuccess env i response s).loginRequest.deferred = none
        cases he : s.exchanges[i]? with
        | none => simp [replacesAttempt, he] at hk
        | some e =>
          obtain ⟨kind, k, b⟩ := e
          cases kind <;> cases b <;> simp [replacesAttempt, he] at hk
          simp [httpSuccess, he, logoutSuccess, resolve, broadcast, initLogin]
      | httpError i response =>
        show (httpError env i response s).loginRequest.deferred = none
        cases he : s.exchanges[i]? with
        | none => simp [replacesAttempt, he] at hk
        | some e =>
          obtain ⟨kind, k, b⟩ := e
          cases kind <;> cases b <;> simp [replacesAttempt, he] at hk
          rw [httpError_login_handed_on env i response s k he hk, loginFailure_loginRequest]
          rfl
      | signin => simp [replacesAttempt] at hk
      | signout => simp [replacesAttempt] at hk
      | isAuthenticated => simp [replacesAttempt] at hk
      | setCredentials u p => simp [replacesAttempt] at hk
      | setHttpRequest request => simp [replacesAttempt] at hk
      | responseError rejection => simp [replacesAttempt] at hk
      | runTask => simp [replacesAttempt] at hk
  | none =>
    cases a with
    | signin => exact Or.inr (Or.inr ⟨rfl, rfl, (signin_starts env s hd).2.2.1⟩)
    | signout =>
      left; show (signout env s).2.loginRequest.deferred = _; rw [signout_loginRequest]; exact hd
    | isAuthenticated =>
      left; show (isAuthenticated s).2.loginRequest.deferred = _
      rw [isAuthenticated_loginRequest]; exact hd
    | setCredentials u p => left; simpa [step, setCredentials, broadcast] using hd
    | setHttpRequest request => left; exact hd
    | responseError rejection =>
      left; show (responseError env rejection s).2.loginRequest.deferred = _
      rw [responseError_login_deferred]; exact hd
    | runTask =>
      left; show (runTask env s).loginRequest.deferred = _; rw [runTask_loginRequest]; exact hd
    | httpSuccess i response =>
      show (httpSuccess env i response s).loginRequest.deferred = none ∨ _
      unfold httpSuccess
      split
      · rename_i kind k he
        cases kind
        · left; simp only; rw [loginSuccess_login_deferred]; exact hd
        · left; simp [logoutSuccess, resolve, broadcast, initLogin]
      · exact Or.inl hd
    | httpError i response =>
      show (httpError env i response s).loginRequest.deferred = none ∨ _
      unfold httpError
      split
      · rename_i kind k he
        have hl := responseError_login_deferred env response
          { s with exchanges := s.exchanges.set i ⟨kind, k, true⟩ }
        simp only at hl ⊢
        split
        · rename_i r s2 heq
          rw [heq] at hl
          cases kind
          · left; simp only; rw [loginFailure_loginRequest]; rfl
          · left; simp only; rw [logoutFailure_loginRequest, hl]; exact hd
        · rename_i k' s2 heq
          rw [heq] at hl
          left; rw [hl]; exact hd
      · exact Or.inl hd

theorem oneExchangePerHandle_init (cookie : Option String) (storage : Option (String × String)) :
    OneExchangePerHandle (State.init cookie storage) := by
  simp [OneExchangePerHandle, State.init, initLogin]

theorem oneExchangePerHandle_step (env : Env) (s : State) (a : Action) (hw : s.WellFormed)
    (h : OneExchangePerHandle s) : OneExchangePerHandle (step env s a) := by
  obtain ⟨hn, hm⟩ := h
  have hfresh : s.deferreds.length ∉ s.exchanges.map Exchange.deferred := by
    intro hin
    obtain ⟨e, he, hed⟩ := List.mem_map.1 hin
    have := hw.1 e he
    omega
  have hmem : ∀ (l : List Exchange) (d : Nat),
      (∃ e ∈ l, e.kind = .login ∧ e.deferred = d)
        ↔ (ExchangeKind.login, d) ∈ l.map (fun e => (e.kind, e.deferred)) := by
    intro l d
    simp only [List.mem_map, Prod.mk.injEq]
  rcases step_calls env s a with hc | ⟨ha, hnone, hc⟩ | ⟨ha, hc⟩
  · refine ⟨by rw [deferreds_of_calls hc]; exact hn, ?_⟩
    intro d hd
    rw [hmem, hc, ← hmem]
    rcases step_login_deferred_cases env s a with hl | hl | ⟨ha, hnone, -⟩
    · rw [hl] at hd; exact hm d hd
    · rw [hl] at hd; cases hd
    · exfalso
      subst ha
      have h1 := (signin_starts env s hnone).2.1
      have h2 := congrArg List.length (deferreds_of_calls hc)
      simp only [step] at h2
      rw [h1] at h2
      simp at h2
  · refine ⟨?_, ?_⟩
    · rw [hc, List.map_append, List.nodup_append]
      refine ⟨hn, by simp, ?_⟩
      intro x hx hx'
      simp only [List.map_cons, List.map_nil, List.mem_singleton] at hx'
      subst hx'
      exact hfresh hx
    · intro d hd
      subst ha
      have h3 := (signin_starts env s hnone).2.2.1
      simp only [step] at hd hc ⊢
      rw [h3] at hd
      cases hd
      rw [hc]
      exact ⟨⟨.login, s.deferreds.length, false⟩, by simp, rfl, rfl⟩
  · refine ⟨?_, ?_⟩
    · rw [hc, List.map_append, List.nodup_append]
      refine ⟨hn, by simp, ?_⟩
      intro x hx hx'
      simp only [List.map_cons, List.map_nil, List.mem_singleton] at hx'
      subst hx'
      exact hfresh hx
    · intro d hd
      subst ha
      simp only [step] at hd hc ⊢
      rw [signout_loginRequest] at hd
      obtain ⟨e, he, h1, h2⟩ := hm d hd
      rw [hc]
      exact ⟨e, List.mem_append_left _ he, h1, h2⟩

theorem oneExchangePerHandle_run (env : Env) (s : State) (actions : List Action)
    (hw : s.WellFormed) (h : OneExchangePerHandle s) :
    OneExchangePerHandle (run env s actions) := by
  unfold run
  induction actions generalizing s with
  | nil => exact h
  | cons a rest ih =>
    rw [List.foldl_cons]
    exact ih _ (hw.step_wf env a) (oneExchangePerHandle_step env s a hw h)

/-! ## A failure of the login exchange that reaches the handler -/

theorem httpError_handed_on_state (env : Env) (i : Nat) (r : Response) (s : State) (d : Nat)
    (he : s.exchanges[i]? = some ⟨.login, d, false⟩) (hns : suspends env r = false) :
    ∃ s2 : State, httpError env i r s = loginFailure d r s2 ∧
      s2.deferreds = s.deferreds ∧ s2.loginRequest = s.loginRequest ∧
      s2.exchanges = s.exchanges.set i ⟨.login, d, true⟩ := by
  obtain ⟨-, h2, h3⟩ := responseError_of_not_suspends env r
    { s with exchanges := s.exchanges.set i ⟨.login, d, true⟩ } hns
  exact ⟨_, httpError_login_handed_on env i r s d he hns, h2, h3,
    responseError_exchanges env r _⟩

theorem httpSuccess_login_promise (env : Env) (i : Nat) (r : Response) (s : State) (d : Nat)
    (he : s.exchanges[i]? = some ⟨.login, d, false⟩) (hp : s.promise d = some .pending) :
    (httpSuccess env i r s).promise d = some (.resolved r.data) := by
  rw [httpSuccess_login env i r s d he]
  simp only [loginSuccess, resolve]
  apply settle_promise_self
  simpa [broadcast, storeCredentials, State.promise] using hp

theorem httpSuccess_login_attempt (env : Env) (i : Nat) (r : Response) (s : State) (d : Nat)
    (he : s.exchanges[i]? = some ⟨.login, d, false⟩) :
    (httpSuccess env i r s).loginRequest = { s.loginRequest with mustTerminate := false } := by
  rw [httpSuccess_login env i r s d he]
  simp [loginSuccess, resolve, broadcast, storeCredentials]

theorem httpSuccess_marks_delivered (env : Env) (i : Nat) (r : Response) (s : State)
    (kind : ExchangeKind) (d : Nat) (he : s.exchanges[i]? = some ⟨kind, d, false⟩) :
    (httpSuccess env i r s).exchanges = s.exchanges.set i ⟨kind, d, true⟩ := by
  cases kind
  · simp only [httpSuccess, he]; rw [loginSuccess_exchanges]
  · simp only [httpSuccess, he]; rw [logoutSuccess_exchanges]

theorem httpError_marks_delivered (env : Env) (i : Nat) (r : Response) (s : State)
    (kind : ExchangeKind) (d : Nat) (he : s.exchanges[i]? = some ⟨kind, d, false⟩) :
    (httpError env i r s).exchanges = s.exchanges.set i ⟨kind, d, true⟩ := by
  have hx := responseError_exchanges env r
    { s with exchanges := s.exchanges.set i ⟨kind, d, true⟩ }
  simp only [httpError, he]
  split
  · rename_i r' s2 heq
    rw [heq] at hx
    cases kind
    · simp only; rw [loginFailure_exchanges, hx]
    · simp only; rw [logoutFailure_exchanges, hx]
  · rename_i k' s2 heq
    rw [heq] at hx
    exact hx

theorem getElem?_set_of_some {α : Type} (l : List α) (i : Nat) (a b : α) (h : l[i]? = some a) :
    (l.set i b)[i]? = some b := by
  have hlt : i < l.length := by
    by_contra hc
    rw [List.getElem?_eq_none (by omega)] at h
    cases h
  rw [List.getElem?_set_self hlt]

/-! ## The deferred of an unanswered exchange is pending -/

theorem Waits.frame_waits {d : Nat} {s s' : State} (h : Waits d s)
    (hd : s'.deferreds = s.deferreds) (hq : s'.queue = s.queue) : Waits d s' := by
  unfold Waits State.promise at *
  rw [hd, hq]
  exact h

theorem Waits.defer_waits {d : Nat} {s : State} (h : Waits d s) : Waits d (defer s).2 := by
  obtain ⟨h1, h3, h4⟩ := h
  have hlt := promise_lt s d _ h1
  refine ⟨?_, ?_, h4⟩
  · rw [defer_promise_old s d (by omega)]; exact h1
  · intro x hx cb hcb
    simp only [DgAuth.defer, List.mem_append, List.mem_singleton] at hx
    rcases hx with hx | hx
    · exact h3 x hx cb hcb
    · subst hx; simp at hcb

theorem Waits.settle_waits {d : Nat} {s : State} (h : Waits d s) (k : Nat)
    (st : Settlement) (sg : Signal) (hk : k ≠ d) : Waits d (settle k st sg s) := by
  by_cases hp : s.promise k = some .pending
  · obtain ⟨cbs, n, hd⟩ := promise_pending s k hp
    obtain ⟨h1, h3, h4⟩ := h
    refine ⟨?_, ?_, ?_⟩
    · rw [settle_promise_other _ _ _ _ _ (Ne.symm hk)]; exact h1
    · intro x hx cb hcb
      rw [settle_of_pending _ _ _ _ _ _ hd] at hx
      rcases List.mem_or_eq_of_mem_set hx with hm | hm
      · exact h3 x hm cb hcb
      · subst hm; simp at hcb
    · intro t ht
      rw [settle_queue _ _ _ _ hp] at ht
      simp only [List.mem_append, List.mem_map] at ht
      rcases ht with ht | ⟨cb, hcb, rfl⟩
      · exact h4 t ht
      · have hcb' : cb ∈ cbs := by simpa [State.callbacksOf, hd] using hcb
        exact h3 _ (List.getElem?_mem hd) cb hcb'
  · rw [settle_of_not_pending _ _ _ _ hp]; exact h

theorem Waits.notify_waits {d : Nat} {s : State} (h : Waits d s) (k : Nat) :
    Waits d (notify k s) := by
  by_cases hp : s.promise k = some .pending
  · obtain ⟨cbs, n, hd⟩ := promise_pending s k hp
    obtain ⟨h1, h3, h4⟩ := h
    refine ⟨by rw [notify_promise]; exact h1, ?_, ?_⟩
    · intro x hx cb hcb
      simp only [DgAuth.notify, hd] at hx
      rcases List.mem_or_eq_of_mem_set hx with hm | hm
      · exact h3 x hm cb hcb
      · subst hm
        exact h3 _ (List.getElem?_mem hd) cb hcb
    · intro t ht
      rw [notify_queue _ _ hp] at ht
      simp only [List.mem_append, List.mem_map] at ht
      rcases ht with ht | ⟨cb, hcb, rfl⟩
      · exact h4 t ht
      · have hcb' : cb ∈ cbs := by simpa [State.callbacksOf, hd] using hcb
        exact h3 _ (List.getElem?_mem hd) cb hcb'
  · have : DgAuth.notify k s = s := by
      unfold DgAuth.notify
      split
      · rename_i cbs n hd
        exact absurd (by simp [State.promise, hd]) hp
      · rfl
    rw [this]; exact h

theorem Waits.registerThen_waits {d : Nat} {s : State} (h : Waits d s) (k : Nat)
    (cb : Callback) (hcb : cb.target ≠ some d) : Waits d (registerThen k cb s) := by
  obtain ⟨h1, h3, h4⟩ := h
  refine ⟨by rw [registerThen_promise]; exact h1, ?_, ?_⟩
  · intro x hx cb' hcb'
    unfold DgAuth.registerThen at hx
    split at hx
    · rename_i cbs n hd
      rcases List.mem_or_eq_of_mem_set hx with hm | hm
      · exact h3 x hm cb' hcb'
      · subst hm
        simp only [List.mem_append, List.mem_singleton] at hcb'
        rcases hcb' with hcb' | hcb'
        · exact h3 _ (List.getElem?_mem hd) cb' hcb'
        · subst hcb'; exact hcb
    · exact h3 x hx cb' hcb'
    · exact h3 x hx cb' hcb'
    · exact h3 x hx cb' hcb'
  · intro t ht
    unfold DgAuth.registerThen at ht
    split at ht
    · exact h4 t ht
    · simp only [List.mem_append, List.mem_singleton] at ht
      rcases ht with ht | ht
      · exact h4 t ht
      · subst ht; exact hcb
    · simp only [List.mem_append, List.mem_singleton] at ht
      rcases ht with ht | ht
      · exact h4 t ht
      · subst ht; exact hcb
    · exact h4 t ht

theorem Waits.attachCallbacks_waits {d : Nat} {s : State} (h : Waits d s)
    (mk : Nat → Callback) (hmk : ∀ i, (mk i).target = none) (count k : Nat) :
    Waits d (attachCallbacks mk count k s) := by
  unfold DgAuth.attachCallbacks
  induction List.range count generalizing s with
  | nil => exact h
  | cons i rest ih =>
    rw [List.foldl_cons]
    exact ih (h.registerThen_waits k (mk i) (by rw [hmk i]; simp))

theorem Waits.pop_waits {d : Nat} {s : State} (h : Waits d s) (t : Task)
    (rest : List Task) (hq : s.queue = t :: rest) : Waits d { s with queue := rest } := by
  obtain ⟨h1, h3, h4⟩ := h
  refine ⟨h1, h3, ?_⟩
  intro t' ht'
  exact h4 t' (by rw [hq]; exact List.mem_cons_of_mem _ ht')

theorem Waits.broadcast_waits {d : Nat} {s : State} (h : Waits d s) (ev : Event) :
    Waits d (broadcast ev s) :=
  h.frame_waits (broadcast_deferreds ev s) (broadcast_queue ev s)

theorem Waits.lt_length {d : Nat} {s : State} (h : Waits d s) : d < s.deferreds.length :=
  promise_lt s d _ h.1

theorem Waits.signin_waits {d : Nat} {s : State} (h : Waits d s) (env : Env) :
    Waits d (signin env s).2 := by
  have h1 : Waits d (restoreCredentials env s) :=
    h.frame_waits (restoreCredentials_deferreds env s) (restoreCredentials_queue env s)
  unfold DgAuth.signin
  simp only
  split
  · exact h1
  · show Waits d (DgAuth.attachCallbacks _ _ _ _)
    refine Waits.attachCallbacks_waits ?_ Callback.loginCallback (fun _ => rfl) _ _
    exact h1.defer_waits.frame_waits rfl rfl

theorem Waits.signout_waits {d : Nat} {s : State} (h : Waits d s) (env : Env) :
    Waits d (signout env s).2 := by
  unfold DgAuth.signout
  split
  · exact h
  · show Waits d (DgAuth.attachCallbacks _ _ _ _)
    refine Waits.attachCallbacks_waits ?_ Callback.logoutCallback (fun _ => rfl) _ _
    exact h.defer_waits.frame_waits rfl rfl

theorem Waits.isAuthenticated_waits {d : Nat} {s : State} (h : Waits d s) :
    Waits d (isAuthenticated s).2 := by
  have hne : s.deferreds.length ≠ d := by have := h.lt_length; omega
  unfold DgAuth.isAuthenticated
  simp only [DgAuth.defer]
  split
  · apply Waits.registerThen_waits h.defer_waits
    simpa [Callback.target] using hne
  · split
    · apply Waits.registerThen_waits h.defer_waits
      simpa [Callback.target] using hne
    · exact h.defer_waits

theorem Waits.setCredentials_waits {d : Nat} {s : State} (h : Waits d s) (u p : String) :
    Waits d (setCredentials u p s) := by
  unfold DgAuth.setCredentials
  apply h.frame_waits <;> simp [DgAuth.broadcast]

theorem Waits.responseError_waits {d : Nat} {s : State} (h : Waits d s) (env : Env)
    (rejection : Response) : Waits d (responseError env rejection s).2 := by
  unfold DgAuth.responseError
  split
  · split
    · exact h.broadcast_waits _
    · split
      · exact (h.broadcast_waits _).broadcast_waits _
      · exact (((h.broadcast_waits _).defer_waits).broadcast_waits _).broadcast_waits _
  · exact h

theorem Waits.loginSuccess_waits {d : Nat} {s : State} (h : Waits d s) (env : Env)
    (k : Nat) (response : Response) (hk : k ≠ d) :
    Waits d (loginSuccess env k response s) := by
  unfold DgAuth.loginSuccess resolve storeCredentials
  apply Waits.settle_waits _ _ _ _ hk
  apply h.frame_waits <;> simp [DgAuth.broadcast]

theorem Waits.loginFailure_waits {d : Nat} {s : State} (h : Waits d s)
    (k : Nat) (response : Response) (hk : k ≠ d) :
    Waits d (loginFailure k response s) := by
  unfold DgAuth.loginFailure
  split
  · exact ((h.broadcast_waits _).notify_waits k).frame_waits rfl rfl
  · apply Waits.frame_waits _ rfl rfl
    unfold reject
    exact (h.broadcast_waits _).settle_waits _ _ _ hk

theorem Waits.logoutSuccess_waits {d : Nat} {s : State} (h : Waits d s) (env : Env)
    (k : Nat) (response : Response) (hk : k ≠ d) :
    Waits d (logoutSuccess env k response s) := by
  unfold DgAuth.logoutSuccess resolve
  apply Waits.settle_waits _ _ _ _ hk
  apply h.frame_waits <;> simp [DgAuth.broadcast]

theorem Waits.logoutFailure_waits {d : Nat} {s : State} (h : Waits d s)
    (k : Nat) (response : Response) (hk : k ≠ d) :
    Waits d (logoutFailure k response s) := by
  unfold DgAuth.logoutFailure reject
  exact (h.broadcast_waits _).settle_waits _ _ _ hk

theorem Waits.httpSuccess_waits {d : Nat} {s : State} (h : Waits d s) (env : Env)
    (i : Nat) (response : Response)
    (hk : ∀ kind k, s.exchanges[i]? = some ⟨kind, k, false⟩ → k ≠ d) :
    Waits d (httpSuccess env i response s) := by
  unfold DgAuth.httpSuccess
  split
  · rename_i kind k he
    have hk' : k ≠ d := hk kind k he
    have h1 : Waits d { s with exchanges := s.exchanges.set i ⟨kind, k, true⟩ } :=
      h.frame_waits rfl rfl
    cases kind
    · exact h1.loginSuccess_waits env k response hk'
    · exact h1.logoutSuccess_waits env k response hk'
  · exact h

theorem Waits.httpError_waits {d : Nat} {s : State} (h : Waits d s) (env : Env)
    (i : Nat) (response : Response)
    (hk : ∀ kind k, s.exchanges[i]? = some ⟨kind, k, false⟩ → k ≠ d) :
    Waits d (httpError env i response s) := by
  unfold DgAuth.httpError
  split
  · rename_i kind k he
    have hk' : k ≠ d := hk kind k he
    have h0 : Waits d { s with exchanges := s.exchanges.set i ⟨kind, k, true⟩ } :=
      h.frame_waits rfl rfl
    have h1 := h0.responseError_waits env response
    simp only at h1 ⊢
    split
    · rename_i r s2 heq
      rw [heq] at h1
      cases kind
      · exact h1.loginFailure_waits k r hk'
      · exact h1.logoutFailure_waits k r hk'
    · rename_i k' s2 heq
      rw [heq] at h1
      exact h1
  · exact h

theorem Waits.rejectWithData_waits {d : Nat} {s : State} (h : Waits d s) (k : Nat)
    (v : JsVal) (hk : k ≠ d) : Waits d (rejectWithData k v s) := by
  unfold DgAuth.rejectWithData
  split
  · unfold reject
    exact h.settle_waits _ _ _ hk
  · exact h.frame_waits rfl rfl

theorem Waits.runTask_waits {d : Nat} {s : State} (h : Waits d s) (env : Env) :
    Waits d (runTask env s) := by
  unfold DgAuth.runTask
  split
  · exact h
  · rename_i t rest hq
    have h1 := h.pop_waits t rest hq
    have ht : t ∈ s.queue := by rw [hq]; exact List.mem_cons_self _ _
    have hq4 := h.2.2 t ht
    obtain ⟨cb, sg⟩ := t
    unfold runCallback
    split
    · rename_i k v hcb hsg
      simp only at hcb hsg
      subst hcb hsg
      exact h1.rejectWithData_waits k v (fun hc => hq4 (by simp [Callback.target, hc]))
    · rename_i k v hcb hsg
      simp only at hcb hsg
      subst hcb hsg
      unfold resolve
      exact h1.settle_waits _ _ _ (fun hc => hq4 (by simp [Callback.target, hc]))
    · rename_i k v hcb hsg
      simp only at hcb hsg
      subst hcb hsg
      unfold resolve
      exact h1.settle_waits _ _ _ (fun hc => hq4 (by simp [Callback.target, hc]))
    · rename_i k v hcb hsg
      simp only at hcb hsg
      subst hcb hsg
      exact h1.rejectWithData_waits k v (fun hc => hq4 (by simp [Callback.target, hc]))
    · exact h1

/-- A step keeps deferred `d` waiting unless it answers an exchange of `d`. -/
theorem Waits.step_waits {d : Nat} {s : State} (h : Waits d s) (env : Env) (a : Action)
    (hk : ∀ i kind k, (∃ r, a = .httpSuccess i r ∨ a = .httpError i r) →
      s.exchanges[i]? = some ⟨kind, k, false⟩ → k ≠ d) :
    Waits d (step env s a) := by
  cases a with
  | signin => exact h.signin_waits env
  | signout => exact h.signout_waits env
  | isAuthenticated => exact h.isAuthenticated_waits
  | setCredentials u p => exact h.setCredentials_waits u p
  | setHttpRequest request => exact h.frame_waits rfl rfl
  | responseError rejection => exact h.responseError_waits env rejection
  | httpSuccess i response =>
    exact h.httpSuccess_waits env i response (fun kind k => hk i kind k ⟨response, Or.inl rfl⟩)
  | httpError i response =>
    exact h.httpError_waits env i response (fun kind k => hk i kind k ⟨response, Or.inr rfl⟩)
  | runTask => exact h.runTask_waits env

theorem Waits.of_defer_waits {s : State} (hwf : s.WellFormed) :
    Waits s.deferreds.length (DgAuth.defer s).2 :=
  ⟨(Untouched.of_defer hwf).1, (Untouched.of_defer hwf).2.2.1, (Untouched.of_defer hwf).2.2.2⟩

theorem nodup_getElem?_eq {α : Type} {l : List α} (hn : l.Nodup) {i j : Nat} {a : α}
    (hi : l[i]? = some a) (hj : l[j]? = some a) : i = j := by
  have hil : i < l.length := by
    by_contra hc
    rw [List.getElem?_eq_none (by omega)] at hi
    cases hi
  have hjl : j < l.length := by
    by_contra hc
    rw [List.getElem?_eq_none (by omega)] at hj
    cases hj
  rw [List.getElem?_eq_getElem hil] at hi
  rw [List.getElem?_eq_getElem hjl] at hj
  have h : l[i] = l[j] := by
    rw [Option.some.inj hi, Option.some.inj hj]
  exact (List.Nodup.getElem_inj_iff hn).1 h

/-- With pairwise different deferreds, an exchange that is still unanswered
once exchange `i` has been marked as answered is another exchange, with
another deferred. -/
theorem other_unanswered (l : List Exchange) (hn : (l.map Exchange.deferred).Nodup)
    (i : Nat) (kind : ExchangeKind) (k : Nat) (he : l[i]? = some ⟨kind, k, false⟩)
    (e : Exchange) (hm : e ∈ l.set i ⟨kind, k, true⟩) (hu : e.delivered = false) :
    e ∈ l ∧ k ≠ e.deferred := by
  obtain ⟨j, hj⟩ := List.mem_iff_getElem?.1 hm
  have hji : i ≠ j := by
    intro hij
    subst hij
    rw [getElem?_set_of_some l i _ _ he] at hj
    have := Option.some.inj hj
    subst this
    cases hu
  rw [List.getElem?_set_ne hji] at hj
  refine ⟨List.getElem?_mem hj, ?_⟩
  intro hke
  apply hji
  have h1 : (l.map Exchange.deferred)[i]? = some k := by simp [he]
  have h2 : (l.map Exchange.deferred)[j]? = some k := by simp [hj, hke]
  exact nodup_getElem?_eq hn h1 h2

theorem restoreCredentials_wf (env : Env) {s : State} (h : s.WellFormed) :
    (restoreCredentials env s).WellFormed :=
  h.frame_wf (restoreCredentials_deferreds env s) (restoreCredentials_exchanges env s)
    (restoreCredentials_queue env s) (restoreCredentials_deferred env s)
    (by rw [restoreCredentials_logoutRequest])

theorem signin_new_waits (env : Env) (s : State) (hw : s.WellFormed)
    (hd : s.loginRequest.deferred = none) : Waits s.deferreds.length (signin env s).2 := by
  have h1 := restoreCredentials_deferred env s
  rw [hd] at h1
  have h0 := Waits.of_defer_waits (restoreCredentials_wf env hw)
  rw [restoreCredentials_deferreds] at h0
  unfold signin
  simp only [h1]
  show Waits _ (DgAuth.attachCallbacks _ _ _ _)
  refine Waits.attachCallbacks_waits ?_ Callback.loginCallback (fun _ => rfl) _ _
  exact h0.frame_waits rfl rfl

theorem signout_new_waits (env : Env) (s : State) (hw : s.WellFormed)
    (hd : s.logoutRequest.deferred = none) : Waits s.deferreds.length (signout env s).2 := by
  have h0 := Waits.of_defer_waits hw
  unfold signout
  simp only [hd]
  show Waits _ (DgAuth.attachCallbacks _ _ _ _)
  refine Waits.attachCallbacks_waits ?_ Callback.logoutCallback (fun _ => rfl) _ _
  exact h0.frame_waits rfl rfl

theorem unansweredWait_init (cookie : Option String) (storage : Option (String × String)) :
    UnansweredWait (State.init cookie storage) := by
  intro e he
  simp [State.init] at he

theorem unansweredWait_step (env : Env) (s : State) (a : Action) (hw : s.WellFormed)
    (hn : (s.exchanges.map Exchange.deferred).Nodup) (h : UnansweredWait s) :
    UnansweredWait (step env s a) := by
  have hsame : (step env s a).exchanges = s.exchanges →
      (∀ i kind k, (∃ r, a = .httpSuccess i r ∨ a = .httpError i r) →
        s.exchanges[i]? ≠ some ⟨kind, k, false⟩) → UnansweredWait (step env s a) := by
    intro hx hna e he hu
    rw [hx] at he
    exact (h e he hu).step_waits env a (fun i kind k hr hex => absurd hex (hna i kind k hr))
  have hanswer : ∀ (i : Nat) (kind : ExchangeKind) (k : Nat),
      (∃ r, a = .httpSuccess i r ∨ a = .httpError i r) →
      s.exchanges[i]? = some ⟨kind, k, false⟩ →
      (step env s a).exchanges = s.exchanges.set i ⟨kind, k, true⟩ →
      UnansweredWait (step env s a) := by
    intro i kind k hr hex hx e he hu
    rw [hx] at he
    obtain ⟨hmem, hne⟩ := other_unanswered s.exchanges hn i kind k hex e he hu
    refine (h e hmem hu).step_waits env a ?_
    intro i' kind' k' hr' hex'
    have hii : i' = i := by
      obtain ⟨r, hr⟩ := hr
      obtain ⟨r', hr'⟩ := hr'
      rcases hr with hr | hr <;> rcases hr' with hr' | hr' <;> rw [hr] at hr' <;> cases hr' <;> rfl
    subst hii
    rw [hex] at hex'
    cases hex'
    exact hne
  cases a with
  | signin =>
    cases hd : s.loginRequest.deferred with
    | some d =>
      exact hsame (signin_in_flight env s d hd).2.1
        (by rintro i kind k ⟨r, hr | hr⟩ <;> cases hr)
    | none =>
      intro e he hu
      have hx := (signin_starts env s hd).2.1
      simp only [step] at he ⊢
      rw [hx] at he
      simp only [List.mem_append, List.mem_singleton] at he
      rcases he with he | he
      · exact (h e he hu).signin_waits env
      · subst he
        exact signin_new_waits env s hw hd
  | signout =>
    cases hd : s.logoutRequest.deferred with
    | some d =>
      exact hsame (by simp [step, signout_in_flight env s d hd])
        (by rintro i kind k ⟨r, hr | hr⟩ <;> cases hr)
    | none =>
      intro e he hu
      have hx : (signout env s).2.exchanges
          = s.exchanges ++ [⟨.logout, s.deferreds.length, false⟩] := by
        simp [signout, hd, performLogout, defer]
      simp only [step] at he ⊢
      rw [hx] at he
      simp only [List.mem_append, List.mem_singleton] at he
      rcases he with he | he
      · exact (h e he hu).signout_waits env
      · subst he
        exact signout_new_waits env s hw hd
  | isAuthenticated =>
    exact hsame (isAuthenticated_exchanges s) (by rintro i kind k ⟨r, hr | hr⟩ <;> cases hr)
  | setCredentials u p =>
    exact hsame (by simp [step, setCredentials, broadcast])
      (by rintro i kind k ⟨r, hr | hr⟩ <;> cases hr)
  | setHttpRequest request =>
    exact hsame rfl (by rintro i kind k ⟨r, hr | hr⟩ <;> cases hr)
  | responseError rejection =>
    exact hsame (responseError_exchanges env rejection s)
      (by rintro i kind k ⟨r, hr | hr⟩ <;> cases hr)
  | runTask =>
    exact hsame (runTask_exchanges env s) (by rintro i kind k ⟨r, hr | hr⟩ <;> cases hr)
  | httpSuccess i response =>
    cases hex : s.exchanges[i]? with
    | none =>
      have hs : step env s (.httpSuccess i response) = s := by simp [step, httpSuccess, hex]
      rw [hs]; exact h
    | some e0 =>
      obtain ⟨kind, k, b⟩ := e0
      cases b
      · exact hanswer i kind k ⟨response, Or.inl rfl⟩ hex
          (httpSuccess_marks_delivered env i response s kind k hex)
      · have hs : step env s (.httpSuccess i response) = s :=
          httpSuccess_of_delivered env i response s kind k hex
        rw [hs]; exact h
  | httpError i response =>
    cases hex : s.exchanges[i]? with
    | none =>
      have hs : step env s (.httpError i response) = s := by simp [step, httpError, hex]
      rw [hs]; exact h
    | some e0 =>
      obtain ⟨kind, k, b⟩ := e0
      cases b
      · exact hanswer i kind k ⟨response, Or.inr rfl⟩ hex
          (httpError_marks_delivered env i response s kind k hex)
      · have hs : step env s (.httpError i response) = s :=
          httpError_of_delivered env i response s kind k hex
        rw [hs]; exact h

/-- In every state reached from the initial one, the deferred of an exchange
that has not been answered is pending. -/
theorem unanswered_pending (env : Env) (cookie : Option String)
    (storage : Option (String × String)) (actions : List Action) (i : Nat)
    (kind : ExchangeKind) (d : Nat)
    (he : (run env (State.init cookie storage) actions).exchanges[i]? = some ⟨kind, d, false⟩) :
    (run env (State.init cookie storage) actions).promise d = some .pending := by
  have key : ∀ (acts : List Action) (s : State), s.WellFormed → OneExchangePerHandle s →
      UnansweredWait s → UnansweredWait (run env s acts) := by
    intro acts
    unfold run
    induction acts with
    | nil => intro s _ _ h; exact h
    | cons a rest ih =>
      intro s hw ho h
      rw [List.foldl_cons]
      exact ih _ (hw.step_wf env a) (oneExchangePerHandle_step env s a hw ho)
        (unansweredWait_step env s a hw ho.1 h)
  have hall := key actions _ (State.WellFormed.init cookie storage)
    (oneExchangePerHandle_init cookie storage) (unansweredWait_init cookie storage)
  exact (hall _ (List.getElem?_mem he) rfl).1

/-! ## Coalescing, and what ends it -/

/-- C2, as stated, fails. First run: `signin` is called with no credentials
submitted and returns deferred 0; the login exchange is refused with status
403; deferred 0 has been notified and is still pending, so the first call has
not settled; a second `signin` returns deferred 1, not deferred 0, and issues a
second login exchange. Second run: credentials are submitted, `signin` returns
deferred 0, and while the login exchange is still unanswered a sign-out
succeeds; deferred 0 is still pending; a second `signin` returns deferred 2
and issues a second login exchange. -/
theorem second_signin_not_coalesced :
    (signin sampleEnv (State.init none none)).1 = 0 ∧
      signinRefusedOpen.promise 0 = some .pending ∧
      signinRefusedOpen.exchanges = [⟨.login, 0, true⟩] ∧
      signinAfterOpenRefusal.1 = 1 ∧
      signinAfterOpenRefusal.1 ≠ (signin sampleEnv (State.init none none)).1 ∧
      signinAfterOpenRefusal.2.exchanges = [⟨.login, 0, true⟩, ⟨.login, 1, false⟩] ∧
      signinAfterOpenRefusal.2.loginExchanges = 2 ∧
      signingIn.loginRequest.deferred = some 0 ∧
      signedOutDuringLogin.promise 0 = some .pending ∧
      signedOutDuringLogin.exchanges = [⟨.login, 0, false⟩, ⟨.logout, 1, true⟩] ∧
      (signin sampleEnv signedOutDuringLogin).1 = 2 ∧
      (signin sampleEnv signedOutDuringLogin).2.exchanges
        = [⟨.login, 0, false⟩, ⟨.logout, 1, true⟩, ⟨.login, 2, false⟩] ∧
      (signin sampleEnv signedOutDuringLogin).2.loginExchanges = 2 := by
  refine ⟨rfl, rfl, rfl, rfl, ?_, rfl, rfl, rfl, rfl, rfl, rfl, rfl, rfl⟩
  have h1 : signinAfterOpenRefusal.1 = 1 := rfl
  have h0 : (signin sampleEnv (State.init none none)).1 = 0 := rfl
  rw [h1, h0]
  decide

/-- The two handlers that assign `initLogin()` leave the fresh attempt. -/
theorem step_replaces_attempt (env : Env) (s : State) (a : Action)
    (hk : replacesAttempt env s a = true) : (step env s a).loginRequest = initLogin := by
  cases a with
  | httpSuccess i response =>
    show (httpSuccess env i response s).loginRequest = initLogin
    cases he : s.exchanges[i]? with
    | none => simp [replacesAttempt, he] at hk
    | some e =>
      obtain ⟨kind, k, b⟩ := e
      cases kind <;> cases b <;> simp [replacesAttempt, he] at hk
      simp [httpSuccess, he, logoutSuccess, resolve, broadcast]
  | httpError i response =>
    show (httpError env i response s).loginRequest = initLogin
    cases he : s.exchanges[i]? with
    | none => simp [replacesAttempt, he] at hk
    | some e =>
      obtain ⟨kind, k, b⟩ := e
      cases kind <;> cases b <;> simp [replacesAttempt, he] at hk
      rw [httpError_login_handed_on env i response s k he hk, loginFailure_loginRequest]
  | signin => simp [replacesAttempt] at hk
  | signout => simp [replacesAttempt] at hk
  | isAuthenticated => simp [replacesAttempt] at hk
  | setCredentials u p => simp [replacesAttempt] at hk
  | setHttpRequest request => simp [replacesAttempt] at hk
  | responseError rejection => simp [replacesAttempt] at hk
  | runTask => simp [replacesAttempt] at hk

/-- C2, amended: take the call of `signin` that starts an attempt (no login
handle before it). It creates the handle, which is pending, and issues one
login exchange. In every state whose login attempt holds that handle, `signin`
issues no exchange, creates no deferred and returns that same handle. And
after any actions among which neither the failure handler of a login exchange
nor the success handler of a logout exchange has run, the attempt still holds
the handle, so a second call of `signin` there returns the identical handle
and issues no exchange, and from the first call on exactly one login exchange
has been issued. Each of those two handlers leaves the attempt without a
handle, whatever the state of the old one, and a call of `signin` then returns
a deferred that did not exist before, pending, and issues a login exchange for
it. -/
theorem signin_coalesces (env : Env) (s0 : State) (hidle : s0.loginRequest.deferred = none) :
    (signin env s0).2.loginRequest.deferred = some (signin env s0).1 ∧
      (signin env s0).2.promise (signin env s0).1 = some .pending ∧
      (signin env s0).2.exchanges
        = s0.exchanges ++ [{ kind := .login, deferred := (signin env s0).1, delivered := false }] ∧
      (∀ s : State, s.loginRequest.deferred = some (signin env s0).1 →
        (signin env s).1 = (signin env s0).1 ∧
          (signin env s).2.exchanges = s.exchanges ∧
          (signin env s).2.deferreds = s.deferreds ∧
          (signin env s).2.loginRequest.deferred = some (signin env s0).1) ∧
      (∀ actions : List Action, attemptKept env (signin env s0).2 actions = true →
        (run env (signin env s0).2 actions).loginRequest.deferred = some (signin env s0).1 ∧
          (signin env (run env (signin env s0).2 actions)).1 = (signin env s0).1 ∧
          (signin env (run env (signin env s0).2 actions)).2.exchanges
            = (run env (signin env s0).2 actions).exchanges ∧
          (signin env (run env (signin env s0).2 actions)).2.loginExchanges
            = s0.loginExchanges + 1) ∧
      (∀ (s : State) (a : Action), replacesAttempt env s a = true →
        (step env s a).loginRequest.deferred = none ∧
          (step env s a).promise (signin env (step env s a)).1 = none ∧
          (signin env (step env s a)).2.promise (signin env (step env s a)).1
            = some .pending ∧
          (signin env (step env s a)).2.exchanges
            = (step env s a).exchanges ++ [⟨.login, (signin env (step env s a)).1, false⟩]) := by
  obtain ⟨e1, e2, e3, e4⟩ := signin_starts env s0 hidle
  rw [e1]
  refine ⟨e3, e4, e2, ?_, ?_, ?_⟩
  · intro s hs
    exact signin_in_flight env s _ hs
  rotate_left
  · intro s a hk
    have hnone : (step env s a).loginRequest.deferred = none := by
      rw [step_replaces_attempt env s a hk]; rfl
    obtain ⟨g1, g2, -, g4⟩ := signin_starts env _ hnone
    rw [g1]
    refine ⟨hnone, ?_, g4, g2⟩
    unfold State.promise
    rw [List.getElem?_eq_none (Nat.le_refl _)]
    rfl
  · intro actions hk
    have hkept := run_keeps_attempt env _ actions _ hk e3
    have hflight := signin_in_flight env _ _ hkept
    refine ⟨hkept, hflight.1, hflight.2.1, ?_⟩
    have hcount := run_loginExchanges env _ actions _ hk e3
    unfold State.loginExchanges at hcount ⊢
    rw [hflight.2.1, hcount, e2]
    simp

theorem signin_coalesces_witness :
    (State.init none none).loginRequest.deferred = none ∧
      attemptKept sampleEnv (signin sampleEnv (State.init none none)).2
        [.setCredentials "alice" "pw1", .isAuthenticated, .httpError 0 login401, .runTask,
          .signin] = true ∧
      (signin sampleEnv (run sampleEnv (signin sampleEnv (State.init none none)).2
        [.setCredentials "alice" "pw1", .isAuthenticated, .httpError 0 login401, .runTask,
          .signin])).1 = (signin sampleEnv (State.init none none)).1 ∧
      (signin sampleEnv (run sampleEnv (signin sampleEnv (State.init none none)).2
        [.setCredentials "alice" "pw1", .isAuthenticated, .httpError 0 login401, .runTask,
          .signin])).2.loginExchanges = (State.init none none).loginExchanges + 1 :=
  have h := (signin_coalesces sampleEnv (State.init none none) rfl).2.2.2.2.1
    [.setCredentials "alice" "pw1", .isAuthenticated, .httpError 0 login401, .runTask, .signin]
    rfl
  ⟨rfl, rfl, h.2.1, h.2.2.2⟩

/-! ## A failure of the login exchange that the interceptor suspends -/

/-- C4, at the failing input: a login is in flight and the login exchange
answers 401 with a challenge, an answer the interceptor suspends. With
credentials submitted, so `mustTerminate` true: the exchange has been answered,
neither `login.error` nor `login.required` has been broadcast, deferred 0, the
login handle, is neither rejected nor notified, and the attempt is not the
fresh one: it still has the username `alice` and deferred 0. A following
`setCredentials` and `signin` return deferred 0 again and issue no exchange.
With no credentials submitted, so `mustTerminate` false: no `login.required`
either, no notification on the handle, and the attempt keeps deferred 0. -/
theorem login_401_skips_failure_handler :
    signingIn.exchanges = [⟨.login, 0, false⟩] ∧
      signingIn.loginRequest.mustTerminate = true ∧
      suspends sampleEnv login401 = true ∧
      loginChallenged.exchanges = [⟨.login, 0, true⟩] ∧
      loginChallenged.events
        = [.credentialSubmitted "alice" "pw1", .processResponse login401,
            .authenticationHeader ⟨login401.config, 1⟩, .signinRequired] ∧
      loginChallenged.promise 0 = some .pending ∧
      loginChallenged.notified 0 = some 0 ∧
      loginChallenged.queue.length = 0 ∧
      loginChallenged.loginRequest.username = "alice" ∧
      loginChallenged.loginRequest.deferred = some 0 ∧
      loginChallenged.loginRequest ≠ initLogin ∧
      retryAfterChallenge.1 = 0 ∧
      retryAfterChallenge.2.exchanges = [⟨.login, 0, true⟩] ∧
      retryAfterChallenge.2.loginExchanges = 1 ∧
      (run sampleEnv (State.init none none) [.signin]).loginRequest.mustTerminate = false ∧
      openLoginChallenged.exchanges = [⟨.login, 0, true⟩] ∧
      openLoginChallenged.events
        = [.processResponse login401, .authenticationHeader ⟨login401.config, 1⟩,
            .signinRequired] ∧
      openLoginChallenged.promise 0 = some .pending ∧
      openLoginChallenged.notified 0 = some 0 ∧
      openLoginChallenged.loginRequest.deferred = some 0 := by
  refine ⟨rfl, rfl, rfl, rfl, rfl, rfl, rfl, rfl, rfl, rfl, ?_, rfl, rfl, rfl, rfl, rfl, rfl,
    rfl, rfl, rfl⟩
  intro h
  have h2 := congrArg LoginRequest.deferred h
  have h0 : loginChallenged.loginRequest.deferred = some 0 := rfl
  rw [h0] at h2
  cases h2

/-! ## The login handle -/

/-- C12, amended: the handle of a login attempt settles at most once. Take a
login exchange that has not been answered and whose handle is pending, as the
handle of every unanswered exchange is in every state reached from the initial
one. When
the exchange succeeds, the handle is resolved with the response data. When it
fails with an answer that the interceptor rejects (not a 401 that it suspends)
the failure handler runs: with `mustTerminate` true the handle is rejected with
the response data; with `mustTerminate` false it gets one progress
notification and stays pending. Either answer marks the exchange as answered,
and an answered exchange is not answered again: its handlers do not run a
second time. Once the handle is resolved or rejected, it has that same state
in every state of every run that follows. At most one login attempt has a
handle: the service holds one login attempt, so two handles it holds are the
same one, and in every state reached from the initial one the issued exchanges
have pairwise different handles and the handle of the attempt, when there is
one, is the handle of a login exchange. -/
theorem login_handle_settles_at_most_once (env : Env) (i d : Nat) (s : State)
    (he : s.exchanges[i]? = some ⟨.login, d, false⟩) (hp : s.promise d = some .pending) :
    (∀ response : Response,
        (httpSuccess env i response s).promise d = some (.resolved response.data)) ∧
      (∀ response : Response, suspends env response = false →
        s.loginRequest.mustTerminate = true →
          (httpError env i response s).promise d = some (.rejected response.data)) ∧
      (∀ response : Response, suspends env response = false →
        s.loginRequest.mustTerminate = false →
          (httpError env i response s).promise d = some .pending ∧
          (httpError env i response s).notified d = (s.notified d).map (· + 1)) ∧
      (∀ response : Response,
        (httpSuccess env i response s).exchanges[i]? = some ⟨.login, d, true⟩ ∧
          (httpError env i response s).exchanges[i]? = some ⟨.login, d, true⟩) ∧
      (∀ (s2 : State) (j : Nat) (kind : ExchangeKind) (response : Response),
        s2.exchanges[j]? = some ⟨kind, d, true⟩ →
          httpSuccess env j response s2 = s2 ∧ httpError env j response s2 = s2) ∧
      (∀ (s2 : State) (st : Settlement) (actions : List Action), st ≠ .pending →
        s2.promise d = some st → (run env s2 actions).promise d = some st) ∧
      (∀ (s2 : State) (a b : Nat), s2.loginRequest.deferred = some a →
        s2.loginRequest.deferred = some b → a = b) ∧
      (∀ (cookie : Option String) (storage : Option (String × String)) (acts : List Action),
        OneExchangePerHandle (run env (State.init cookie storage) acts)) ∧
      (∀ (cookie : Option String) (storage : Option (String × String)) (acts : List Action)
        (j : Nat) (kind : ExchangeKind) (k : Nat),
        (run env (State.init cookie storage) acts).exchanges[j]? = some ⟨kind, k, false⟩ →
          (run env (State.init cookie storage) acts).promise k = some .pending) := by
  refine ⟨?_, ?_, ?_, ?_, ?_, ?_, ?_, ?_, unanswered_pending env⟩
  · intro response
    exact httpSuccess_login_promise env i response s d he hp
  · intro response hns hm
    obtain ⟨s2, e, hdef, hlog, -⟩ := httpError_handed_on_state env i response s d he hns
    have hp2 : s2.promise d = some .pending := by
      unfold State.promise at hp ⊢
      rw [hdef]; exact hp
    rw [e]
    exact ((loginFailure_effects env d response s2 "" "" hp2).2.1 (by rw [hlog]; exact hm)).2
  · intro response hns hm
    obtain ⟨s2, e, hdef, hlog, -⟩ := httpError_handed_on_state env i response s d he hns
    have hp2 : s2.promise d = some .pending := by
      unfold State.promise at hp ⊢
      rw [hdef]; exact hp
    have hn2 : s2.notified d = s.notified d := by
      unfold State.notified
      rw [hdef]
    rw [e, ← hn2]
    exact ((loginFailure_effects env d response s2 "" "" hp2).1 (by rw [hlog]; exact hm)).2
  · intro response
    rw [httpSuccess_marks_delivered env i response s .login d he,
      httpError_marks_delivered env i response s .login d he]
    exact ⟨getElem?_set_of_some _ _ _ _ he, getElem?_set_of_some _ _ _ _ he⟩
  · intro s2 j kind response h
    exact ⟨httpSuccess_of_delivered env j response s2 kind d h,
      httpError_of_delivered env j response s2 kind d h⟩
  · intro s2 st actions hst h
    exact keeps_run env s2 actions d st hst h
  · intro s2 a b ha hb
    rw [ha] at hb
    exact Option.some.inj hb
  · intro cookie storage acts
    exact oneExchangePerHandle_run env _ acts (State.WellFormed.init cookie storage)
      (oneExchangePerHandle_init cookie storage)

theorem login_handle_settles_at_most_once_witness :
    signingIn.exchanges[0]? = some ⟨.login, 0, false⟩ ∧
      signingIn.promise 0 = some .pending ∧
      suspends sampleEnv loginRefused = false ∧
      signingIn.loginRequest.mustTerminate = true ∧
      (httpSuccess sampleEnv 0 loginOk signingIn).promise 0 = some (.resolved loginOk.data) ∧
      (httpError sampleEnv 0 loginRefused signingIn).promise 0
        = some (.rejected loginRefused.data) ∧
      (run sampleEnv (httpSuccess sampleEnv 0 loginOk signingIn)
          [.runTask, .httpError 0 loginRefused, .signin, .signout]).promise 0
        = some (.resolved loginOk.data) :=
  have h := login_handle_settles_at_most_once sampleEnv 0 0 signingIn rfl rfl
  ⟨rfl, rfl, rfl, rfl, h.1 loginOk, h.2.1 loginRefused rfl rfl,
    h.2.2.2.2.2.1 (httpSuccess sampleEnv 0 loginOk signingIn) (.resolved loginOk.data)
      [.runTask, .httpError 0 loginRefused, .signin, .signout] (by simp) (h.1 loginOk)⟩

/-! ## The attempt after the login exchange is answered -/

/-- C13, amended: take the login exchange of the current attempt, not yet
answered, its handle pending, as the handle of every unanswered exchange is in
every state reached from the initial one. When the exchange fails with an answer that the
interceptor rejects (not a 401 that it suspends), the failure handler runs and
the attempt is replaced by the fresh one of `initLogin`. When the exchange
succeeds, the attempt is kept, with its username, password, `httpRequest` and
deferred, and only `mustTerminate` is set to false; the kept handle is resolved
with the response data. After any actions that follow the success, among which
neither the failure handler of a login exchange nor the success handler of a
logout exchange has run, the handle is still resolved with that data, and a
call of `signin` returns it, creates no deferred and issues no exchange: the
login exchanges issued are as many as before the answer. -/
theorem attempt_after_login (env : Env) (i d : Nat) (s : State)
    (he : s.exchanges[i]? = some ⟨.login, d, false⟩)
    (hd : s.loginRequest.deferred = some d) (hp : s.promise d = some .pending) :
    (∀ response : Response, suspends env response = false →
        (httpError env i response s).loginRequest = initLogin) ∧
      initLogin = ⟨"", "", none, none, false⟩ ∧
      (∀ response : Response,
        (httpSuccess env i response s).loginRequest
            = { s.loginRequest with mustTerminate := false } ∧
          (httpSuccess env i response s).promise d = some (.resolved response.data) ∧
          (∀ actions : List Action,
            attemptKept env (httpSuccess env i response s) actions = true →
              (run env (httpSuccess env i response s) actions).promise d
                  = some (.resolved response.data) ∧
                (signin env (run env (httpSuccess env i response s) actions)).1 = d ∧
                (signin env (run env (httpSuccess env i response s) actions)).2.exchanges
                  = (run env (httpSuccess env i response s) actions).exchanges ∧
                (signin env (run env (httpSuccess env i response s) actions)).2.deferreds
                  = (run env (httpSuccess env i response s) actions).deferreds ∧
                (signin env (run env (httpSuccess env i response s) actions)).2.promise d
                  = some (.resolved response.data) ∧
                (signin env (run env (httpSuccess env i response s) actions)).2.loginExchanges
                  = s.loginExchanges)) ∧
      (∀ (cookie : Option String) (storage : Option (String × String)) (acts : List Action)
        (j : Nat) (k : Nat),
        (run env (State.init cookie storage) acts).exchanges[j]? = some ⟨.login, k, false⟩ →
          (run env (State.init cookie storage) acts).promise k = some .pending) := by
  refine ⟨?_, rfl, ?_, fun cookie storage acts j k =>
    unanswered_pending env cookie storage acts j .login k⟩
  · intro response hns
    rw [httpError_login_handed_on env i response s d he hns, loginFailure_loginRequest]
  · intro response
    have hkeep := httpSuccess_login_attempt env i response s d he
    have hres := httpSuccess_login_promise env i response s d he hp
    have hd2 : (httpSuccess env i response s).loginRequest.deferred = some d := by
      rw [hkeep]; exact hd
    refine ⟨hkeep, hres, ?_⟩
    intro actions hk
    have hkept := run_keeps_attempt env _ actions d hk hd2
    have hstay := keeps_run env _ actions d (.resolved response.data) (by simp) hres
    obtain ⟨f1, f2, f3, -⟩ := signin_in_flight env _ d hkept
    refine ⟨hstay, f1, f2, f3, ?_, ?_⟩
    · unfold State.promise at hstay ⊢
      rw [f3]; exact hstay
    · have hcount := run_loginExchanges env _ actions d hk hd2
      unfold State.loginExchanges at hcount ⊢
      rw [f2, hcount, kinds_of_calls (httpSuccess_calls env i response s)]

theorem attempt_after_login_witness :
    signingIn.exchanges[0]? = some ⟨.login, 0, false⟩ ∧
      signingIn.loginRequest.deferred = some 0 ∧
      signingIn.promise 0 = some .pending ∧
      suspends sampleEnv loginRefused = false ∧
      (httpError sampleEnv 0 loginRefused signingIn).loginRequest = initLogin ∧
      attemptKept sampleEnv (httpSuccess sampleEnv 0 loginOk signingIn)
        [.runTask, .isAuthenticated] = true ∧
      (run sampleEnv (httpSuccess sampleEnv 0 loginOk signingIn)
          [.runTask, .isAuthenticated]).promise 0 = some (.resolved loginOk.data) ∧
      (signin sampleEnv (run sampleEnv (httpSuccess sampleEnv 0 loginOk signingIn)
          [.runTask, .isAuthenticated])).1 = 0 ∧
      (signin sampleEnv (run sampleEnv (httpSuccess sampleEnv 0 loginOk signingIn)
          [.runTask, .isAuthenticated])).2.loginExchanges = signingIn.loginExchanges :=
  have h := attempt_after_login sampleEnv 0 0 signingIn rfl rfl rfl
  have h2 := (h.2.2.1 loginOk).2.2 [.runTask, .isAuthenticated] rfl
  ⟨rfl, rfl, rfl, rfl, h.1 loginRefused rfl, rfl, h2.1, h2.2.1, h2.2.2.2.2.2⟩

end DgAuth
